import Mathlib

/-!
RBAC expand / flatten mappers of the Kubernetes provider

A shallow embedding of `kubernetes/structures_rbac.go`: the functions that
translate between the dynamically typed attribute tree (`interface{}` values)
and the typed RBAC objects `PolicyRule`, `RoleRef` and `Subject`.

* A Go slice is `Slice α`: either the nil slice or an allocated sequence.
* A Go `interface{}` value is `Val`, tagged with its dynamic type.
* A Go `map[string]interface{}` is an association list read with `GoMap.lookup`;
  two maps are the same Go map when they agree on every key (`GoMap.Same`).
* A failed single-value type assertion (a Go panic) is `none`.
-/

namespace Rbac

/-! ## Go values -/

/-- A Go slice: the nil slice, or an allocated (possibly zero-length) sequence. -/
inductive Slice (α : Type) where
  | nil : Slice α
  | mk (xs : List α) : Slice α
deriving DecidableEq, Repr

/-- The elements of a slice, in order; the nil slice has none. -/
def Slice.toList {α : Type} : Slice α → List α
  | Slice.nil => []
  | Slice.mk xs => xs

/-- Go's `len(s)`. -/
def Slice.len {α : Type} (s : Slice α) : Nat := s.toList.length

/-- Go's `s == nil`. -/
def Slice.isNil {α : Type} : Slice α → Bool
  | Slice.nil => true
  | Slice.mk _ => false

/-- A Go `interface{}` value together with its dynamic type. -/
inductive Val where
  | null : Val
  | str (s : String) : Val
  | int (n : Int) : Val
  | bool (b : Bool) : Val
  | strs (xs : Slice String) : Val
  | list (xs : Slice Val) : Val
  | map (kvs : List (String × Val)) : Val

/-- A Go `map[string]interface{}`: the first binding of a key is the live one. -/
abbrev GoMap := List (String × Val)

/-- The binding of `k`, if the map has that key. -/
def GoMap.lookup (m : GoMap) (k : String) : Option Val := List.lookup k m

/-- Go's `m[k]`: the bound value, or the nil interface when the key is absent. -/
def GoMap.index (m : GoMap) (k : String) : Val := (GoMap.lookup m k).getD Val.null

/-- Go's `m[k] = v`. -/
def GoMap.set (m : GoMap) (k : String) (v : Val) : GoMap :=
  (k, v) :: m.filter (fun p => p.1 != k)

/-- Go's `_, ok := m[k]`. -/
def GoMap.has (m : GoMap) (k : String) : Bool := (GoMap.lookup m k).isSome

/-- Two association lists denote the same Go map. -/
def GoMap.Same (m₁ m₂ : GoMap) : Prop := ∀ k, GoMap.lookup m₁ k = GoMap.lookup m₂ k

/-- Go's `v.(string)` in its comma-ok form. -/
def Val.asString : Val → Option String
  | Val.str s => some s
  | _ => none

/-- Go's `v.([]interface{})` in its comma-ok form. -/
def Val.asList : Val → Option (Slice Val)
  | Val.list xs => some xs
  | _ => none

/-- Go's `v.(map[string]interface{})` in its comma-ok form. -/
def Val.asMap : Val → Option GoMap
  | Val.map kvs => some kvs
  | _ => none

/-- Apply a fallible function to every element, in order; fail if one fails. -/
def mapOpt {α β : Type} (f : α → Option β) : List α → Option (List β)
  | [] => some []
  | x :: xs => (f x).bind (fun y => (mapOpt f xs).map (fun ys => y :: ys))

/-- The sequence of strings a list-valued attribute carries, whichever of the two
dynamic types (`[]interface{}` of strings, or `[]string`) holds it. -/
def Val.strings : Val → Option (List String)
  | Val.strs xs => some xs.toList
  | Val.list xs => mapOpt Val.asString xs.toList
  | _ => none

/-! ## Typed objects (`k8s.io/api/rbac/v1`) -/

/-- The five list fields of `rbacv1.PolicyRule`. -/
structure PolicyRule where
  Verbs : Slice String := Slice.nil
  APIGroups : Slice String := Slice.nil
  Resources : Slice String := Slice.nil
  ResourceNames : Slice String := Slice.nil
  NonResourceURLs : Slice String := Slice.nil
deriving DecidableEq, Repr

/-- The record `rbacv1.RoleRef`. -/
structure RoleRef where
  APIGroup : String := ""
  Kind : String := ""
  Name : String := ""
deriving DecidableEq, Repr

/-- The record `rbacv1.Subject`. -/
structure Subject where
  Kind : String := ""
  APIGroup : String := ""
  Name : String := ""
  Namespace : String := ""
deriving DecidableEq, Repr

/-! ## Loops over slices -/

/-- Go's `make([]T, n)`: `n` zero values. -/
def makeSlice {α : Type} (zero : α) (n : Nat) : List α := List.replicate n zero

/-- Go's `xs[i] = f(xs[i])`; out of range leaves the list alone. -/
def updateAt {α : Type} (xs : List α) (i : Nat) (f : α → α) : List α :=
  match xs, i with
  | [], _ => []
  | x :: rest, 0 => f x :: rest
  | x :: rest, i + 1 => x :: updateAt rest i f

/-- Go's `for i, v := range xs { body }` from index `i` on, threading the state
the body mutates; a panic in the body (`none`) aborts the loop. -/
def rangeFrom {α σ : Type} (body : Nat → α → σ → Option σ) : Nat → List α → σ → Option σ
  | _, [], st => some st
  | i, v :: rest, st => (body i v st).bind (rangeFrom body (i + 1) rest)

/-! ## `structures_rbac.go` -/

/-- Modelled from the spec: `expandStringSlice`, which `expandRules` calls and whose
body is not among the source files. Section 4.2: list-valued fields map element-wise,
preserving order; section 8: the result is an empty sequence, not an absent one, so
the result is always an allocated slice. Each entry is read as a string; an entry
of another dynamic type makes the conversion fail. -/
def expandStringSlice (s : Slice Val) : Option (Slice String) :=
  (mapOpt Val.asString s.toList).map Slice.mk

/-- One `if xs, ok := rule[key].([]interface{}); ok { rules[i].F = expandStringSlice(xs) }`
statement of `expandRules`, with `put` the assignment to field `F`. -/
def expandRulesField (rule : GoMap) (key : String) (put : PolicyRule → Slice String → PolicyRule)
    (i : Nat) (rules : List PolicyRule) : Option (List PolicyRule) :=
  match (GoMap.index rule key).asList with
  | some xs => (expandStringSlice xs).map (fun ss => updateAt rules i (fun r => put r ss))
  | none => some rules

/-- The body of the loop of `expandRules`. -/
def expandRulesBody (i : Nat) (v : Val) (rules : List PolicyRule) : Option (List PolicyRule) := do
  let rule ← v.asMap
  let rules ← expandRulesField rule "verbs" (fun r ss => { r with Verbs := ss }) i rules
  let rules ← expandRulesField rule "api_groups" (fun r ss => { r with APIGroups := ss }) i rules
  let rules ← expandRulesField rule "resources" (fun r ss => { r with Resources := ss }) i rules
  let rules ← expandRulesField rule "resource_names" (fun r ss => { r with ResourceNames := ss }) i rules
  expandRulesField rule "non_resource_urls" (fun r ss => { r with NonResourceURLs := ss }) i rules

/-- The function `expandRules`. -/
def expandRules (a : Slice Val) : Option (Slice PolicyRule) :=
  if a.len = 0 then some (Slice.mk [])
  else (rangeFrom expandRulesBody 0 a.toList (makeSlice {} a.len)).map Slice.mk

/-- The body of the loop of `flattenRules`. -/
def flattenRulesBody (i : Nat) (v : PolicyRule) (rules : List Val) : Option (List Val) :=
  let rule : GoMap := []
  let rule := GoMap.set rule "verbs" (Val.strs v.Verbs)
  let rule := GoMap.set rule "api_groups" (Val.strs v.APIGroups)
  let rule := GoMap.set rule "resources" (Val.strs v.Resources)
  let rule := GoMap.set rule "resource_names" (Val.strs v.ResourceNames)
  let rule := GoMap.set rule "non_resource_urls" (Val.strs v.NonResourceURLs)
  some (updateAt rules i (fun _ => Val.map rule))

/-- The function `flattenRules`. -/
def flattenRules (a : Slice PolicyRule) : Slice Val :=
  Slice.mk ((rangeFrom flattenRulesBody 0 a.toList (makeSlice Val.null a.len)).getD [])

/-- The function `expandRoleRef`; each `in[k].(string)` panics unless `k` holds a string. -/
def expandRoleRef (a : GoMap) : Option RoleRef := do
  let apiGroup ← (GoMap.index a "api_group").asString
  let kind ← (GoMap.index a "kind").asString
  let name ← (GoMap.index a "name").asString
  some { APIGroup := apiGroup, Kind := kind, Name := name }

/-- The function `flattenRoleRef`. -/
def flattenRoleRef (a : RoleRef) : Val :=
  let att : GoMap := []
  let att := GoMap.set att "api_group" (Val.str a.APIGroup)
  let att := GoMap.set att "kind" (Val.str a.Kind)
  let att := GoMap.set att "name" (Val.str a.Name)
  Val.map att

/-- One `if x, ok := subject[key].(string); ok { subjects[i].F = x }` statement of
`expandSubjects`, with `put` the assignment to field `F`. -/
def expandSubjectsField (subject : GoMap) (key : String) (put : Subject → String → Subject)
    (i : Nat) (subjects : List Subject) : List Subject :=
  match (GoMap.index subject key).asString with
  | some x => updateAt subjects i (fun s => put s x)
  | none => subjects

/-- The body of the loop of `expandSubjects`. -/
def expandSubjectsBody (i : Nat) (v : Val) (subjects : List Subject) : Option (List Subject) := do
  let subject ← v.asMap
  let subjects := expandSubjectsField subject "kind" (fun s x => { s with Kind := x }) i subjects
  let subjects := expandSubjectsField subject "api_group" (fun s x => { s with APIGroup := x }) i subjects
  let subjects := expandSubjectsField subject "name" (fun s x => { s with Name := x }) i subjects
  let subjects := expandSubjectsField subject "namespace" (fun s x => { s with Namespace := x }) i subjects
  some subjects

/-- The function `expandSubjects`. -/
def expandSubjects (s : Slice Val) : Option (Slice Subject) :=
  if s.len = 0 then some (Slice.mk [])
  else (rangeFrom expandSubjectsBody 0 s.toList (makeSlice {} s.len)).map Slice.mk

/-- The body of the loop of `flattenSubjects`. -/
def flattenSubjectsBody (i : Nat) (v : Subject) (att : List Val) : Option (List Val) :=
  let obj : GoMap := []
  let obj := GoMap.set obj "kind" (Val.str v.Kind)
  let obj := if v.APIGroup ≠ "" then GoMap.set obj "api_group" (Val.str v.APIGroup) else obj
  let obj := GoMap.set obj "name" (Val.str v.Name)
  let obj := GoMap.set obj "namespace" (Val.str v.Namespace)
  some (updateAt att i (fun _ => Val.map obj))

/-- The function `flattenSubjects`. -/
def flattenSubjects (a : Slice Subject) : Slice Val :=
  Slice.mk ((rangeFrom flattenSubjectsBody 0 a.toList (makeSlice Val.null a.len)).getD [])

/-! ## Element-wise readings of the four loops -/

/-- What one field statement of `expandRules` does to the rule at index `i`. -/
def expandRulesFieldElem (rule : GoMap) (key : String)
    (put : PolicyRule → Slice String → PolicyRule) (r : PolicyRule) : Option PolicyRule :=
  match (GoMap.index rule key).asList with
  | some xs => (expandStringSlice xs).map (fun ss => put r ss)
  | none => some r

/-- What one iteration of `expandRules` stores at index `i`, from element `v` alone. -/
def expandRulesElem (v : Val) : Option PolicyRule := do
  let rule ← v.asMap
  let r ← expandRulesFieldElem rule "verbs" (fun r ss => { r with Verbs := ss }) {}
  let r ← expandRulesFieldElem rule "api_groups" (fun r ss => { r with APIGroups := ss }) r
  let r ← expandRulesFieldElem rule "resources" (fun r ss => { r with Resources := ss }) r
  let r ← expandRulesFieldElem rule "resource_names" (fun r ss => { r with ResourceNames := ss }) r
  expandRulesFieldElem rule "non_resource_urls" (fun r ss => { r with NonResourceURLs := ss }) r

/-- The map one iteration of `flattenRules` builds from rule `v`. -/
def flattenRulesMap (v : PolicyRule) : GoMap :=
  GoMap.set (GoMap.set (GoMap.set (GoMap.set (GoMap.set [] "verbs" (Val.strs v.Verbs))
    "api_groups" (Val.strs v.APIGroups)) "resources" (Val.strs v.Resources))
    "resource_names" (Val.strs v.ResourceNames)) "non_resource_urls" (Val.strs v.NonResourceURLs)

/-- What one field statement of `expandSubjects` does to the subject at index `i`. -/
def expandSubjectsFieldElem (subject : GoMap) (key : String)
    (put : Subject → String → Subject) (s : Subject) : Subject :=
  match (GoMap.index subject key).asString with
  | some x => put s x
  | none => s

/-- What one iteration of `expandSubjects` stores at index `i`, from element `v` alone. -/
def expandSubjectsElem (v : Val) : Option Subject :=
  v.asMap.map (fun subject =>
    expandSubjectsFieldElem subject "namespace" (fun s x => { s with Namespace := x })
      (expandSubjectsFieldElem subject "name" (fun s x => { s with Name := x })
        (expandSubjectsFieldElem subject "api_group" (fun s x => { s with APIGroup := x })
          (expandSubjectsFieldElem subject "kind" (fun s x => { s with Kind := x }) {}))))

/-- The map one iteration of `flattenSubjects` builds from subject `v`. -/
def flattenSubjectsMap (v : Subject) : GoMap :=
  let obj := GoMap.set [] "kind" (Val.str v.Kind)
  let obj := if v.APIGroup ≠ "" then GoMap.set obj "api_group" (Val.str v.APIGroup) else obj
  GoMap.set (GoMap.set obj "name" (Val.str v.Name)) "namespace" (Val.str v.Namespace)

/-! ## Shapes of attribute-tree input -/

/-- The five list-valued keys of a rule block. -/
def ruleKeys : List String :=
  ["verbs", "api_groups", "resources", "resource_names", "non_resource_urls"]

/-- A `[]interface{}` all of whose entries are strings. -/
def isStringList : Val → Bool
  | Val.list xs => xs.toList.all (fun e => e.asString.isSome)
  | _ => false

/-- A rule block: a map giving each of the five rule keys as a list of strings. -/
def isRuleBlock : Val → Bool
  | Val.map m => ruleKeys.all (fun k => isStringList (GoMap.index m k))
  | _ => false

/-- Element `i` of a list of attribute-tree values (the nil interface out of range). -/
def elemAt (xs : List Val) (i : Nat) : Val := xs.getD i Val.null

/-- The strings under key `k` of a map-valued element, if it is a map that has
the key bound to a list of strings. -/
def Val.field (v : Val) (k : String) : Option (List String) :=
  v.asMap.bind (fun m => (GoMap.lookup m k).bind Val.strings)

/-- What `expandRules` assigns to the field read from `key`: the converted list
when the key holds a `[]interface{}`, the untouched nil slice otherwise; `none`
when the conversion fails. -/
def readRuleField (rule : GoMap) (key : String) : Option (Slice String) :=
  match (GoMap.index rule key).asList with
  | some xs => expandStringSlice xs
  | none => some Slice.nil

/-- What `expandSubjects` leaves in the field read from `key`: the string under
the key, or the zero value when the key holds no string. -/
def readSubjectField (subject : GoMap) (key : String) : String :=
  match (GoMap.index subject key).asString with
  | some x => x
  | none => ""

/-- A value that `expandRules` accepts under a rule key: anything that is not a
`[]interface{}`, or a `[]interface{}` of strings. -/
def isRuleFieldOk : Val → Bool
  | Val.list xs => xs.toList.all (fun e => e.asString.isSome)
  | _ => true

/-- A map whose five rule keys are each absent, of another type, or a list of strings. -/
def isLooseRuleBlock : Val → Bool
  | Val.map m => ruleKeys.all (fun k => isRuleFieldOk (GoMap.index m k))
  | _ => false

/-- The four keys of a subject block. -/
def subjectKeys : List String := ["kind", "api_group", "name", "namespace"]

/-- A subject block: a map whose only keys are kind, name, namespace (strings)
and optionally api_group (a string). -/
def isSubjectBlock : Val → Bool
  | Val.map m =>
    m.all (fun p => subjectKeys.contains p.1)
      && (GoMap.index m "kind").asString.isSome
      && (GoMap.index m "name").asString.isSome
      && (GoMap.index m "namespace").asString.isSome
      && (!(GoMap.has m "api_group") || (GoMap.index m "api_group").asString.isSome)
  | _ => false

/-- Go's `delete(m, k)`. -/
def GoMap.delete (m : GoMap) (k : String) : GoMap := m.filter (fun p => p.1 != k)

/-- The map `m` with its api_group key removed when that key holds the empty string. -/
def dropEmptyApiGroup (m : GoMap) : GoMap :=
  match GoMap.lookup m "api_group" with
  | some (Val.str g) => if g = "" then GoMap.delete m "api_group" else m
  | _ => m

/-- The three keys of a role_ref block. -/
def roleRefKeys : List String := ["api_group", "kind", "name"]

/-- A role_ref block: a map with exactly the keys api_group, kind and name, holding strings. -/
def isRoleRefBlock (m : GoMap) : Bool :=
  m.all (fun p => roleRefKeys.contains p.1)
    && roleRefKeys.all (fun k => (GoMap.index m k).asString.isSome)

/-- The `[]interface{}` of the given strings. -/
def strList (ss : List String) : Val := Val.list (Slice.mk (ss.map Val.str))

/-- The five rule keys, each with the `PolicyRule` field it is mapped to. -/
def ruleFields : List (String × (PolicyRule → Slice String)) :=
  [("verbs", PolicyRule.Verbs), ("api_groups", PolicyRule.APIGroups),
   ("resources", PolicyRule.Resources), ("resource_names", PolicyRule.ResourceNames),
   ("non_resource_urls", PolicyRule.NonResourceURLs)]

/-- The four subject keys, each with the `Subject` field it is mapped to. -/
def subjectFields : List (String × (Subject → String)) :=
  [("kind", Subject.Kind), ("api_group", Subject.APIGroup), ("name", Subject.Name),
   ("namespace", Subject.Namespace)]

/-! ## Sample inputs -/

/-- The rule block of the acceptance test: verbs get and list on configmaps. -/
def sampleRuleBlock : Val :=
  Val.map [("verbs", strList ["get", "list"]), ("api_groups", strList [""]),
    ("resources", strList ["configmaps"]), ("resource_names", strList []),
    ("non_resource_urls", strList [])]

/-- A rule block that has no resource_names key. -/
def sampleRuleBlockNoNames : Val :=
  Val.map [("verbs", strList ["get", "list"]), ("api_groups", strList [""]),
    ("resources", strList ["configmaps"])]

/-- A typed rule with verbs get and list on configmaps. -/
def sampleRule : PolicyRule :=
  { Verbs := Slice.mk ["get", "list"], APIGroups := Slice.mk [""],
    Resources := Slice.mk ["configmaps"] }

/-- A subject block whose api_group is the empty string. -/
def sampleSubjectBlock : Val :=
  Val.map [("kind", Val.str "ServiceAccount"), ("api_group", Val.str ""),
    ("name", Val.str "default"), ("namespace", Val.str "kube-system")]

/-- A subject block with a non-empty api_group. -/
def sampleSubjectBlockGroup : Val :=
  Val.map [("kind", Val.str "User"), ("api_group", Val.str "rbac.authorization.k8s.io"),
    ("name", Val.str "admin"), ("namespace", Val.str "")]

/-- A typed subject with an empty APIGroup. -/
def sampleSubject : Subject :=
  { Kind := "ServiceAccount", Name := "default", Namespace := "kube-system" }

/-- A typed subject with a non-empty APIGroup. -/
def sampleSubjectGroup : Subject :=
  { Kind := "User", APIGroup := "rbac.authorization.k8s.io", Name := "admin" }

/-- A role_ref block. -/
def sampleRoleRefBlock : GoMap :=
  [("api_group", Val.str "rbac.authorization.k8s.io"), ("kind", Val.str "ClusterRole"),
    ("name", Val.str "cluster-admin")]

/-- A typed role reference. -/
def sampleRoleRef : RoleRef :=
  { APIGroup := "rbac.authorization.k8s.io", Kind := "ClusterRole", Name := "cluster-admin" }

/-! ## Resource handlers: errors, objects, resource data, backing client -/

/-- A Go `error` value: a `*errors.StatusError` with its `ErrStatus.Code` and message,
or an error of any other type with its message. -/
inductive GoError where
  | status (code : Int) (message : String) : GoError
  | plain (message : String) : GoError
deriving DecidableEq, Repr

/-- Go's `err.Error()`. -/
def GoError.Error : GoError → String
  | GoError.status _ message => message
  | GoError.plain message => message

/-- Go's `fmt.Errorf(pre + "%s", err)`: a fresh error whose message is `pre` followed
by the message of `err`. -/
def errorf (pre : String) (err : GoError) : GoError := GoError.plain (pre ++ err.Error)

/-- Go's `statusErr, ok := err.(*errors.StatusError); ok && statusErr.ErrStatus.Code == 404`. -/
def isStatus404 : GoError → Bool
  | GoError.status code _ => code == 404
  | GoError.plain _ => false

/-- The part of `metav1.ObjectMeta` the provider configures. -/
structure ObjectMeta where
  Name : String := ""
  GenerateName : String := ""
  Namespace : String := ""
  Labels : List (String × String) := []
  Annotations : List (String × String) := []
deriving DecidableEq, Repr

/-- The object `rbacv1.ClusterRole`. -/
structure ClusterRole where
  ObjectMeta : ObjectMeta := {}
  Rules : Slice PolicyRule := Slice.nil
deriving DecidableEq, Repr

/-- The object `rbacv1.ClusterRoleBinding`. -/
structure ClusterRoleBinding where
  ObjectMeta : ObjectMeta := {}
  RoleRef : RoleRef := {}
  Subjects : Slice Subject := Slice.nil
deriving DecidableEq, Repr

/-- The payload of a patch operation: what the handlers put in `Value`. -/
inductive PatchValue where
  | rules (rs : Slice PolicyRule) : PatchValue
  | subjects (ss : Slice Subject) : PatchValue
  | val (v : String) : PatchValue
deriving DecidableEq, Repr

/-- Modelled from the spec: the patch operation type of the repository's patch builder,
which is not among the source files. Section 3: kind replace, add or remove, a
slash-delimited path, an optional value. `replace` is `ReplaceOperation{Path, Value}`. -/
inductive PatchOp where
  | replace (path : String) (value : PatchValue) : PatchOp
  | add (path : String) (value : PatchValue) : PatchOp
  | remove (path : String) : PatchOp
deriving DecidableEq, Repr

/-- The patch types of `k8s.io/apimachinery/pkg/types`. -/
inductive PatchType where
  | JSONPatchType : PatchType
  | MergePatchType : PatchType
  | StrategicMergePatchType : PatchType
deriving DecidableEq, Repr

/-- The state behind a `*schema.ResourceData`: the stored identifier (`d.Id()`), the
attribute tree (`d.Get`), and the keys for which `d.HasChange` is true. -/
structure ResourceData where
  id : String
  attrs : GoMap
  changed : List String

/-- The helpers the handlers call that are not among the source files, taken as
parameters, together with the conversion `d.Set` applies before storing a value. -/
structure Helpers where
  idParts : String → Except GoError (String × String)
  buildId : ObjectMeta → String
  expandMetadata : Slice Val → ObjectMeta
  flattenMetadata : ObjectMeta → ResourceData → Val
  patchMetadata : String → String → ResourceData → List PatchOp
  marshalJSON : List PatchOp → Except GoError String
  fieldWriter : String → Val → Except GoError Val

/-- Go's `d.Get(key)`. -/
def ResourceData.Get (d : ResourceData) (key : String) : Val := GoMap.index d.attrs key

/-- Go's `d.HasChange(key)`. -/
def ResourceData.HasChange (d : ResourceData) (key : String) : Bool := d.changed.contains key

/-- Go's `d.SetId(id)`. -/
def ResourceData.SetId (d : ResourceData) (id : String) : ResourceData := { d with id := id }

/-- Go's `d.Set(key, value)`: the value is converted by the schema and stored, or the
conversion fails and nothing is stored. -/
def ResourceData.Set (h : Helpers) (d : ResourceData) (key : String) (value : Val) :
    Except GoError ResourceData :=
  match h.fieldWriter key value with
  | Except.error err => Except.error err
  | Except.ok stored => Except.ok { d with attrs := GoMap.set d.attrs key stored }

/-- The typed client of one resource kind (`conn.RbacV1().ClusterRoles()`, resp.
`ClusterRoleBindings()`), over a server state `σ` its calls may read and change. -/
structure Client (Obj σ : Type) where
  Create : Obj → σ → Except GoError Obj × σ
  Get : String → σ → Except GoError Obj × σ
  Patch : String → PatchType → String → σ → Except GoError Obj × σ
  Delete : String → σ → Option GoError × σ

/-- A call made to the backing client. -/
inductive Call (Obj : Type) where
  | Create (obj : Obj) : Call Obj
  | Get (name : String) : Call Obj
  | Patch (name : String) (pt : PatchType) (data : String) : Call Obj
  | Delete (name : String) : Call Obj
deriving DecidableEq, Repr

/-- What a handler runs against: the resource data, the server state, and the calls
made to the backing client so far. -/
structure World (Obj σ : Type) where
  d : ResourceData
  srv : σ
  calls : List (Call Obj)

/-- Record a call and the server state it left. -/
def World.called {Obj σ : Type} (w : World Obj σ) (c : Call Obj) (srv : σ) : World Obj σ :=
  { w with srv := srv, calls := w.calls ++ [c] }

/-! ## `resource_kubernetes_cluster_role.go` -/

/-- The handler `resourceKubernetesClusterRoleRead`: the error it returns (`none` for
nil) and the world it leaves. -/
def resourceKubernetesClusterRoleRead {σ : Type} (h : Helpers) (conn : Client ClusterRole σ)
    (w : World ClusterRole σ) : Option GoError × World ClusterRole σ :=
  match h.idParts w.d.id with
  | Except.error err => (some err, w)
  | Except.ok (_, name) =>
    match conn.Get name w.srv with
    | (Except.error err, srv) => (some err, w.called (Call.Get name) srv)
    | (Except.ok crb, srv) =>
      let w := w.called (Call.Get name) srv
      match ResourceData.Set h w.d "metadata" (h.flattenMetadata crb.ObjectMeta w.d) with
      | Except.error err => (some err, w)
      | Except.ok d =>
        match ResourceData.Set h d "rule" (Val.list (flattenRules crb.Rules)) with
        | Except.error err => (some err, { w with d := d })
        | Except.ok d => (none, { w with d := d })

/-- The handler `resourceKubernetesClusterRoleCreate`; `none` is a panic of one of
the type assertions or of `expandRules`. -/
def resourceKubernetesClusterRoleCreate {σ : Type} (h : Helpers) (conn : Client ClusterRole σ)
    (w : World ClusterRole σ) : Option (Option GoError × World ClusterRole σ) := do
  let metadata ← (w.d.Get "metadata").asList
  let rule ← (w.d.Get "rule").asList
  let rules ← expandRules rule
  let clusterRole : ClusterRole := { ObjectMeta := h.expandMetadata metadata, Rules := rules }
  match conn.Create clusterRole w.srv with
  | (Except.error err, srv) => some (some err, w.called (Call.Create clusterRole) srv)
  | (Except.ok out, srv) =>
    let w := w.called (Call.Create clusterRole) srv
    let w := { w with d := w.d.SetId (h.buildId out.ObjectMeta) }
    some (resourceKubernetesClusterRoleRead h conn w)

/-- The handler `resourceKubernetesClusterRoleExists`: the pair it returns and the
world it leaves. -/
def resourceKubernetesClusterRoleExists {σ : Type} (h : Helpers) (conn : Client ClusterRole σ)
    (w : World ClusterRole σ) : (Bool × Option GoError) × World ClusterRole σ :=
  match h.idParts w.d.id with
  | Except.error err => ((false, some err), w)
  | Except.ok (_, name) =>
    match conn.Get name w.srv with
    | (Except.error err, srv) =>
      if isStatus404 err then ((false, none), w.called (Call.Get name) srv)
      else ((true, some err), w.called (Call.Get name) srv)
    | (Except.ok _, srv) => ((true, none), w.called (Call.Get name) srv)

/-- The statement `if d.HasChange("rule") { ... ops = append(ops, ...) }` of
`resourceKubernetesClusterRoleUpdate`; `none` is a panic of the type assertion or of
`expandRules`. -/
def clusterRoleUpdateOps (ops : List PatchOp) (d : ResourceData) : Option (List PatchOp) :=
  if d.HasChange "rule" then do
    let rule ← (d.Get "rule").asList
    let rules ← expandRules rule
    some (ops ++ [PatchOp.replace "/rules" (PatchValue.rules rules)])
  else some ops

/-- The handler `resourceKubernetesClusterRoleUpdate`. -/
def resourceKubernetesClusterRoleUpdate {σ : Type} (h : Helpers) (conn : Client ClusterRole σ)
    (w : World ClusterRole σ) : Option (Option GoError × World ClusterRole σ) :=
  match h.idParts w.d.id with
  | Except.error err => some (some err, w)
  | Except.ok (_, name) => do
    let ops := h.patchMetadata "metadata.0." "/metadata/" w.d
    let ops ← clusterRoleUpdateOps ops w.d
    match h.marshalJSON ops with
    | Except.error err => some (some (errorf "Failed to marshal update operations: " err), w)
    | Except.ok data =>
      match conn.Patch name PatchType.JSONPatchType data w.srv with
      | (Except.error err, srv) =>
        some (some (errorf "Failed to update cluster role: " err),
          w.called (Call.Patch name PatchType.JSONPatchType data) srv)
      | (Except.ok _, srv) =>
        some (resourceKubernetesClusterRoleRead h conn
          (w.called (Call.Patch name PatchType.JSONPatchType data) srv))

/-- The handler `resourceKubernetesClusterRoleDelete`. -/
def resourceKubernetesClusterRoleDelete {σ : Type} (h : Helpers) (conn : Client ClusterRole σ)
    (w : World ClusterRole σ) : Option GoError × World ClusterRole σ :=
  match h.idParts w.d.id with
  | Except.error err => (some err, w)
  | Except.ok (_, name) =>
    match conn.Delete name w.srv with
    | (some err, srv) => (some err, w.called (Call.Delete name) srv)
    | (none, srv) =>
      let w := w.called (Call.Delete name) srv
      (none, { w with d := w.d.SetId "" })

/-! ## `resource_kubernetes_cluster_role_binding.go` -/

/-- The handler `resourceKubernetesClusterRoleBindingRead`. -/
def resourceKubernetesClusterRoleBindingRead {σ : Type} (h : Helpers)
    (conn : Client ClusterRoleBinding σ) (w : World ClusterRoleBinding σ) :
    Option GoError × World ClusterRoleBinding σ :=
  match h.idParts w.d.id with
  | Except.error err => (some err, w)
  | Except.ok (_, name) =>
    match conn.Get name w.srv with
    | (Except.error err, srv) => (some err, w.called (Call.Get name) srv)
    | (Except.ok crb, srv) =>
      let w := w.called (Call.Get name) srv
      match ResourceData.Set h w.d "metadata" (h.flattenMetadata crb.ObjectMeta w.d) with
      | Except.error err => (some err, w)
      | Except.ok d =>
        match ResourceData.Set h d "role_ref" (flattenRoleRef crb.RoleRef) with
        | Except.error err => (some err, { w with d := d })
        | Except.ok d =>
          match ResourceData.Set h d "subject" (Val.list (flattenSubjects crb.Subjects)) with
          | Except.error err => (some err, { w with d := d })
          | Except.ok d => (none, { w with d := d })

/-- The handler `resourceKubernetesClusterRoleBindingCreate`; `none` is a panic of one
of the type assertions, of `expandRoleRef` or of `expandSubjects`. -/
def resourceKubernetesClusterRoleBindingCreate {σ : Type} (h : Helpers)
    (conn : Client ClusterRoleBinding σ) (w : World ClusterRoleBinding σ) :
    Option (Option GoError × World ClusterRoleBinding σ) := do
  let metadata ← (w.d.Get "metadata").asList
  let roleRefBlock ← (w.d.Get "role_ref").asMap
  let roleRef ← expandRoleRef roleRefBlock
  let subject ← (w.d.Get "subject").asList
  let subjects ← expandSubjects subject
  let clusterRoleBinding : ClusterRoleBinding :=
    { ObjectMeta := h.expandMetadata metadata, RoleRef := roleRef, Subjects := subjects }
  match conn.Create clusterRoleBinding w.srv with
  | (Except.error err, srv) => some (some err, w.called (Call.Create clusterRoleBinding) srv)
  | (Except.ok out, srv) =>
    let w := w.called (Call.Create clusterRoleBinding) srv
    let w := { w with d := w.d.SetId (h.buildId out.ObjectMeta) }
    some (resourceKubernetesClusterRoleBindingRead h conn w)

/-- The handler `resourceKubernetesClusterRoleBindingExists`. -/
def resourceKubernetesClusterRoleBindingExists {σ : Type} (h : Helpers)
    (conn : Client ClusterRoleBinding σ) (w : World ClusterRoleBinding σ) :
    (Bool × Option GoError) × World ClusterRoleBinding σ :=
  match h.idParts w.d.id with
  | Except.error err => ((false, some err), w)
  | Except.ok (_, name) =>
    match conn.Get name w.srv with
    | (Except.error err, srv) =>
      if isStatus404 err then ((false, none), w.called (Call.Get name) srv)
      else ((true, some err), w.called (Call.Get name) srv)
    | (Except.ok _, srv) => ((true, none), w.called (Call.Get name) srv)

/-- The statement `if d.HasChange("subject") { ... ops = append(ops, ...) }` of
`resourceKubernetesClusterRoleBindingUpdate`; `none` is a panic of the type assertion
or of `expandSubjects`. -/
def clusterRoleBindingUpdateOps (ops : List PatchOp) (d : ResourceData) :
    Option (List PatchOp) :=
  if d.HasChange "subject" then do
    let subject ← (d.Get "subject").asList
    let subjects ← expandSubjects subject
    some (ops ++ [PatchOp.replace "/subjects" (PatchValue.subjects subjects)])
  else some ops

/-- The handler `resourceKubernetesClusterRoleBindingUpdate`. -/
def resourceKubernetesClusterRoleBindingUpdate {σ : Type} (h : Helpers)
    (conn : Client ClusterRoleBinding σ) (w : World ClusterRoleBinding σ) :
    Option (Option GoError × World ClusterRoleBinding σ) :=
  match h.idParts w.d.id with
  | Except.error err => some (some err, w)
  | Except.ok (_, name) =>
    let ops := h.patchMetadata "metadata.0." "/metadata/" w.d
    if w.d.HasChange "role_ref" then
      some (some (GoError.plain "Failed to update cluster role binding: cannot change role ref"), w)
    else do
      let ops ← clusterRoleBindingUpdateOps ops w.d
      match h.marshalJSON ops with
      | Except.error err => some (some (errorf "Failed to marshal update operations: " err), w)
      | Except.ok data =>
        match conn.Patch name PatchType.JSONPatchType data w.srv with
        | (Except.error err, srv) =>
          some (some (errorf "Failed to update cluster role binding: " err),
            w.called (Call.Patch name PatchType.JSONPatchType data) srv)
        | (Except.ok _, srv) =>
          some (resourceKubernetesClusterRoleBindingRead h conn
            (w.called (Call.Patch name PatchType.JSONPatchType data) srv))

/-- The handler `resourceKubernetesClusterRoleBindingDelete`. -/
def resourceKubernetesClusterRoleBindingDelete {σ : Type} (h : Helpers)
    (conn : Client ClusterRoleBinding σ) (w : World ClusterRoleBinding σ) :
    Option GoError × World ClusterRoleBinding σ :=
  match h.idParts w.d.id with
  | Except.error err => (some err, w)
  | Except.ok (_, name) =>
    match conn.Delete name w.srv with
    | (some err, srv) => (some err, w.called (Call.Delete name) srv)
    | (none, srv) =>
      let w := w.called (Call.Delete name) srv
      (none, { w with d := w.d.SetId "" })

/-! ## Sample helpers, clients and resource data -/

/-- Helpers for the examples: the identifier is the name, metadata carries the name
found under `name` in the first metadata block, nothing is patched in the metadata,
and `d.Set` stores the value as given. -/
def sampleHelpers : Helpers where
  idParts := fun id =>
    if id = "" then Except.error (GoError.plain "Unexpected ID format") else Except.ok ("", id)
  buildId := fun m => m.Name
  expandMetadata := fun md =>
    match md.toList with
    | Val.map m :: _ => { Name := readSubjectField m "name" }
    | _ => {}
  flattenMetadata := fun m _ => Val.list (Slice.mk [Val.map [("name", Val.str m.Name)]])
  patchMetadata := fun _ _ _ => []
  marshalJSON := fun ops => if ops.isEmpty then Except.ok "[]" else Except.ok "[replace]"
  fieldWriter := fun _ v => Except.ok v

/-- Helpers whose patch serialization fails. -/
def sampleHelpersNoMarshal : Helpers :=
  { sampleHelpers with marshalJSON := fun _ => Except.error (GoError.plain "unsupported value") }

/-- A backing client that answers every call of a kind with a fixed result. -/
def fixedClient {Obj : Type} (create get patch : Except GoError Obj) (delete : Option GoError) :
    Client Obj Unit where
  Create := fun _ s => (create, s)
  Get := fun _ s => (get, s)
  Patch := fun _ _ _ s => (patch, s)
  Delete := fun _ s => (delete, s)

/-- The not-found error of the API server. -/
def notFound : GoError := GoError.status 404 "clusterroles.rbac.authorization.k8s.io not found"

/-- A server-side rejection that is not a not-found. -/
def forbidden : GoError := GoError.status 403 "forbidden"

/-- A connection failure: an error that is no status error. -/
def connRefused : GoError := GoError.plain "connection refused"

/-- A client on which every call fails with the given error. -/
def failingClient (Obj : Type) (err : GoError) : Client Obj Unit :=
  fixedClient (Except.error err) (Except.error err) (Except.error err) (some err)

/-- The rule block of the modified configuration of the acceptance test. -/
def sampleRuleBlockModified : Val :=
  Val.map [("verbs", strList ["get", "list", "write"]), ("api_groups", strList [""]),
    ("resources", strList ["configmaps", "secrets"]), ("resource_names", strList []),
    ("non_resource_urls", strList [])]

/-- The typed rule of the modified configuration. -/
def sampleRuleModified : PolicyRule :=
  { Verbs := Slice.mk ["get", "list", "write"], APIGroups := Slice.mk [""],
    Resources := Slice.mk ["configmaps", "secrets"], ResourceNames := Slice.mk [],
    NonResourceURLs := Slice.mk [] }

/-- Resource data of a cluster role named reader whose rule has changed. -/
def sampleRoleData : ResourceData where
  id := "reader"
  attrs := [("metadata", Val.list (Slice.mk [Val.map [("name", Val.str "reader")]])),
    ("rule", Val.list (Slice.mk [sampleRuleBlockModified]))]
  changed := ["rule"]

/-- Resource data of a cluster role binding named admins. -/
def sampleBindingData (changed : List String) : ResourceData where
  id := "admins"
  attrs := [("metadata", Val.list (Slice.mk [Val.map [("name", Val.str "admins")]])),
    ("role_ref", Val.map sampleRoleRefBlock),
    ("subject", Val.list (Slice.mk [sampleSubjectBlockGroup]))]
  changed := changed

/-- A world with no call made yet. -/
def freshWorld (Obj : Type) (d : ResourceData) : World Obj Unit :=
  { d := d, srv := (), calls := [] }

/-- The cluster role the sample data expands to. -/
def sampleRole : ClusterRole :=
  { ObjectMeta := { Name := "reader" }, Rules := Slice.mk [sampleRuleModified] }

/-- The cluster role binding the sample data expands to. -/
def sampleBinding : ClusterRoleBinding :=
  { ObjectMeta := { Name := "admins" }, RoleRef := sampleRoleRef,
    Subjects := Slice.mk [{ Kind := "User", APIGroup := "rbac.authorization.k8s.io",
                            Name := "admin", Namespace := "" }] }

/-- A role_ref block from which the api_group key is absent. -/
def sampleRoleRefBlockNoGroup : GoMap :=
  [("kind", Val.str "ClusterRole"), ("name", Val.str "cluster-admin")]

/-- A client on which every call succeeds, answering with the given object. -/
def okClient {Obj : Type} (obj : Obj) : Client Obj Unit :=
  fixedClient (Except.ok obj) (Except.ok obj) (Except.ok obj) none

/-- The sample cluster role as a server returns it, under a name the server chose. -/
def generatedRole : ClusterRole :=
  { sampleRole with ObjectMeta := { Name := "reader-x7k2q", GenerateName := "reader-" } }

/-- The sample binding as a server returns it, under a name the server chose. -/
def generatedBinding : ClusterRoleBinding :=
  { sampleBinding with ObjectMeta := { Name := "admins-9fz4c", GenerateName := "admins-" } }

/-- Resource data of a cluster role whose stored identifier does not decode. -/
def sampleRoleDataBadId : ResourceData := { sampleRoleData with id := "" }

/-- Resource data of a cluster role binding whose stored identifier does not decode. -/
def sampleBindingDataBadId : ResourceData := { sampleBindingData [] with id := "" }

/-- A client on which Create succeeds with the given object and every other call fails. -/
def createOnlyClient {Obj : Type} (obj : Obj) (err : GoError) : Client Obj Unit :=
  fixedClient (Except.ok obj) (Except.error err) (Except.error err) (some err)

/-- A subject block whose kind is a number and whose name is a list. -/
def sampleSubjectBlockIllTyped : Val :=
  Val.map [("kind", Val.int 7), ("name", Val.list (Slice.mk [Val.str "admin"])),
    ("namespace", Val.str "default"), ("extra", Val.bool true)]

/-- The world `w` with another stored identifier. -/
def World.withId {Obj σ : Type} (w : World Obj σ) (id : String) : World Obj σ :=
  { w with d := { w.d with id := id } }

/-- What a run of a handler shows: the error it returns, the calls made to the backing
client, the server state, and the attribute tree it leaves. -/
def seen {Obj σ : Type} (r : Option GoError × World Obj σ) :
    Option GoError × List (Call Obj) × σ × GoMap :=
  (r.1, r.2.calls, r.2.srv, r.2.d.attrs)

/-- What a run of an Exists handler shows: the pair it returns, the calls made to the
backing client, the server state, and the attribute tree it leaves. -/
def seenExists {Obj σ : Type} (r : (Bool × Option GoError) × World Obj σ) :
    (Bool × Option GoError) × List (Call Obj) × σ × GoMap :=
  (r.1, r.2.calls, r.2.srv, r.2.d.attrs)

/-! ## The identifier codec -/

/-- The characters before the first `/` of `cs`, and those after it when there is one. -/
def splitSlash : List Char → List Char × Option (List Char)
  | [] => ([], none)
  | c :: cs =>
    if c = '/' then ([], some cs)
    else ((c :: (splitSlash cs).1), (splitSlash cs).2)

/-- Modelled from the spec: `buildId`, which the Create handlers call and whose body is
not among the source files. Section 6: the identifier is `<namespace>/<name>` for
namespace-scoped kinds and `<name>` alone for cluster-scoped kinds, whose namespace
is empty. -/
def buildId (m : ObjectMeta) : String :=
  if m.Namespace = "" then m.Name else m.Namespace ++ "/" ++ m.Name

/-- Modelled from the spec: `idParts`, which the handlers call and whose body is not
among the source files. Sections 3 and 6: the identifier is split at the delimiter
`/`; without a delimiter it is a name under the empty namespace, with one delimiter it
is namespace and name. Section 7 (a): any other identifier is malformed and decoding
fails. -/
def idParts (id : String) : Except GoError (String × String) :=
  match splitSlash id.toList with
  | (name, none) => Except.ok ("", String.mk name)
  | (ns, some rest) =>
    if rest.contains '/' then Except.error (GoError.plain ("Unexpected ID format: " ++ id))
    else Except.ok (String.mk ns, String.mk rest)

/-- A character of a DNS label or subdomain: a lower-case letter, a digit, `-` or `.`. -/
def isLabelChar (c : Char) : Bool := c.isLower || c.isDigit || c == '-' || c == '.'

/-- A string of DNS-label-safe characters; the empty string is one. -/
def isDNSLabelSafe (s : String) : Bool := s.toList.all isLabelChar

/-- The sample helpers with the identifier codec of the spec. -/
def specHelpers : Helpers := { sampleHelpers with idParts := idParts, buildId := buildId }

/-- A backing client that stores the created cluster role and returns it unchanged
from Get under its name. -/
def storingClient : Client ClusterRole (Option ClusterRole) where
  Create := fun obj _ => (Except.ok obj, some obj)
  Get := fun name s =>
    match s with
    | some obj => if obj.ObjectMeta.Name = name then (Except.ok obj, s)
                  else (Except.error notFound, s)
    | none => (Except.error notFound, s)
  Patch := fun _ _ _ s => (Except.error forbidden, s)
  Delete := fun _ _ => (none, none)

/-- Resource data of the first configuration of the acceptance test, before Create:
one rule with verbs get and list, api_groups "" and resources configmaps. -/
def sampleRoleDataNew : ResourceData where
  id := ""
  attrs := [("metadata", Val.list (Slice.mk [Val.map [("name", Val.str "reader")]])),
    ("rule", Val.list (Slice.mk [sampleRuleBlock]))]
  changed := ["metadata", "rule"]

/-- Resource data of a cluster role whose identifier carries a namespace part. -/
def sampleRoleDataScoped : ResourceData := { sampleRoleData with id := "team-a/reader" }

/-- Resource data of a binding whose identifier carries a namespace part. -/
def sampleBindingDataScoped : ResourceData :=
  { sampleBindingData ["subject"] with id := "team-a/admins" }

/-- The metadata blocks of the sample cluster role. -/
def sampleMetadata : Slice Val := Slice.mk [Val.map [("name", Val.str "reader")]]

/-- A world of the storing client in which nothing has been created yet. -/
def emptyStore : World ClusterRole (Option ClusterRole) :=
  { d := sampleRoleDataNew, srv := none, calls := [] }

/-! ## `schema_pod_spec.go` -/

/-- The value types of `helper/schema`. -/
inductive ValueType where
  | TypeBool : ValueType
  | TypeInt : ValueType
  | TypeFloat : ValueType
  | TypeString : ValueType
  | TypeList : ValueType
  | TypeMap : ValueType
  | TypeSet : ValueType
deriving DecidableEq, Repr

/-- A value given as `Default` in a schema. -/
inductive DefaultValue where
  | str (s : String) : DefaultValue
  | bool (b : Bool) : DefaultValue
  | int (n : Int) : DefaultValue
deriving DecidableEq, Repr

/-- The scalar fields of a `schema.Schema` that the provider sets; a field a literal
does not mention has its Go zero value. `Typ` is the field `Type`, and `ValidateFunc`
is the source text of the validation function. -/
structure SchemaAttrs where
  Typ : ValueType
  Optional : Bool := false
  Required : Bool := false
  Computed : Bool := false
  ForceNew : Bool := false
  Default : Option DefaultValue := none
  MaxItems : Nat := 0
  ValidateFunc : Option String := none
  Description : String := ""
deriving DecidableEq, Repr

/-- A `schema.Schema` with its `Elem`: none, a `&schema.Schema`, a `&schema.Resource`
whose schema map is written out, or the resource that a call of another schema
function builds (its name, and its `isUpdatable` argument when it takes one). -/
inductive Schema where
  | leaf (a : SchemaAttrs) : Schema
  | elemSchema (a : SchemaAttrs) (elem : Schema) : Schema
  | elemResource (a : SchemaAttrs) (fields : List (String × Schema)) : Schema
  | elemCall (a : SchemaAttrs) (fn : String) (isUpdatable : Option Bool) : Schema

/-- The scalar fields of a schema. -/
def Schema.attrs : Schema → SchemaAttrs
  | Schema.leaf a => a
  | Schema.elemSchema a _ => a
  | Schema.elemResource a _ => a
  | Schema.elemCall a _ _ => a

/-- Go's `s.ForceNew = true`. -/
def Schema.setForceNew : Schema → Schema
  | Schema.leaf a => Schema.leaf { a with ForceNew := true }
  | Schema.elemSchema a e => Schema.elemSchema { a with ForceNew := true } e
  | Schema.elemResource a fs => Schema.elemResource { a with ForceNew := true } fs
  | Schema.elemCall a fn u => Schema.elemCall { a with ForceNew := true } fn u

/-- Go's `m[k]` on a schema map. -/
def schemaLookup (m : List (String × Schema)) (k : String) : Option Schema := List.lookup k m

/-- Go's `m[k] = v` on a schema map. -/
def schemaSet (m : List (String × Schema)) (k : String) (v : Schema) : List (String × Schema) :=
  (k, v) :: m.filter (fun p => p.1 != k)

/-- The schema map of the resource a schema has as `Elem`, when it is written out. -/
def Schema.fields : Schema → Option (List (String × Schema))
  | Schema.elemResource _ fs => some fs
  | _ => none

/-- The scalar fields of attribute `inner` of the nested block `outer` of a schema map. -/
def nestedAttrs (m : List (String × Schema)) (outer inner : String) : Option SchemaAttrs :=
  (schemaLookup m outer).bind (fun s => s.fields.bind (fun fs =>
    (schemaLookup fs inner).map Schema.attrs))

/-- The map literal `s` of `podSpecFields`, before the loop that sets ForceNew. -/
def podSpecFieldsLiteral (isUpdatable : Bool) : List (String × Schema) :=
  [("active_deadline_seconds", Schema.leaf
      { Typ := ValueType.TypeInt, Optional := true, ValidateFunc := some "validatePositiveInteger",
        Description := "Optional duration in seconds the pod may be active on the node relative to StartTime before the system will actively try to mark it failed and kill associated containers. Value must be a positive integer." }),
   ("affinity", Schema.elemCall
      { Typ := ValueType.TypeMap, Optional := true,
        Description := "If specified, the pod's scheduling constraints" }
      "affinitySchema" none),
   ("container", Schema.elemCall
      { Typ := ValueType.TypeList, Optional := true,
        Description := "List of containers belonging to the pod. Containers cannot currently be added or removed. There must be at least one container in a Pod. Cannot be updated. More info: http://kubernetes.io/docs/user-guide/containers" }
      "containerFields" (some isUpdatable)),
   ("dns_policy", Schema.leaf
      { Typ := ValueType.TypeString, Optional := true, Default := some (DefaultValue.str "ClusterFirst"),
        Description := "Set DNS policy for containers within the pod. One of 'ClusterFirst' or 'Default'. Defaults to 'ClusterFirst'." }),
   ("host_ipc", Schema.leaf
      { Typ := ValueType.TypeBool, Optional := true, Default := some (DefaultValue.bool false),
        Description := "Use the host's ipc namespace. Optional: Default to false." }),
   ("host_network", Schema.leaf
      { Typ := ValueType.TypeBool, Optional := true, Default := some (DefaultValue.bool false),
        Description := "Host networking requested for this pod. Use the host's network namespace. If this option is set, the ports that will be used must be specified." }),
   ("host_pid", Schema.leaf
      { Typ := ValueType.TypeBool, Optional := true, Default := some (DefaultValue.bool false),
        Description := "Use the host's pid namespace." }),
   ("hostname", Schema.leaf
      { Typ := ValueType.TypeString, Optional := true, Computed := true,
        Description := "Specifies the hostname of the Pod If not specified, the pod's hostname will be set to a system-defined value." }),
   ("image_pull_secrets", Schema.elemResource
      { Typ := ValueType.TypeList, Optional := true, Computed := true,
        Description := "ImagePullSecrets is an optional list of references to secrets in the same namespace to use for pulling any of the images used by this PodSpec. If specified, these secrets will be passed to individual puller implementations for them to use. For example, in the case of docker, only DockerConfig type secrets are honored. More info: http://kubernetes.io/docs/user-guide/images#specifying-imagepullsecrets-on-a-pod" }
      [("name", Schema.leaf
          { Typ := ValueType.TypeString, Required := true,
            Description := "Name of the referent. More info: http://kubernetes.io/docs/user-guide/identifiers#names" })]),
   ("init_container", Schema.elemCall
      { Typ := ValueType.TypeList, Optional := true,
        Description := "List of initialization containers belonging to the pod. Init containers are executed in order prior to containers being started. If any init container fails, the pod is considered to have failed and is handled according to its restartPolicy. The name for an init container or normal container must be unique among all containers. Init containers may not have Lifecycle actions, Readiness probes, or Liveness probes. The resourceRequirements of an init container are taken into account during scheduling by finding the highest request/limit for each resource type, and then using the max of of that value or the sum of the normal containers. Limits are applied to init containers in a similar fashion. Init containers cannot currently be added or removed. Cannot be updated. More info: https://kubernetes.io/docs/concepts/workloads/pods/init-containers/" }
      "containerFields" (some isUpdatable)),
   ("node_name", Schema.leaf
      { Typ := ValueType.TypeString, Optional := true, Computed := true,
        Description := "NodeName is a request to schedule this pod onto a specific node. If it is non-empty, the scheduler simply schedules this pod onto that node, assuming that it fits resource requirements." }),
   ("node_selector", Schema.leaf
      { Typ := ValueType.TypeMap, Optional := true,
        Description := "NodeSelector is a selector which must be true for the pod to fit on a node. Selector which must match a node's labels for the pod to be scheduled on that node. More info: http://kubernetes.io/docs/user-guide/node-selection." }),
   ("restart_policy", Schema.leaf
      { Typ := ValueType.TypeString, Optional := true, Default := some (DefaultValue.str "Always"),
        Description := "Restart policy for all containers within the pod. One of Always, OnFailure, Never. More info: http://kubernetes.io/docs/user-guide/pod-states#restartpolicy." }),
   ("security_context", Schema.elemResource
      { Typ := ValueType.TypeList, Optional := true, MaxItems := 1,
        Description := "SecurityContext holds pod-level security attributes and common container settings. Optional: Defaults to empty" }
      [("fs_group", Schema.leaf
          { Typ := ValueType.TypeInt, Optional := true,
            Description := "A special supplemental group that applies to all containers in a pod. Some volume types allow the Kubelet to change the ownership of that volume to be owned by the pod: 1. The owning GID will be the FSGroup 2. The setgid bit is set (new files created in the volume will be owned by FSGroup) 3. The permission bits are OR'd with rw-rw---- If unset, the Kubelet will not modify the ownership and permissions of any volume." }),
       ("run_as_non_root", Schema.leaf
          { Typ := ValueType.TypeBool, Optional := true,
            Description := "Indicates that the container must run as a non-root user. If true, the Kubelet will validate the image at runtime to ensure that it does not run as UID 0 (root) and fail to start the container if it does." }),
       ("run_as_user", Schema.leaf
          { Typ := ValueType.TypeInt, Optional := true,
            Description := "The UID to run the entrypoint of the container process. Defaults to user specified in image metadata if unspecified" }),
       ("supplemental_groups", Schema.elemSchema
          { Typ := ValueType.TypeSet, Optional := true,
            Description := "A list of groups applied to the first process run in each container, in addition to the container's primary GID. If unspecified, no groups will be added to any container." }
          (Schema.leaf
            { Typ := ValueType.TypeInt })),
       ("se_linux_options", Schema.elemCall
          { Typ := ValueType.TypeList, Optional := true, MaxItems := 1,
            Description := "The SELinux context to be applied to all containers. If unspecified, the container runtime will allocate a random SELinux context for each container. May also be set in SecurityContext. If set in both SecurityContext and PodSecurityContext, the value specified in SecurityContext takes precedence for that container." }
          "seLinuxOptionsField" none)]),
   ("service_account_name", Schema.leaf
      { Typ := ValueType.TypeString, Optional := true, Computed := true,
        Description := "ServiceAccountName is the name of the ServiceAccount to use to run this pod. More info: http://releases.k8s.io/HEAD/docs/design/service_accounts.md." }),
   ("automount_service_account_token", Schema.leaf
      { Typ := ValueType.TypeBool, Optional := true, Default := some (DefaultValue.bool true),
        Description := "In version 1.6+, you can also opt out of automounting API credentials for a particular pod" }),
   ("subdomain", Schema.leaf
      { Typ := ValueType.TypeString, Optional := true,
        Description := "If specified, the fully qualified Pod hostname will be \"...svc.\". If not specified, the pod will not have a domainname at all.." }),
   ("termination_grace_period_seconds", Schema.leaf
      { Typ := ValueType.TypeInt, Optional := true, Default := some (DefaultValue.int 30), ValidateFunc := some "validateTerminationGracePeriodSeconds",
        Description := "Optional duration in seconds the pod needs to terminate gracefully. May be decreased in delete request. Value must be non-negative integer. The value zero indicates delete immediately. If this value is nil, the default grace period will be used instead. The grace period is the duration in seconds after the processes running in the pod are sent a termination signal and the time when the processes are forcibly halted with a kill signal. Set this value longer than the expected cleanup time for your process." }),
   ("volume", Schema.elemCall
      { Typ := ValueType.TypeList, Optional := true,
        Description := "List of volumes that can be mounted by containers belonging to the pod. More info: http://kubernetes.io/docs/user-guide/volumes" }
      "volumeSchema" none)]

/-- The function `volumeSchema`: the schema map of the resource it returns. Its first
statement takes the map from `commonVolumeSources()`, which is not among the source
files and is the parameter `common`. -/
def volumeSchema (common : List (String × Schema)) : List (String × Schema) :=
  let v := common
  let v := schemaSet v "config_map" (Schema.elemResource
      { Typ := ValueType.TypeList, Optional := true, MaxItems := 1,
        Description := "ConfigMap represents a configMap that should populate this volume" }
      [("items", Schema.elemResource
          { Typ := ValueType.TypeList, Optional := true,
            Description := "If unspecified, each key-value pair in the Data field of the referenced ConfigMap will be projected into the volume as a file whose name is the key and content is the value. If specified, the listed keys will be projected into the specified paths, and unlisted keys will not be present. If a key is specified which is not present in the ConfigMap, the volume setup will error. Paths must be relative and may not contain the '..' path or start with '..'." }
          [("key", Schema.leaf
              { Typ := ValueType.TypeString, Optional := true,
                Description := "The key to project." }),
           ("mode", Schema.leaf
              { Typ := ValueType.TypeInt, Optional := true,
                Description := "Optional: mode bits to use on this file, must be a value between 0 and 0777. If not specified, the volume defaultMode will be used. This might be in conflict with other options that affect the file mode, like fsGroup, and the result can be other mode bits set." }),
           ("path", Schema.leaf
              { Typ := ValueType.TypeString, Optional := true, ValidateFunc := some "validateAttributeValueDoesNotContain(\"..\")",
                Description := "The relative path of the file to map the key to. May not be an absolute path. May not contain the path element '..'. May not start with the string '..'." })]),
       ("default_mode", Schema.leaf
          { Typ := ValueType.TypeInt, Optional := true, ValidateFunc := some "validateModeBits",
            Description := "Optional: mode bits to use on created files by default. Must be a value between 0 and 0777. Defaults to 0644. Directories within the path are not affected by this setting. This might be in conflict with other options that affect the file mode, like fsGroup, and the result can be other mode bits set." }),
       ("name", Schema.leaf
          { Typ := ValueType.TypeString, Optional := true,
            Description := "Name of the referent. More info: http://kubernetes.io/docs/user-guide/identifiers#names" })])
  let v := schemaSet v "git_repo" (Schema.elemResource
      { Typ := ValueType.TypeList, Optional := true, MaxItems := 1,
        Description := "GitRepo represents a git repository at a particular revision." }
      [("directory", Schema.leaf
          { Typ := ValueType.TypeString, Optional := true, ValidateFunc := some "validateAttributeValueDoesNotContain(\"..\")",
            Description := "Target directory name. Must not contain or start with '..'. If '.' is supplied, the volume directory will be the git repository. Otherwise, if specified, the volume will contain the git repository in the subdirectory with the given name." }),
       ("repository", Schema.leaf
          { Typ := ValueType.TypeString, Optional := true,
            Description := "Repository URL" }),
       ("revision", Schema.leaf
          { Typ := ValueType.TypeString, Optional := true,
            Description := "Commit hash for the specified revision." })])
  let v := schemaSet v "downward_api" (Schema.elemResource
      { Typ := ValueType.TypeList, Optional := true, MaxItems := 1,
        Description := "DownwardAPI represents downward API about the pod that should populate this volume" }
      [("default_mode", Schema.leaf
          { Typ := ValueType.TypeInt, Optional := true,
            Description := "Optional: mode bits to use on created files by default. Must be a value between 0 and 0777. Defaults to 0644. Directories within the path are not affected by this setting. This might be in conflict with other options that affect the file mode, like fsGroup, and the result can be other mode bits set." }),
       ("items", Schema.elemResource
          { Typ := ValueType.TypeList, Optional := true,
            Description := "If unspecified, each key-value pair in the Data field of the referenced ConfigMap will be projected into the volume as a file whose name is the key and content is the value. If specified, the listed keys will be projected into the specified paths, and unlisted keys will not be present. If a key is specified which is not present in the ConfigMap, the volume setup will error. Paths must be relative and may not contain the '..' path or start with '..'." }
          [("field_ref", Schema.elemResource
              { Typ := ValueType.TypeList, Required := true, MaxItems := 1,
                Description := "Required: Selects a field of the pod: only annotations, labels, name and namespace are supported." }
              [("api_version", Schema.leaf
                  { Typ := ValueType.TypeString, Optional := true, Default := some (DefaultValue.str "v1"),
                    Description := "Version of the schema the FieldPath is written in terms of, defaults to \"v1\"." }),
               ("field_path", Schema.leaf
                  { Typ := ValueType.TypeString, Optional := true,
                    Description := "Path of the field to select in the specified API version" })]),
           ("mode", Schema.leaf
              { Typ := ValueType.TypeInt, Optional := true,
                Description := "Optional: mode bits to use on this file, must be a value between 0 and 0777. If not specified, the volume defaultMode will be used. This might be in conflict with other options that affect the file mode, like fsGroup, and the result can be other mode bits set." }),
           ("path", Schema.leaf
              { Typ := ValueType.TypeString, Required := true, ValidateFunc := some "validateAttributeValueDoesNotContain(\"..\")",
                Description := "Path is the relative path name of the file to be created. Must not be absolute or contain the '..' path. Must be utf-8 encoded. The first item of the relative path must not start with '..'" }),
           ("resource_field_ref", Schema.elemResource
              { Typ := ValueType.TypeList, Optional := true, MaxItems := 1,
                Description := "Selects a resource of the container: only resources limits and requests (limits.cpu, limits.memory, requests.cpu and requests.memory) are currently supported." }
              [("container_name", Schema.leaf
                  { Typ := ValueType.TypeString, Required := true }),
               ("quantity", Schema.leaf
                  { Typ := ValueType.TypeString, Optional := true }),
               ("resource", Schema.leaf
                  { Typ := ValueType.TypeString, Required := true,
                    Description := "Resource to select" })])])])
  let v := schemaSet v "empty_dir" (Schema.elemResource
      { Typ := ValueType.TypeList, Optional := true, MaxItems := 1,
        Description := "EmptyDir represents a temporary directory that shares a pod's lifetime. More info: http://kubernetes.io/docs/user-guide/volumes#emptydir" }
      [("medium", Schema.leaf
          { Typ := ValueType.TypeString, Optional := true, Default := some (DefaultValue.str ""), ValidateFunc := some "validateAttributeValueIsIn([]string\x7b\"\", \"Memory\"\x7d)",
            Description := "What type of storage medium should back this directory. The default is \"\" which means to use the node's default medium. Must be an empty string (default) or Memory. More info: http://kubernetes.io/docs/user-guide/volumes#emptydir" })])
  let v := schemaSet v "persistent_volume_claim" (Schema.elemResource
      { Typ := ValueType.TypeList, Optional := true, MaxItems := 1,
        Description := "The specification of a persistent volume." }
      [("claim_name", Schema.leaf
          { Typ := ValueType.TypeString, Optional := true,
            Description := "ClaimName is the name of a PersistentVolumeClaim in the same " }),
       ("read_only", Schema.leaf
          { Typ := ValueType.TypeBool, Optional := true, Default := some (DefaultValue.bool false),
            Description := "Will force the ReadOnly setting in VolumeMounts." })])
  let v := schemaSet v "secret" (Schema.elemResource
      { Typ := ValueType.TypeList, Optional := true, MaxItems := 1,
        Description := "Secret represents a secret that should populate this volume. More info: http://kubernetes.io/docs/user-guide/volumes#secrets" }
      [("default_mode", Schema.leaf
          { Typ := ValueType.TypeInt, Optional := true, Default := some (DefaultValue.int 0o644), ValidateFunc := some "validateModeBits",
            Description := "Optional: mode bits to use on created files by default. Must be a value between 0 and 0777. Defaults to 0644. Directories within the path are not affected by this setting. This might be in conflict with other options that affect the file mode, like fsGroup, and the result can be other mode bits set." }),
       ("items", Schema.elemResource
          { Typ := ValueType.TypeList, Optional := true,
            Description := "If unspecified, each key-value pair in the Data field of the referenced Secret will be projected into the volume as a file whose name is the key and content is the value. If specified, the listed keys will be projected into the specified paths, and unlisted keys will not be present. If a key is specified which is not present in the Secret, the volume setup will error unless it is marked optional. Paths must be relative and may not contain the '..' path or start with '..'." }
          [("key", Schema.leaf
              { Typ := ValueType.TypeString, Optional := true,
                Description := "The key to project." }),
           ("mode", Schema.leaf
              { Typ := ValueType.TypeInt, Optional := true,
                Description := "Optional: mode bits to use on this file, must be a value between 0 and 0777. If not specified, the volume defaultMode will be used. This might be in conflict with other options that affect the file mode, like fsGroup, and the result can be other mode bits set." }),
           ("path", Schema.leaf
              { Typ := ValueType.TypeString, Optional := true, ValidateFunc := some "validateAttributeValueDoesNotContain(\"..\")",
                Description := "The relative path of the file to map the key to. May not be an absolute path. May not contain the path element '..'. May not start with the string '..'." })]),
       ("optional", Schema.leaf
          { Typ := ValueType.TypeBool, Optional := true,
            Description := "Optional: Specify whether the Secret or it's keys must be defined." }),
       ("secret_name", Schema.leaf
          { Typ := ValueType.TypeString, Optional := true,
            Description := "Name of the secret in the pod's namespace to use. More info: http://kubernetes.io/docs/user-guide/volumes#secrets" })])
  let v := schemaSet v "name" (Schema.leaf
      { Typ := ValueType.TypeString, Optional := true,
        Description := "Volume's name. Must be a DNS_LABEL and unique within the pod. More info: http://kubernetes.io/docs/user-guide/identifiers#names" })
  v

/-- The function `podSpecFields`: the literal, with ForceNew set on every key but
active_deadline_seconds and container when the pod spec is not updatable. -/
def podSpecFields (isUpdatable : Bool) : List (String × Schema) :=
  let s := podSpecFieldsLiteral isUpdatable
  if !isUpdatable then
    s.map (fun p =>
      if p.1 = "active_deadline_seconds" then p
      else if p.1 = "container" then p
      else (p.1, p.2.setForceNew))
  else s

/-- What the schemas of `podSpecFields` are compared on besides ForceNew: type,
Optional, Required, Computed, Default and MaxItems. -/
def SchemaAttrs.shape (a : SchemaAttrs) :
    ValueType × Bool × Bool × Bool × Option DefaultValue × Nat :=
  (a.Typ, a.Optional, a.Required, a.Computed, a.Default, a.MaxItems)

/-! ## The loops, element by element -/

theorem updateAt_append {α : Type} (pre : List α) (x : α) (post : List α) (f : α → α) :
    updateAt (pre ++ x :: post) pre.length f = pre ++ f x :: post := by
  induction pre with
  | nil => simp [updateAt]
  | cons p pre ih => simp [updateAt, ih]

theorem mapOpt_length {α β : Type} (f : α → Option β) :
    ∀ (xs : List α) (ys : List β), mapOpt f xs = some ys → ys.length = xs.length := by
  intro xs
  induction xs with
  | nil => intro ys h; simp [mapOpt] at h; simp [← h]
  | cons x xs ih =>
    intro ys h
    simp only [mapOpt] at h
    cases hx : f x with
    | none => simp [hx] at h
    | some y =>
      cases hxs : mapOpt f xs with
      | none => simp [hx, hxs] at h
      | some zs =>
        simp [hx, hxs] at h
        subst h
        simp [ih zs hxs]

theorem mapOpt_total {α β : Type} (f : α → β) (xs : List α) :
    mapOpt (fun x => some (f x)) xs = some (xs.map f) := by
  induction xs with
  | nil => rfl
  | cons x xs ih => simp [mapOpt, ih]

/-- A loop whose body writes, at its own index of a zero-initialised slice, a value
computed from the current element alone is an element-wise map. -/
theorem rangeFrom_eq_mapOpt {α β : Type} (body : Nat → α → List β → Option (List β))
    (g : α → Option β) (zero : β)
    (hbody : ∀ (pre post : List β) (v : α),
      body pre.length v (pre ++ zero :: post) = (g v).map (fun b => pre ++ b :: post)) :
    ∀ (xs : List α) (pre : List β),
      rangeFrom body pre.length xs (pre ++ makeSlice zero xs.length)
        = (mapOpt g xs).map (fun ys => pre ++ ys) := by
  intro xs
  induction xs with
  | nil => intro pre; simp [rangeFrom, mapOpt, makeSlice]
  | cons x xs ih =>
    intro pre
    simp only [rangeFrom, mapOpt, makeSlice, List.length_cons, List.replicate_succ]
    rw [hbody]
    cases hx : g x with
    | none => simp
    | some y =>
      have h := ih (pre ++ [y])
      simp only [List.length_append, List.length_singleton, List.append_assoc,
        List.singleton_append, makeSlice] at h
      simp only [Option.map_some', Option.some_bind, Option.bind_eq_bind, h]
      cases mapOpt g xs <;> simp

theorem rangeFrom_zero_eq_mapOpt {α β : Type} (body : Nat → α → List β → Option (List β))
    (g : α → Option β) (zero : β)
    (hbody : ∀ (pre post : List β) (v : α),
      body pre.length v (pre ++ zero :: post) = (g v).map (fun b => pre ++ b :: post))
    (xs : List α) :
    rangeFrom body 0 xs (makeSlice zero xs.length) = mapOpt g xs := by
  have h := rangeFrom_eq_mapOpt body g zero hbody xs []
  simp only [List.length_nil, List.nil_append] at h
  rw [h]
  cases mapOpt g xs <;> simp

theorem expandRulesField_at (rule : GoMap) (key : String)
    (put : PolicyRule → Slice String → PolicyRule) (pre post : List PolicyRule) (r : PolicyRule) :
    expandRulesField rule key put pre.length (pre ++ r :: post)
      = (expandRulesFieldElem rule key put r).map (fun b => pre ++ b :: post) := by
  unfold expandRulesField expandRulesFieldElem
  cases (GoMap.index rule key).asList with
  | none => simp
  | some xs =>
    simp only [updateAt_append]
    cases expandStringSlice xs <;> rfl

theorem expandRulesBody_at (pre post : List PolicyRule) (v : Val) :
    expandRulesBody pre.length v (pre ++ {} :: post)
      = (expandRulesElem v).map (fun b => pre ++ b :: post) := by
  unfold expandRulesBody expandRulesElem
  cases v.asMap with
  | none => simp
  | some rule =>
    simp only [Option.bind_eq_bind, Option.some_bind, expandRulesField_at]
    cases expandRulesFieldElem rule "verbs" (fun r ss => { r with Verbs := ss }) {} with
    | none => simp
    | some r1 =>
      simp only [Option.map_some', Option.some_bind, expandRulesField_at]
      cases expandRulesFieldElem rule "api_groups" (fun r ss => { r with APIGroups := ss }) r1 with
      | none => simp
      | some r2 =>
        simp only [Option.map_some', Option.some_bind, expandRulesField_at]
        cases expandRulesFieldElem rule "resources" (fun r ss => { r with Resources := ss }) r2 with
        | none => simp
        | some r3 =>
          simp only [Option.map_some', Option.some_bind, expandRulesField_at]
          cases expandRulesFieldElem rule "resource_names"
              (fun r ss => { r with ResourceNames := ss }) r3 with
          | none => simp
          | some r4 => simp only [Option.map_some', Option.some_bind, expandRulesField_at]

theorem expandRules_eq (a : Slice Val) :
    expandRules a = (mapOpt expandRulesElem a.toList).map Slice.mk := by
  unfold expandRules
  split
  · rename_i h
    have : a.toList = [] := List.length_eq_zero.mp h
    simp [this, mapOpt]
  · simp only [Slice.len]
    rw [rangeFrom_zero_eq_mapOpt expandRulesBody expandRulesElem {} expandRulesBody_at]

theorem flattenRules_eq (a : Slice PolicyRule) :
    flattenRules a = Slice.mk (a.toList.map (fun v => Val.map (flattenRulesMap v))) := by
  unfold flattenRules
  simp only [Slice.len]
  rw [rangeFrom_zero_eq_mapOpt flattenRulesBody (fun v => some (Val.map (flattenRulesMap v)))
    Val.null (by intro pre post v; simp [flattenRulesBody, flattenRulesMap, updateAt_append])]
  simp [mapOpt_total]

theorem expandSubjectsField_at (subject : GoMap) (key : String)
    (put : Subject → String → Subject) (pre post : List Subject) (s : Subject) :
    expandSubjectsField subject key put pre.length (pre ++ s :: post)
      = pre ++ expandSubjectsFieldElem subject key put s :: post := by
  unfold expandSubjectsField expandSubjectsFieldElem
  cases (GoMap.index subject key).asString <;> simp [updateAt_append]

theorem expandSubjectsBody_at (pre post : List Subject) (v : Val) :
    expandSubjectsBody pre.length v (pre ++ {} :: post)
      = (expandSubjectsElem v).map (fun b => pre ++ b :: post) := by
  unfold expandSubjectsBody expandSubjectsElem
  cases v.asMap with
  | none => simp
  | some subject => simp [expandSubjectsField_at]

theorem expandSubjects_eq (s : Slice Val) :
    expandSubjects s = (mapOpt expandSubjectsElem s.toList).map Slice.mk := by
  unfold expandSubjects
  split
  · rename_i h
    have : s.toList = [] := List.length_eq_zero.mp h
    simp [this, mapOpt]
  · simp only [Slice.len]
    rw [rangeFrom_zero_eq_mapOpt expandSubjectsBody expandSubjectsElem {} expandSubjectsBody_at]

theorem flattenSubjects_eq (a : Slice Subject) :
    flattenSubjects a = Slice.mk (a.toList.map (fun v => Val.map (flattenSubjectsMap v))) := by
  unfold flattenSubjects
  simp only [Slice.len]
  rw [rangeFrom_zero_eq_mapOpt flattenSubjectsBody (fun v => some (Val.map (flattenSubjectsMap v)))
    Val.null (by intro pre post v; simp [flattenSubjectsBody, flattenSubjectsMap, updateAt_append])]
  simp [mapOpt_total]

/-! ## Reading maps -/

theorem lookup_filter_ne (m : GoMap) (k k' : String) :
    List.lookup k' (m.filter (fun p => p.1 != k)) = if k' = k then none else List.lookup k' m := by
  induction m with
  | nil => simp
  | cons p m ih =>
    obtain ⟨a, b⟩ := p
    by_cases hak : a = k
    · subst hak
      by_cases hk : k' = a
      · subst hk
        have hf : List.filter (fun p => p.1 != k') ((k', b) :: m)
            = List.filter (fun p => p.1 != k') m := by simp [List.filter_cons]
        rw [hf, ih]
        simp
      · have : (k' == a) = false := by simpa using hk
        simp [List.filter_cons, ih, hk, List.lookup_cons, this]
    · have hne : (a != k) = true := by simpa using hak
      simp only [List.filter_cons, hne, if_true, List.lookup_cons, ih]
      by_cases hk : k' = a
      · subst hk
        simp [hak]
      · have : (k' == a) = false := by simpa using hk
        simp [this]

theorem GoMap.lookup_set (m : GoMap) (k : String) (v : Val) (k' : String) :
    GoMap.lookup (GoMap.set m k v) k' = if k' = k then some v else GoMap.lookup m k' := by
  unfold GoMap.lookup GoMap.set
  by_cases hk : k' = k
  · simp [List.lookup_cons, hk]
  · have : (k' == k) = false := by simpa using hk
    simp [List.lookup_cons, this, lookup_filter_ne, hk]

theorem GoMap.lookup_nil (k : String) : GoMap.lookup [] k = none := rfl

theorem GoMap.index_eq_list (m : GoMap) (k : String) (xs : Slice Val)
    (h : GoMap.index m k = Val.list xs) : GoMap.lookup m k = some (Val.list xs) := by
  unfold GoMap.index at h
  cases hl : GoMap.lookup m k with
  | none => simp [hl] at h
  | some v => simpa [hl] using h

theorem GoMap.index_eq_str (m : GoMap) (k : String) (x : String)
    (h : GoMap.index m k = Val.str x) : GoMap.lookup m k = some (Val.str x) := by
  unfold GoMap.index at h
  cases hl : GoMap.lookup m k with
  | none => simp [hl] at h
  | some v => simpa [hl] using h

theorem mapOpt_of_all (xs : List Val) (h : xs.all (fun e => e.asString.isSome) = true) :
    ∃ ss, mapOpt Val.asString xs = some ss := by
  induction xs with
  | nil => exact ⟨[], rfl⟩
  | cons x xs ih =>
    simp only [List.all_cons, Bool.and_eq_true] at h
    obtain ⟨ss, hss⟩ := ih h.2
    obtain ⟨y, hy⟩ := Option.isSome_iff_exists.mp h.1
    exact ⟨y :: ss, by simp [mapOpt, hy, hss]⟩

theorem isStringList_spec (v : Val) (h : isStringList v = true) :
    ∃ xs ss, v = Val.list xs ∧ mapOpt Val.asString xs.toList = some ss := by
  cases v with
  | list xs =>
    obtain ⟨ss, hss⟩ := mapOpt_of_all xs.toList (by simpa [isStringList] using h)
    exact ⟨xs, ss, rfl, hss⟩
  | _ => simp [isStringList] at h

theorem expandRulesFieldElem_list (rule : GoMap) (key : String)
    (put : PolicyRule → Slice String → PolicyRule) (r : PolicyRule) (xs : Slice Val)
    (ss : List String) (hi : GoMap.index rule key = Val.list xs)
    (hs : mapOpt Val.asString xs.toList = some ss) :
    expandRulesFieldElem rule key put r = some (put r (Slice.mk ss)) := by
  simp [expandRulesFieldElem, hi, Val.asList, expandStringSlice, hs]

theorem elemAt_zero (x : Val) (xs : List Val) : elemAt (x :: xs) 0 = x := rfl

theorem elemAt_succ (x : Val) (xs : List Val) (i : Nat) :
    elemAt (x :: xs) (i + 1) = elemAt xs i := rfl

/-- On a rule block, one iteration of `expandRules` succeeds, and the map that
`flattenRules` builds from its result carries the block's strings under each key. -/
theorem expandRulesElem_ruleBlock (v : Val) (h : isRuleBlock v = true) :
    ∃ r, expandRulesElem v = some r ∧ ∀ k ∈ ruleKeys, ∃ ss,
      (Val.map (flattenRulesMap r)).field k = some ss ∧ v.field k = some ss := by
  cases v with
  | map m =>
    simp only [isRuleBlock, ruleKeys, List.all_cons, List.all_nil, Bool.and_true,
      Bool.and_eq_true] at h
    obtain ⟨h1, h2, h3, h4, h5⟩ := h
    obtain ⟨x1, s1, e1, m1⟩ := isStringList_spec _ h1
    obtain ⟨x2, s2, e2, m2⟩ := isStringList_spec _ h2
    obtain ⟨x3, s3, e3, m3⟩ := isStringList_spec _ h3
    obtain ⟨x4, s4, e4, m4⟩ := isStringList_spec _ h4
    obtain ⟨x5, s5, e5, m5⟩ := isStringList_spec _ h5
    refine ⟨{ Verbs := Slice.mk s1, APIGroups := Slice.mk s2, Resources := Slice.mk s3,
              ResourceNames := Slice.mk s4, NonResourceURLs := Slice.mk s5 }, ?_, ?_⟩
    · simp only [expandRulesElem, Val.asMap, Option.bind_eq_bind, Option.some_bind,
        expandRulesFieldElem_list m _ _ _ _ _ e1 m1, expandRulesFieldElem_list m _ _ _ _ _ e2 m2,
        expandRulesFieldElem_list m _ _ _ _ _ e3 m3, expandRulesFieldElem_list m _ _ _ _ _ e4 m4,
        expandRulesFieldElem_list m _ _ _ _ _ e5 m5]
    · intro k hk
      simp only [ruleKeys, List.mem_cons, List.mem_singleton, List.not_mem_nil, or_false] at hk
      rcases hk with rfl | rfl | rfl | rfl | rfl
      · exact ⟨s1, by simp [Val.field, Val.asMap, flattenRulesMap, GoMap.lookup_set, Val.strings,
          Slice.toList], by simp [Val.field, Val.asMap, GoMap.index_eq_list m _ _ e1, Val.strings, m1]⟩
      · exact ⟨s2, by simp [Val.field, Val.asMap, flattenRulesMap, GoMap.lookup_set, Val.strings,
          Slice.toList], by simp [Val.field, Val.asMap, GoMap.index_eq_list m _ _ e2, Val.strings, m2]⟩
      · exact ⟨s3, by simp [Val.field, Val.asMap, flattenRulesMap, GoMap.lookup_set, Val.strings,
          Slice.toList], by simp [Val.field, Val.asMap, GoMap.index_eq_list m _ _ e3, Val.strings, m3]⟩
      · exact ⟨s4, by simp [Val.field, Val.asMap, flattenRulesMap, GoMap.lookup_set, Val.strings,
          Slice.toList], by simp [Val.field, Val.asMap, GoMap.index_eq_list m _ _ e4, Val.strings, m4]⟩
      · exact ⟨s5, by simp [Val.field, Val.asMap, flattenRulesMap, GoMap.lookup_set, Val.strings,
          Slice.toList], by simp [Val.field, Val.asMap, GoMap.index_eq_list m _ _ e5, Val.strings, m5]⟩
  | _ => simp [isRuleBlock] at h

theorem mapOpt_expandRulesElem_ruleBlocks (xs : List Val)
    (hx : ∀ v ∈ xs, isRuleBlock v = true) :
    ∃ rs, mapOpt expandRulesElem xs = some rs ∧ rs.length = xs.length ∧
      ∀ i, i < xs.length → ∀ k ∈ ruleKeys, ∃ ss,
        (elemAt (rs.map (fun r => Val.map (flattenRulesMap r))) i).field k = some ss ∧
        (elemAt xs i).field k = some ss := by
  induction xs with
  | nil => exact ⟨[], rfl, rfl, by intro i hi; simp at hi⟩
  | cons x xs ih =>
    obtain ⟨rs, hrs, hlen, hall⟩ := ih (fun v hv => hx v (List.mem_cons_of_mem _ hv))
    obtain ⟨r, hr, hk⟩ := expandRulesElem_ruleBlock x (hx x (List.mem_cons_self _ _))
    refine ⟨r :: rs, by simp [mapOpt, hr, hrs], by simp [hlen], ?_⟩
    intro i hi k hmem
    cases i with
    | zero => simpa [elemAt_zero] using hk k hmem
    | succ i =>
      simp only [List.map_cons, elemAt_succ]
      exact hall i (by simpa using hi) k hmem

theorem expandRulesFieldElem_eq_read (rule : GoMap) (key : String)
    (put : PolicyRule → Slice String → PolicyRule) (r : PolicyRule)
    (hput : put r Slice.nil = r) :
    expandRulesFieldElem rule key put r = (readRuleField rule key).map (put r) := by
  unfold expandRulesFieldElem readRuleField
  cases (GoMap.index rule key).asList with
  | none => simp [hput]
  | some xs => rfl

/-- One iteration of `expandRules` on a map: the five fields are read independently. -/
theorem expandRulesElem_map (m : GoMap) :
    expandRulesElem (Val.map m) =
      (readRuleField m "verbs").bind (fun a =>
      (readRuleField m "api_groups").bind (fun b =>
      (readRuleField m "resources").bind (fun c =>
      (readRuleField m "resource_names").bind (fun d =>
      (readRuleField m "non_resource_urls").bind (fun e =>
        some { Verbs := a, APIGroups := b, Resources := c, ResourceNames := d,
               NonResourceURLs := e }))))) := by
  simp only [expandRulesElem, Val.asMap, Option.bind_eq_bind, Option.some_bind]
  rw [expandRulesFieldElem_eq_read _ _ _ _ rfl]
  cases readRuleField m "verbs" with
  | none => rfl
  | some a =>
    simp only [Option.map_some', Option.some_bind]
    rw [expandRulesFieldElem_eq_read _ _ _ _ rfl]
    cases readRuleField m "api_groups" with
    | none => rfl
    | some b =>
      simp only [Option.map_some', Option.some_bind]
      rw [expandRulesFieldElem_eq_read _ _ _ _ rfl]
      cases readRuleField m "resources" with
      | none => rfl
      | some c =>
        simp only [Option.map_some', Option.some_bind]
        rw [expandRulesFieldElem_eq_read _ _ _ _ rfl]
        cases readRuleField m "resource_names" with
        | none => rfl
        | some d =>
          simp only [Option.map_some', Option.some_bind]
          rw [expandRulesFieldElem_eq_read _ _ _ _ rfl]
          cases readRuleField m "non_resource_urls" <;> rfl

/-- One iteration of `expandSubjects` on a map: the four fields are read independently. -/
theorem expandSubjectsElem_map (m : GoMap) :
    expandSubjectsElem (Val.map m) =
      some { Kind := readSubjectField m "kind", APIGroup := readSubjectField m "api_group",
             Name := readSubjectField m "name", Namespace := readSubjectField m "namespace" } := by
  simp only [expandSubjectsElem, Val.asMap, Option.map_some', expandSubjectsFieldElem,
    readSubjectField]
  cases (GoMap.index m "kind").asString <;> cases (GoMap.index m "api_group").asString <;>
    cases (GoMap.index m "name").asString <;> cases (GoMap.index m "namespace").asString <;> rfl

theorem mapOpt_getElem? {α β : Type} (f : α → Option β) :
    ∀ (xs : List α) (ys : List β), mapOpt f xs = some ys →
      ∀ (i : Nat) (x : α), xs[i]? = some x → ∃ y, ys[i]? = some y ∧ f x = some y := by
  intro xs
  induction xs with
  | nil => intro ys _ i x hx; simp at hx
  | cons a xs ih =>
    intro ys h i x hx
    simp only [mapOpt] at h
    cases ha : f a with
    | none => simp [ha] at h
    | some b =>
      cases hxs : mapOpt f xs with
      | none => simp [ha, hxs] at h
      | some zs =>
        simp [ha, hxs] at h
        subst h
        cases i with
        | zero =>
          simp at hx
          subst hx
          exact ⟨b, by simp, ha⟩
        | succ i =>
          simp at hx
          obtain ⟨y, hy, hf⟩ := ih zs hxs i x hx
          exact ⟨y, by simpa using hy, hf⟩

theorem mapOpt_asString_eq :
    ∀ (xs : List Val) (ss : List String), mapOpt Val.asString xs = some ss → xs = ss.map Val.str := by
  intro xs
  induction xs with
  | nil => intro ss h; simp [mapOpt] at h; simp [← h]
  | cons a xs ih =>
    intro ss h
    simp only [mapOpt] at h
    cases a with
    | str s0 =>
      cases hxs : mapOpt Val.asString xs with
      | none => simp [Val.asString, hxs] at h
      | some zs =>
        simp [Val.asString, hxs] at h
        subst h
        simp [ih zs hxs]
    | _ => simp [Val.asString] at h

theorem mapOpt_asString_map (ss : List String) :
    mapOpt Val.asString (ss.map Val.str) = some ss := by
  induction ss with
  | nil => rfl
  | cons a ss ih => simp [mapOpt, Val.asString, ih]

theorem readRuleField_list (m : GoMap) (key : String) (xs : Slice Val) (out : Slice String)
    (hi : GoMap.index m key = Val.list xs) (hr : readRuleField m key = some out) :
    xs.toList = out.toList.map Val.str ∧ out.isNil = false := by
  simp only [readRuleField, hi, Val.asList, expandStringSlice] at hr
  cases hs : mapOpt Val.asString xs.toList with
  | none => simp [hs] at hr
  | some ss =>
    simp [hs] at hr
    subst hr
    exact ⟨mapOpt_asString_eq _ _ hs, rfl⟩

theorem mapOpt_map {α β γ : Type} (f : β → Option γ) (g : α → β) (h : α → γ)
    (hfg : ∀ x, f (g x) = some (h x)) (xs : List α) :
    mapOpt f (xs.map g) = some (xs.map h) := by
  induction xs with
  | nil => rfl
  | cons x xs ih => simp [mapOpt, hfg, ih]

theorem mapOpt_some_of_forall {α β : Type} (f : α → Option β) (xs : List α)
    (h : ∀ x ∈ xs, ∃ y, f x = some y) : ∃ ys, mapOpt f xs = some ys := by
  induction xs with
  | nil => exact ⟨[], rfl⟩
  | cons x xs ih =>
    obtain ⟨ys, hys⟩ := ih (fun v hv => h v (List.mem_cons_of_mem _ hv))
    obtain ⟨y, hy⟩ := h x (List.mem_cons_self _ _)
    exact ⟨y :: ys, by simp [mapOpt, hy, hys]⟩

theorem readRuleField_ok (m : GoMap) (key : String)
    (h : isRuleFieldOk (GoMap.index m key) = true) : ∃ out, readRuleField m key = some out := by
  unfold readRuleField
  cases hv : GoMap.index m key with
  | list xs =>
    rw [hv] at h
    obtain ⟨ss, hss⟩ := mapOpt_of_all xs.toList (by simpa [isRuleFieldOk] using h)
    exact ⟨Slice.mk ss, by simp [Val.asList, expandStringSlice, hss]⟩
  | _ => exact ⟨Slice.nil, by simp [Val.asList]⟩

theorem expandRulesElem_loose (v : Val) (h : isLooseRuleBlock v = true) :
    ∃ r, expandRulesElem v = some r := by
  cases v with
  | map m =>
    simp only [isLooseRuleBlock, ruleKeys, List.all_cons, List.all_nil, Bool.and_true,
      Bool.and_eq_true] at h
    obtain ⟨h1, h2, h3, h4, h5⟩ := h
    obtain ⟨a, ha⟩ := readRuleField_ok m _ h1
    obtain ⟨b, hb⟩ := readRuleField_ok m _ h2
    obtain ⟨c, hc⟩ := readRuleField_ok m _ h3
    obtain ⟨d, hd⟩ := readRuleField_ok m _ h4
    obtain ⟨e, he⟩ := readRuleField_ok m _ h5
    exact ⟨_, by rw [expandRulesElem_map, ha, hb, hc, hd, he]; rfl⟩
  | _ => simp [isLooseRuleBlock] at h

theorem flattenRulesMap_lookup (r : PolicyRule) (key : String) (get : PolicyRule → Slice String)
    (h : (key, get) ∈ ruleFields) :
    GoMap.lookup (flattenRulesMap r) key = some (Val.strs (get r)) := by
  simp only [ruleFields, List.mem_cons, List.mem_singleton, List.not_mem_nil, or_false,
    Prod.mk.injEq] at h
  rcases h with ⟨rfl, rfl⟩ | ⟨rfl, rfl⟩ | ⟨rfl, rfl⟩ | ⟨rfl, rfl⟩ | ⟨rfl, rfl⟩ <;>
    simp [flattenRulesMap, GoMap.lookup_set]

theorem expandRulesElem_field (m : GoMap) (r : PolicyRule) (h : expandRulesElem (Val.map m) = some r)
    (key : String) (get : PolicyRule → Slice String) (hk : (key, get) ∈ ruleFields) :
    readRuleField m key = some (get r) := by
  rw [expandRulesElem_map] at h
  cases ha : readRuleField m "verbs" with
  | none => simp [ha] at h
  | some a =>
  cases hb : readRuleField m "api_groups" with
  | none => simp [ha, hb] at h
  | some b =>
  cases hc : readRuleField m "resources" with
  | none => simp [ha, hb, hc] at h
  | some c =>
  cases hd : readRuleField m "resource_names" with
  | none => simp [ha, hb, hc, hd] at h
  | some d =>
  cases he : readRuleField m "non_resource_urls" with
  | none => simp [ha, hb, hc, hd, he] at h
  | some e =>
    simp [ha, hb, hc, hd, he] at h
    subst h
    simp only [ruleFields, List.mem_cons, List.mem_singleton, List.not_mem_nil, or_false,
      Prod.mk.injEq] at hk
    rcases hk with ⟨rfl, rfl⟩ | ⟨rfl, rfl⟩ | ⟨rfl, rfl⟩ | ⟨rfl, rfl⟩ | ⟨rfl, rfl⟩ <;> assumption

theorem flattenRules_toList (rs : Slice PolicyRule) :
    (flattenRules rs).toList = rs.toList.map (fun r => Val.map (flattenRulesMap r)) := by
  rw [flattenRules_eq]; rfl

theorem flattenSubjects_toList (a : Slice Subject) :
    (flattenSubjects a).toList = a.toList.map (fun v => Val.map (flattenSubjectsMap v)) := by
  rw [flattenSubjects_eq]; rfl

theorem readSubjectField_str (m : GoMap) (key x : String)
    (h : GoMap.lookup m key = some (Val.str x)) : readSubjectField m key = x := by
  simp [readSubjectField, GoMap.index, h, Val.asString]

theorem readSubjectField_absent (m : GoMap) (key : String)
    (h : GoMap.lookup m key = none) : readSubjectField m key = "" := by
  simp [readSubjectField, GoMap.index, h, Val.asString]

theorem lookup_of_isString (m : GoMap) (key : String)
    (h : (GoMap.index m key).asString.isSome = true) :
    ∃ x, GoMap.lookup m key = some (Val.str x) := by
  cases hv : GoMap.index m key with
  | str x => exact ⟨x, GoMap.index_eq_str m key x hv⟩
  | _ => simp [hv, Val.asString] at h

theorem lookup_of_not_key (m : GoMap) (keys : List String) (k : String)
    (hall : m.all (fun p => keys.contains p.1) = true) (hk : k ∉ keys) :
    GoMap.lookup m k = none := by
  unfold GoMap.lookup
  induction m with
  | nil => rfl
  | cons p m ih =>
    obtain ⟨a, b⟩ := p
    simp only [List.all_cons, Bool.and_eq_true] at hall
    have ha : a ∈ keys := by simpa using hall.1
    have hne : (k == a) = false := by
      simp only [beq_eq_false_iff_ne, ne_eq]
      intro h
      exact hk (h ▸ ha)
    simp [List.lookup_cons, hne, ih hall.2]

theorem GoMap.lookup_delete (m : GoMap) (k k' : String) :
    GoMap.lookup (GoMap.delete m k) k' = if k' = k then none else GoMap.lookup m k' :=
  lookup_filter_ne m k k'

/-- The bindings of the map that `flattenSubjects` builds from a subject. -/
theorem flattenSubjectsMap_lookup (v : Subject) (k : String) :
    GoMap.lookup (flattenSubjectsMap v) k =
      if k = "namespace" then some (Val.str v.Namespace)
      else if k = "name" then some (Val.str v.Name)
      else if k = "api_group" then (if v.APIGroup = "" then none else some (Val.str v.APIGroup))
      else if k = "kind" then some (Val.str v.Kind)
      else none := by
  unfold flattenSubjectsMap
  by_cases hg : v.APIGroup = ""
  · simp only [hg, ne_eq, not_true_eq_false, if_false, if_true, GoMap.lookup_set,
      GoMap.lookup_nil]
    by_cases h1 : k = "namespace"
    · simp [h1]
    · by_cases h2 : k = "name"
      · simp [h2]
      · by_cases h3 : k = "api_group"
        · simp [h3]
        · simp [h1, h2, h3]
  · simp only [hg, ne_eq, not_false_eq_true, if_false, if_true, GoMap.lookup_set,
      GoMap.lookup_nil]

theorem expandSubjectsElem_flattenSubjectsMap (v : Subject) :
    expandSubjectsElem (Val.map (flattenSubjectsMap v)) = some v := by
  rw [expandSubjectsElem_map]
  have hk : readSubjectField (flattenSubjectsMap v) "kind" = v.Kind :=
    readSubjectField_str _ _ _ (by rw [flattenSubjectsMap_lookup]; simp)
  have hn : readSubjectField (flattenSubjectsMap v) "name" = v.Name :=
    readSubjectField_str _ _ _ (by rw [flattenSubjectsMap_lookup]; simp)
  have hs : readSubjectField (flattenSubjectsMap v) "namespace" = v.Namespace :=
    readSubjectField_str _ _ _ (by rw [flattenSubjectsMap_lookup]; simp)
  have hg : readSubjectField (flattenSubjectsMap v) "api_group" = v.APIGroup := by
    by_cases h : v.APIGroup = ""
    · rw [h]
      exact readSubjectField_absent _ _ (by rw [flattenSubjectsMap_lookup]; simp [h])
    · exact readSubjectField_str _ _ _ (by rw [flattenSubjectsMap_lookup]; simp [h])
  rw [hk, hn, hs, hg]

theorem flattenRoleRef_lookup (r : RoleRef) (k : String) :
    (flattenRoleRef r).asMap.bind (fun m => GoMap.lookup m k) =
      if k = "name" then some (Val.str r.Name)
      else if k = "kind" then some (Val.str r.Kind)
      else if k = "api_group" then some (Val.str r.APIGroup)
      else none := by
  simp only [flattenRoleRef, Val.asMap, Option.some_bind, GoMap.lookup_set, GoMap.lookup_nil]

/-! ## Claims -/

/-- C1. For every attribute-tree list `x` of rule blocks (each element a map giving
verbs, api_groups, resources, resource_names and non_resource_urls as lists of
strings), `expandRules x` returns a rule list `rs`, `flattenRules rs` has as many
elements as `x`, and under each of the five keys element `i` of `flattenRules rs`
carries the same sequence of strings as element `i` of `x`. -/
theorem flattenRules_expandRules_roundtrip (x : Slice Val)
    (hx : ∀ v ∈ x.toList, isRuleBlock v = true) :
    ∃ rs, expandRules x = some rs ∧ (flattenRules rs).len = x.len ∧
      ∀ i, i < x.len → ∀ k ∈ ruleKeys, ∃ ss,
        (elemAt (flattenRules rs).toList i).field k = some ss ∧
        (elemAt x.toList i).field k = some ss := by
  obtain ⟨rs, hrs, hlen, hall⟩ := mapOpt_expandRulesElem_ruleBlocks x.toList hx
  refine ⟨Slice.mk rs, by simp [expandRules_eq, hrs], ?_, ?_⟩
  · simp [flattenRules_eq, Slice.len, Slice.toList, hlen]
  · intro i hi k hk
    simpa [flattenRules_eq, Slice.toList] using hall i hi k hk

theorem flattenRules_expandRules_roundtrip_witness :
    (∀ v ∈ (Slice.mk [sampleRuleBlock, sampleRuleBlock]).toList, isRuleBlock v = true) ∧
    ∃ rs, expandRules (Slice.mk [sampleRuleBlock, sampleRuleBlock]) = some rs ∧
      (flattenRules rs).len = (Slice.mk [sampleRuleBlock, sampleRuleBlock]).len ∧
      ∀ i, i < (Slice.mk [sampleRuleBlock, sampleRuleBlock]).len → ∀ k ∈ ruleKeys, ∃ ss,
        (elemAt (flattenRules rs).toList i).field k = some ss ∧
        (elemAt (Slice.mk [sampleRuleBlock, sampleRuleBlock]).toList i).field k = some ss :=
  have h : ∀ v ∈ (Slice.mk [sampleRuleBlock, sampleRuleBlock]).toList, isRuleBlock v = true := by
    intro v hv
    simp only [Slice.toList, List.mem_cons, List.mem_singleton, List.not_mem_nil, or_false,
      or_self] at hv
    subst hv
    decide
  ⟨h, flattenRules_expandRules_roundtrip _ h⟩

/-- C2, as the code has it. For every list `rs` of `PolicyRule` values,
`expandRules (flattenRules rs)` returns as many rules as `rs` has, and every field
of every returned rule is the nil slice: `flattenRules` stores each field as a
`[]string`, which the `[]interface{}` assertions of `expandRules` do not accept. -/
theorem expandRules_flattenRules_all_nil (rs : Slice PolicyRule) :
    expandRules (flattenRules rs) = some (Slice.mk (rs.toList.map (fun _ => {}))) := by
  rw [expandRules_eq, flattenRules_eq]
  simp only [Slice.toList]
  rw [mapOpt_map expandRulesElem (fun r => Val.map (flattenRulesMap r)) (fun _ => {})]
  · rfl
  · intro r
    rw [expandRulesElem_map]
    simp [readRuleField, GoMap.index, flattenRulesMap, GoMap.lookup_set, Val.asList]

/-- C2 fails as stated: the rule with verbs get and list on configmaps does not come
back from `expandRules (flattenRules ·)`; the rule that comes back has no verbs. -/
theorem expandRules_flattenRules_counterexample :
    expandRules (flattenRules (Slice.mk [sampleRule])) = some (Slice.mk [{}]) ∧
    expandRules (flattenRules (Slice.mk [sampleRule])) ≠ some (Slice.mk [sampleRule]) := by
  decide

/-- C3. `expandRules`, `flattenRules`, `expandSubjects` and `flattenSubjects` map
element-wise and preserve order: each is the map of a per-element function over the
input list, so the output has the input's length and element `i` comes from input
element `i` alone; a rule field read by `expandRules` from a `[]interface{}` holds
exactly that list's entries in order, and `flattenRules` stores each field slice
unchanged under its key. On rule blocks, resp. maps, the expanders return. -/
theorem elementwise_order_preserving (x : Slice Val) (rs : Slice PolicyRule)
    (s : Slice Val) (subs : Slice Subject) :
    (expandRules x = (mapOpt expandRulesElem x.toList).map Slice.mk
      ∧ ((∀ v ∈ x.toList, isLooseRuleBlock v = true) → ∃ out, expandRules x = some out)
      ∧ ∀ out, expandRules x = some out → out.len = x.len ∧
          ∀ (i : Nat) (m : GoMap), x.toList[i]? = some (Val.map m) → ∃ r, out.toList[i]? = some r ∧
            ∀ key get, (key, get) ∈ ruleFields → ∀ xs, GoMap.index m key = Val.list xs →
              xs.toList = (get r).toList.map Val.str)
    ∧ (flattenRules rs = Slice.mk (rs.toList.map (fun r => Val.map (flattenRulesMap r)))
      ∧ (flattenRules rs).len = rs.len
      ∧ ∀ (i : Nat) (r : PolicyRule), rs.toList[i]? = some r → ∃ m, (flattenRules rs).toList[i]? = some (Val.map m) ∧
          ∀ key get, (key, get) ∈ ruleFields → GoMap.lookup m key = some (Val.strs (get r)))
    ∧ (expandSubjects s = (mapOpt expandSubjectsElem s.toList).map Slice.mk
      ∧ ((∀ v ∈ s.toList, v.asMap.isSome = true) → ∃ out, expandSubjects s = some out)
      ∧ ∀ out, expandSubjects s = some out → out.len = s.len)
    ∧ (flattenSubjects subs = Slice.mk (subs.toList.map (fun v => Val.map (flattenSubjectsMap v)))
      ∧ (flattenSubjects subs).len = subs.len) := by
  refine ⟨⟨expandRules_eq x, ?_, ?_⟩, ⟨flattenRules_eq rs, ?_, ?_⟩,
    ⟨expandSubjects_eq s, ?_, ?_⟩, ⟨flattenSubjects_eq subs, ?_⟩⟩
  · intro hx
    obtain ⟨ys, hys⟩ := mapOpt_some_of_forall expandRulesElem x.toList
      (fun v hv => expandRulesElem_loose v (hx v hv))
    exact ⟨Slice.mk ys, by simp [expandRules_eq, hys]⟩
  · intro out hout
    rw [expandRules_eq] at hout
    cases hys : mapOpt expandRulesElem x.toList with
    | none => simp [hys] at hout
    | some ys =>
      simp [hys] at hout
      subst hout
      refine ⟨by simp [Slice.len, Slice.toList, mapOpt_length _ _ _ hys], ?_⟩
      intro i m hi
      obtain ⟨r, hr, hf⟩ := mapOpt_getElem? _ _ _ hys i _ hi
      refine ⟨r, by simpa [Slice.toList] using hr, ?_⟩
      intro key get hk xs hxs
      exact (readRuleField_list m key xs (get r) hxs (expandRulesElem_field m r hf key get hk)).1
  · simp [flattenRules_eq, Slice.len, Slice.toList]
  · intro i r hi
    have hl : (flattenRules rs).toList = rs.toList.map (fun r => Val.map (flattenRulesMap r)) := by
      rw [flattenRules_eq]; rfl
    refine ⟨flattenRulesMap r, by rw [hl, List.getElem?_map, hi]; rfl, ?_⟩
    intro key get hk
    exact flattenRulesMap_lookup r key get hk
  · intro hs
    obtain ⟨ys, hys⟩ := mapOpt_some_of_forall expandSubjectsElem s.toList (by
      intro v hv
      have := hs v hv
      cases v with
      | map m => exact ⟨_, expandSubjectsElem_map m⟩
      | _ => simp [Val.asMap] at this)
    exact ⟨Slice.mk ys, by simp [expandSubjects_eq, hys]⟩
  · intro out hout
    rw [expandSubjects_eq] at hout
    cases hys : mapOpt expandSubjectsElem s.toList with
    | none => simp [hys] at hout
    | some ys =>
      simp [hys] at hout
      subst hout
      simp [Slice.len, Slice.toList, mapOpt_length _ _ _ hys]
  · simp [flattenSubjects_eq, Slice.len, Slice.toList]

/-- C4 fails as stated: a rule block without a resource_names key expands to a rule
whose ResourceNames is the nil slice, not an allocated empty one. -/
theorem expandRules_absent_resource_names_counterexample :
    ∃ r, expandRules (Slice.mk [sampleRuleBlockNoNames]) = some (Slice.mk [r]) ∧
      r.ResourceNames = Slice.nil ∧ r.ResourceNames ≠ Slice.mk [] :=
  ⟨sampleRule, by decide, by decide, by decide⟩

/-- C4, as the code has it. On a list of maps whose rule keys hold lists of strings
where they hold a list, `expandRules` returns, and the rule built from a block has
an allocated, zero-length ResourceNames when the block's resource_names holds a
zero-length list, and the nil slice when resource_names is absent or holds no
`[]interface{}`. -/
theorem expandRules_resource_names (x : Slice Val)
    (hx : ∀ v ∈ x.toList, isLooseRuleBlock v = true) :
    ∃ out, expandRules x = some out ∧
      ∀ (i : Nat) (m : GoMap), x.toList[i]? = some (Val.map m) →
        ∃ r, out.toList[i]? = some r ∧
          (∀ xs, GoMap.index m "resource_names" = Val.list xs → xs.len = 0 →
            r.ResourceNames = Slice.mk []) ∧
          ((GoMap.index m "resource_names").asList = none → r.ResourceNames = Slice.nil) := by
  obtain ⟨ys, hys⟩ := mapOpt_some_of_forall expandRulesElem x.toList
    (fun v hv => expandRulesElem_loose v (hx v hv))
  refine ⟨Slice.mk ys, by simp [expandRules_eq, hys], ?_⟩
  intro i m hi
  obtain ⟨r, hr, hf⟩ := mapOpt_getElem? _ _ _ hys i _ hi
  have hread := expandRulesElem_field m r hf "resource_names" PolicyRule.ResourceNames
    (by simp [ruleFields])
  refine ⟨r, hr, ?_, ?_⟩
  · intro xs hxs hlen
    have hnil : xs.toList = [] := List.length_eq_zero.mp hlen
    simp only [readRuleField, hxs, Val.asList, expandStringSlice, hnil, mapOpt,
      Option.map_some', Option.some.injEq] at hread
    exact hread.symm
  · intro hno
    simp only [readRuleField, hno, Option.some.injEq] at hread
    exact hread.symm

theorem expandRules_resource_names_witness :
    (∀ v ∈ (Slice.mk [sampleRuleBlock, sampleRuleBlockNoNames]).toList,
      isLooseRuleBlock v = true) ∧
    ∃ out, expandRules (Slice.mk [sampleRuleBlock, sampleRuleBlockNoNames]) = some out ∧
      ∀ (i : Nat) (m : GoMap),
        (Slice.mk [sampleRuleBlock, sampleRuleBlockNoNames]).toList[i]? = some (Val.map m) →
        ∃ r, out.toList[i]? = some r ∧
          (∀ xs, GoMap.index m "resource_names" = Val.list xs → xs.len = 0 →
            r.ResourceNames = Slice.mk []) ∧
          ((GoMap.index m "resource_names").asList = none → r.ResourceNames = Slice.nil) :=
  have h : ∀ v ∈ (Slice.mk [sampleRuleBlock, sampleRuleBlockNoNames]).toList,
      isLooseRuleBlock v = true := by
    intro v hv
    simp only [Slice.toList, List.mem_cons, List.mem_singleton, List.not_mem_nil, or_false] at hv
    rcases hv with rfl | rfl <;> decide
  ⟨h, expandRules_resource_names _ h⟩

/-- C5. For an empty or nil top-level input list, `expandRules` and `expandSubjects`
each return an allocated (non-nil) slice of length zero. -/
theorem expand_empty_input (a : Slice Val) (h : a.len = 0) :
    (∃ out, expandRules a = some out ∧ out.isNil = false ∧ out.len = 0) ∧
    (∃ out, expandSubjects a = some out ∧ out.isNil = false ∧ out.len = 0) := by
  refine ⟨⟨Slice.mk [], ?_, rfl, rfl⟩, ⟨Slice.mk [], ?_, rfl, rfl⟩⟩
  · simp [expandRules, h]
  · simp [expandSubjects, h]

theorem expand_empty_input_witness :
    ((Slice.nil : Slice Val).len = 0 ∧
      (∃ out, expandRules Slice.nil = some out ∧ out.isNil = false ∧ out.len = 0) ∧
      (∃ out, expandSubjects Slice.nil = some out ∧ out.isNil = false ∧ out.len = 0)) ∧
    ((Slice.mk [] : Slice Val).len = 0 ∧
      (∃ out, expandRules (Slice.mk []) = some out ∧ out.isNil = false ∧ out.len = 0) ∧
      (∃ out, expandSubjects (Slice.mk []) = some out ∧ out.isNil = false ∧ out.len = 0)) :=
  ⟨⟨rfl, expand_empty_input Slice.nil rfl⟩, ⟨rfl, expand_empty_input (Slice.mk []) rfl⟩⟩

/-- C6. For every subject list and every index `i`, the map `flattenSubjects` stores
at `i` has the key api_group exactly when the subject's APIGroup is non-empty (and then
with that value), and always has kind, name and namespace with the subject's values,
empty or not. -/
theorem flattenSubjects_keys (a : Slice Subject) (i : Nat) (sub : Subject)
    (h : a.toList[i]? = some sub) :
    ∃ m, (flattenSubjects a).toList[i]? = some (Val.map m) ∧
      (GoMap.has m "api_group" = true ↔ sub.APIGroup ≠ "") ∧
      (sub.APIGroup ≠ "" → GoMap.lookup m "api_group" = some (Val.str sub.APIGroup)) ∧
      GoMap.lookup m "kind" = some (Val.str sub.Kind) ∧
      GoMap.lookup m "name" = some (Val.str sub.Name) ∧
      GoMap.lookup m "namespace" = some (Val.str sub.Namespace) := by
  refine ⟨flattenSubjectsMap sub, by rw [flattenSubjects_toList, List.getElem?_map, h]; rfl,
    ?_, ?_, ?_, ?_, ?_⟩
  · unfold GoMap.has
    rw [flattenSubjectsMap_lookup]
    by_cases hg : sub.APIGroup = "" <;> simp [hg]
  · intro hg
    rw [flattenSubjectsMap_lookup]
    simp [hg]
  · rw [flattenSubjectsMap_lookup]; simp
  · rw [flattenSubjectsMap_lookup]; simp
  · rw [flattenSubjectsMap_lookup]; simp

theorem flattenSubjects_keys_witness :
    (Slice.mk [sampleSubjectGroup, sampleSubject]).toList[1]? = some sampleSubject ∧
    ∃ m, (flattenSubjects (Slice.mk [sampleSubjectGroup, sampleSubject])).toList[1]?
        = some (Val.map m) ∧
      (GoMap.has m "api_group" = true ↔ sampleSubject.APIGroup ≠ "") ∧
      (sampleSubject.APIGroup ≠ "" →
        GoMap.lookup m "api_group" = some (Val.str sampleSubject.APIGroup)) ∧
      GoMap.lookup m "kind" = some (Val.str sampleSubject.Kind) ∧
      GoMap.lookup m "name" = some (Val.str sampleSubject.Name) ∧
      GoMap.lookup m "namespace" = some (Val.str sampleSubject.Namespace) :=
  ⟨rfl, flattenSubjects_keys (Slice.mk [sampleSubjectGroup, sampleSubject]) 1 sampleSubject rfl⟩

/-- C7. On a list of maps `expandSubjects` returns a subject per block, and for each
of kind, api_group, name and namespace the field holds the string found under the
key (the empty string included), and the empty string when the key is absent. -/
theorem expandSubjects_copies (s : Slice Val) (hs : ∀ v ∈ s.toList, v.asMap.isSome = true) :
    ∃ out, expandSubjects s = some out ∧ out.len = s.len ∧
      ∀ (i : Nat) (m : GoMap), s.toList[i]? = some (Val.map m) →
        ∃ sub, out.toList[i]? = some sub ∧
          ∀ key get, (key, get) ∈ subjectFields →
            (∀ x, GoMap.lookup m key = some (Val.str x) → get sub = x) ∧
            (GoMap.lookup m key = none → get sub = "") := by
  obtain ⟨ys, hys⟩ := mapOpt_some_of_forall expandSubjectsElem s.toList (by
    intro v hv
    have := hs v hv
    cases v with
    | map m => exact ⟨_, expandSubjectsElem_map m⟩
    | _ => simp [Val.asMap] at this)
  refine ⟨Slice.mk ys, by simp [expandSubjects_eq, hys],
    by simp [Slice.len, Slice.toList, mapOpt_length _ _ _ hys], ?_⟩
  intro i m hi
  obtain ⟨sub, hsub, hf⟩ := mapOpt_getElem? _ _ _ hys i _ hi
  rw [expandSubjectsElem_map] at hf
  simp only [Option.some.injEq] at hf
  subst hf
  refine ⟨_, hsub, ?_⟩
  intro key get hk
  simp only [subjectFields, List.mem_cons, List.mem_singleton, List.not_mem_nil, or_false,
    Prod.mk.injEq] at hk
  rcases hk with ⟨rfl, rfl⟩ | ⟨rfl, rfl⟩ | ⟨rfl, rfl⟩ | ⟨rfl, rfl⟩ <;>
    exact ⟨fun x hx => readSubjectField_str m _ x hx, fun hx => readSubjectField_absent m _ hx⟩

theorem expandSubjects_copies_witness :
    (∀ v ∈ (Slice.mk [sampleSubjectBlock, Val.map [("kind", Val.str "Group")]]).toList,
      v.asMap.isSome = true) ∧
    ∃ out, expandSubjects (Slice.mk [sampleSubjectBlock, Val.map [("kind", Val.str "Group")]])
        = some out ∧
      out.len = (Slice.mk [sampleSubjectBlock, Val.map [("kind", Val.str "Group")]]).len ∧
      ∀ (i : Nat) (m : GoMap),
        (Slice.mk [sampleSubjectBlock, Val.map [("kind", Val.str "Group")]]).toList[i]?
          = some (Val.map m) →
        ∃ sub, out.toList[i]? = some sub ∧
          ∀ key get, (key, get) ∈ subjectFields →
            (∀ x, GoMap.lookup m key = some (Val.str x) → get sub = x) ∧
            (GoMap.lookup m key = none → get sub = "") :=
  have h : ∀ v ∈ (Slice.mk [sampleSubjectBlock, Val.map [("kind", Val.str "Group")]]).toList,
      v.asMap.isSome = true := by
    intro v hv
    simp only [Slice.toList, List.mem_cons, List.mem_singleton, List.not_mem_nil, or_false] at hv
    rcases hv with rfl | rfl <;> rfl
  ⟨h, expandSubjects_copies _ h⟩

/-- On a subject block, the map `flattenSubjects` builds from what `expandSubjects`
read is the block without an api_group that holds the empty string. -/
theorem flattenSubjectsMap_subjectBlock (m : GoMap) (h : isSubjectBlock (Val.map m) = true) :
    GoMap.Same
      (flattenSubjectsMap { Kind := readSubjectField m "kind",
                            APIGroup := readSubjectField m "api_group",
                            Name := readSubjectField m "name",
                            Namespace := readSubjectField m "namespace" })
      (dropEmptyApiGroup m) := by
  simp only [isSubjectBlock, Bool.and_eq_true, Bool.or_eq_true, Bool.not_eq_true'] at h
  obtain ⟨⟨⟨⟨hall, hk⟩, hn⟩, hs⟩, hg⟩ := h
  obtain ⟨a, ha⟩ := lookup_of_isString m _ hk
  obtain ⟨b, hb⟩ := lookup_of_isString m _ hn
  obtain ⟨c, hc⟩ := lookup_of_isString m _ hs
  have hother : ∀ k, k ≠ "namespace" → k ≠ "name" → k ≠ "api_group" → k ≠ "kind" →
      GoMap.lookup m k = none := by
    intro k h1 h2 h3 h4
    exact lookup_of_not_key m subjectKeys k hall (by simp [subjectKeys, h1, h2, h3, h4])
  intro k
  rw [flattenSubjectsMap_lookup]
  simp only [readSubjectField_str m _ _ ha, readSubjectField_str m _ _ hb,
    readSubjectField_str m _ _ hc]
  have hgcases : GoMap.lookup m "api_group" = none ∨
      ∃ g, GoMap.lookup m "api_group" = some (Val.str g) := by
    rcases hg with hg | hg
    · left
      simpa [GoMap.has] using hg
    · right
      exact lookup_of_isString m _ hg
  rcases hgcases with hnone | ⟨g, hsome⟩
  · have hd : dropEmptyApiGroup m = m := by simp [dropEmptyApiGroup, hnone]
    rw [hd, readSubjectField_absent m _ hnone]
    by_cases h1 : k = "namespace"
    · simp [h1, hc]
    · by_cases h2 : k = "name"
      · simp [h2, hb]
      · by_cases h3 : k = "api_group"
        · simp [h3, hnone]
        · by_cases h4 : k = "kind"
          · simp [h4, ha]
          · simp [h1, h2, h3, h4, hother k h1 h2 h3 h4]
  · rw [readSubjectField_str m _ _ hsome]
    by_cases hge : g = ""
    · have hd : dropEmptyApiGroup m = GoMap.delete m "api_group" := by
        simp [dropEmptyApiGroup, hsome, hge]
      rw [hd, GoMap.lookup_delete]
      by_cases h1 : k = "namespace"
      · simp [h1, hc]
      · by_cases h2 : k = "name"
        · simp [h2, hb]
        · by_cases h3 : k = "api_group"
          · simp [h3, hge]
          · by_cases h4 : k = "kind"
            · simp [h4, ha]
            · simp [h1, h2, h3, h4, hother k h1 h2 h3 h4]
    · have hd : dropEmptyApiGroup m = m := by simp [dropEmptyApiGroup, hsome, hge]
      rw [hd]
      by_cases h1 : k = "namespace"
      · simp [h1, hc]
      · by_cases h2 : k = "name"
        · simp [h2, hb]
        · by_cases h3 : k = "api_group"
          · simp [h3, hge, hsome]
          · by_cases h4 : k = "kind"
            · simp [h4, ha]
            · simp [h1, h2, h3, h4, hother k h1 h2 h3 h4]

/-- C8. For every list `x` of subject blocks (only keys kind, name, namespace, strings,
and optionally api_group, a string), `expandSubjects x` returns `subs`, and
`flattenSubjects subs` is `x` with every api_group key that holds the empty string
removed: element `i` is the same map as block `i` without such a key. A block whose
api_group is non-empty comes back as the same map, and a block whose api_group is the
empty string comes back without that key. -/
theorem flattenSubjects_expandSubjects_roundtrip (x : Slice Val)
    (hx : ∀ v ∈ x.toList, isSubjectBlock v = true) :
    ∃ subs, expandSubjects x = some subs ∧ (flattenSubjects subs).len = x.len ∧
      ∀ (i : Nat) (m : GoMap), x.toList[i]? = some (Val.map m) →
        ∃ m', (flattenSubjects subs).toList[i]? = some (Val.map m') ∧
          GoMap.Same m' (dropEmptyApiGroup m) ∧
          (∀ g, GoMap.lookup m "api_group" = some (Val.str g) → g ≠ "" → GoMap.Same m' m) ∧
          (GoMap.lookup m "api_group" = some (Val.str "") → GoMap.has m' "api_group" = false) := by
  obtain ⟨ys, hys⟩ := mapOpt_some_of_forall expandSubjectsElem x.toList (by
    intro v hv
    have := hx v hv
    cases v with
    | map m => exact ⟨_, expandSubjectsElem_map m⟩
    | _ => simp [isSubjectBlock] at this)
  refine ⟨Slice.mk ys, by simp [expandSubjects_eq, hys], ?_, ?_⟩
  · simp [flattenSubjects_eq, Slice.len, Slice.toList, mapOpt_length _ _ _ hys]
  · intro i m hi
    obtain ⟨sub, hsub, hf⟩ := mapOpt_getElem? _ _ _ hys i _ hi
    rw [expandSubjectsElem_map] at hf
    simp only [Option.some.injEq] at hf
    have hblock : isSubjectBlock (Val.map m) = true := hx _ (List.getElem?_mem hi)
    have hsame := flattenSubjectsMap_subjectBlock m hblock
    rw [hf] at hsame
    refine ⟨flattenSubjectsMap sub, ?_, hsame, ?_, ?_⟩
    · rw [flattenSubjects_toList, List.getElem?_map]
      simp only [Slice.toList, hsub, Option.map_some']
    · intro g hg hne
      have hd : dropEmptyApiGroup m = m := by simp [dropEmptyApiGroup, hg, hne]
      rw [hd] at hsame
      exact hsame
    · intro hg
      have hd : dropEmptyApiGroup m = GoMap.delete m "api_group" := by
        simp [dropEmptyApiGroup, hg]
      have := hsame "api_group"
      rw [hd, GoMap.lookup_delete] at this
      simp [GoMap.has, this]

theorem flattenSubjects_expandSubjects_roundtrip_witness :
    (∀ v ∈ (Slice.mk [sampleSubjectBlock, sampleSubjectBlockGroup]).toList,
      isSubjectBlock v = true) ∧
    ∃ subs, expandSubjects (Slice.mk [sampleSubjectBlock, sampleSubjectBlockGroup]) = some subs ∧
      (flattenSubjects subs).len = (Slice.mk [sampleSubjectBlock, sampleSubjectBlockGroup]).len ∧
      ∀ (i : Nat) (m : GoMap),
        (Slice.mk [sampleSubjectBlock, sampleSubjectBlockGroup]).toList[i]? = some (Val.map m) →
        ∃ m', (flattenSubjects subs).toList[i]? = some (Val.map m') ∧
          GoMap.Same m' (dropEmptyApiGroup m) ∧
          (∀ g, GoMap.lookup m "api_group" = some (Val.str g) → g ≠ "" → GoMap.Same m' m) ∧
          (GoMap.lookup m "api_group" = some (Val.str "") → GoMap.has m' "api_group" = false) :=
  have h : ∀ v ∈ (Slice.mk [sampleSubjectBlock, sampleSubjectBlockGroup]).toList,
      isSubjectBlock v = true := by
    intro v hv
    simp only [Slice.toList, List.mem_cons, List.mem_singleton, List.not_mem_nil, or_false] at hv
    rcases hv with rfl | rfl <;> decide
  ⟨h, flattenSubjects_expandSubjects_roundtrip _ h⟩

/-- C9. For every list `s` of `Subject` values, `expandSubjects (flattenSubjects s)`
returns the subjects of `s` in the same order, subjects with an empty APIGroup
included. -/
theorem expandSubjects_flattenSubjects_roundtrip (s : Slice Subject) :
    expandSubjects (flattenSubjects s) = some (Slice.mk s.toList) := by
  rw [expandSubjects_eq, flattenSubjects_toList,
    mapOpt_map expandSubjectsElem (fun v => Val.map (flattenSubjectsMap v)) id
      expandSubjectsElem_flattenSubjectsMap]
  simp

/-- C10. `expandRoleRef` and `flattenRoleRef` are mutually inverse: expanding the map
that `flattenRoleRef r` holds returns `r`, and on a map with exactly the keys
api_group, kind and name, holding strings, `expandRoleRef` returns a `RoleRef` that
`flattenRoleRef` turns back into the same map. -/
theorem roleRef_roundtrip (r : RoleRef) (m : GoMap) (hm : isRoleRefBlock m = true) :
    (flattenRoleRef r).asMap.bind expandRoleRef = some r ∧
    ∃ r', expandRoleRef m = some r' ∧
      ∃ m', flattenRoleRef r' = Val.map m' ∧ GoMap.Same m' m := by
  constructor
  · simp [flattenRoleRef, Val.asMap, expandRoleRef, GoMap.index, GoMap.lookup_set,
      Val.asString]
  · simp only [isRoleRefBlock, roleRefKeys, List.all_cons, List.all_nil, Bool.and_true,
      Bool.and_eq_true] at hm
    obtain ⟨hall, hg, hk, hn⟩ := hm
    obtain ⟨g, hg⟩ := lookup_of_isString m _ hg
    obtain ⟨k, hk⟩ := lookup_of_isString m _ hk
    obtain ⟨n, hn⟩ := lookup_of_isString m _ hn
    refine ⟨{ APIGroup := g, Kind := k, Name := n }, ?_, _, rfl, ?_⟩
    · simp [expandRoleRef, GoMap.index, hg, hk, hn, Val.asString]
    · intro key
      simp only [GoMap.lookup_set, GoMap.lookup_nil]
      by_cases h1 : key = "name"
      · simp [h1, hn]
      · by_cases h2 : key = "kind"
        · simp [h2, hk]
        · by_cases h3 : key = "api_group"
          · simp [h3, hg]
          · simp only [h1, h2, h3, if_false]
            exact (lookup_of_not_key m ["api_group", "kind", "name"] key hall
              (by simp [h1, h2, h3])).symm

theorem roleRef_roundtrip_witness :
    isRoleRefBlock sampleRoleRefBlock = true ∧
    (flattenRoleRef sampleRoleRef).asMap.bind expandRoleRef = some sampleRoleRef ∧
    ∃ r', expandRoleRef sampleRoleRefBlock = some r' ∧
      ∃ m', flattenRoleRef r' = Val.map m' ∧ GoMap.Same m' sampleRoleRefBlock :=
  ⟨by decide, roleRef_roundtrip sampleRoleRef sampleRoleRefBlock (by decide)⟩

/-! ## Claims on the resource handlers -/

theorem index_asString_eq_some (m : GoMap) (k x : String) :
    (GoMap.index m k).asString = some x ↔ GoMap.lookup m k = some (Val.str x) := by
  unfold GoMap.index
  cases GoMap.lookup m k with
  | none => simp [Val.asString]
  | some v => cases v <;> simp [Val.asString]

/-- The results of `expandRoleRef`: it returns a `RoleRef` exactly when api_group, kind
and name are all present and hold strings, and then with those strings; when one of
the three keys is absent the single-value type assertion panics. -/
theorem expandRoleRef_requires_keys (m : GoMap) (r : RoleRef) :
    (expandRoleRef m = some r ↔
      GoMap.lookup m "api_group" = some (Val.str r.APIGroup) ∧
      GoMap.lookup m "kind" = some (Val.str r.Kind) ∧
      GoMap.lookup m "name" = some (Val.str r.Name)) ∧
    ((GoMap.lookup m "api_group" = none ∨ GoMap.lookup m "kind" = none ∨
        GoMap.lookup m "name" = none) → expandRoleRef m = none) := by
  have hiff : ∀ r : RoleRef, expandRoleRef m = some r ↔
      GoMap.lookup m "api_group" = some (Val.str r.APIGroup) ∧
      GoMap.lookup m "kind" = some (Val.str r.Kind) ∧
      GoMap.lookup m "name" = some (Val.str r.Name) := by
    intro r
    simp only [expandRoleRef, Option.bind_eq_bind, Option.bind_eq_some, Option.some.injEq,
      index_asString_eq_some]
    constructor
    · rintro ⟨g, hg, k, hk, n, hn, rfl⟩
      exact ⟨hg, hk, hn⟩
    · rintro ⟨hg, hk, hn⟩
      exact ⟨_, hg, _, hk, _, hn, rfl⟩
  refine ⟨hiff r, ?_⟩
  intro habs
  cases hres : expandRoleRef m with
  | none => rfl
  | some r0 =>
    obtain ⟨hg, hk, hn⟩ := (hiff r0).mp hres
    rcases habs with h | h | h
    · rw [h] at hg; cases hg
    · rw [h] at hk; cases hk
    · rw [h] at hn; cases hn

/-- C11, on the code. `expandRoleRef` supplies no zero value for an absent key:
whenever api_group, kind or name is absent from the role_ref map, the single-value
type assertion panics and no `RoleRef` is returned. On the map with kind and name but
no api_group it returns nothing, in particular not the `RoleRef` with the empty
APIGroup, while the sibling `expandSubjects`, which reads its keys in the comma-ok
form, returns a subject with the empty APIGroup from the same map. -/
theorem expandRoleRef_absent_key_panics (m : GoMap) :
    ((GoMap.lookup m "api_group" = none ∨ GoMap.lookup m "kind" = none ∨
        GoMap.lookup m "name" = none) → expandRoleRef m = none) ∧
    expandRoleRef sampleRoleRefBlockNoGroup = none ∧
    expandRoleRef sampleRoleRefBlockNoGroup
      ≠ some { APIGroup := "", Kind := "ClusterRole", Name := "cluster-admin" } ∧
    expandSubjects (Slice.mk [Val.map sampleRoleRefBlockNoGroup])
      = some (Slice.mk [{ Kind := "ClusterRole", APIGroup := "", Name := "cluster-admin" }]) :=
  ⟨(expandRoleRef_requires_keys m {}).2, by decide, by decide, by decide⟩

/-- C12. For a cluster role binding whose identifier decodes and whose role_ref has
changed, the update handler returns the error "Failed to update cluster role binding:
cannot change role ref" and leaves the world as it was: no call is made to the
backing client, and the resource data and the identifier are untouched. -/
theorem bindingUpdate_role_ref_immutable {σ : Type} (h : Helpers)
    (conn : Client ClusterRoleBinding σ) (w : World ClusterRoleBinding σ) (ns name : String)
    (hid : h.idParts w.d.id = Except.ok (ns, name))
    (hchanged : w.d.HasChange "role_ref" = true) :
    resourceKubernetesClusterRoleBindingUpdate h conn w =
      some (some (GoError.plain "Failed to update cluster role binding: cannot change role ref"),
        w) := by
  simp [resourceKubernetesClusterRoleBindingUpdate, hid, hchanged]

theorem bindingUpdate_role_ref_immutable_witness :
    sampleHelpers.idParts (freshWorld ClusterRoleBinding (sampleBindingData ["role_ref"])).d.id
      = Except.ok ("", "admins") ∧
    (freshWorld ClusterRoleBinding (sampleBindingData ["role_ref"])).d.HasChange "role_ref"
      = true ∧
    resourceKubernetesClusterRoleBindingUpdate sampleHelpers
        (failingClient ClusterRoleBinding forbidden)
        (freshWorld ClusterRoleBinding (sampleBindingData ["role_ref"])) =
      some (some (GoError.plain "Failed to update cluster role binding: cannot change role ref"),
        freshWorld ClusterRoleBinding (sampleBindingData ["role_ref"])) :=
  ⟨rfl, rfl, bindingUpdate_role_ref_immutable sampleHelpers _ _ "" "admins" rfl rfl⟩

/-- C13. For cluster roles and cluster role bindings alike, when the identifier
decodes and the backing Get fails with a status error of code 404, the Exists handler
returns `(false, nil)`. -/
theorem exists_not_found {σ τ : Type} (h : Helpers)
    (connR : Client ClusterRole σ) (wR : World ClusterRole σ)
    (connB : Client ClusterRoleBinding τ) (wB : World ClusterRoleBinding τ)
    (nsR nameR msgR nsB nameB msgB : String)
    (hidR : h.idParts wR.d.id = Except.ok (nsR, nameR))
    (hgetR : (connR.Get nameR wR.srv).1 = Except.error (GoError.status 404 msgR))
    (hidB : h.idParts wB.d.id = Except.ok (nsB, nameB))
    (hgetB : (connB.Get nameB wB.srv).1 = Except.error (GoError.status 404 msgB)) :
    (resourceKubernetesClusterRoleExists h connR wR).1 = (false, none) ∧
    (resourceKubernetesClusterRoleBindingExists h connB wB).1 = (false, none) := by
  constructor
  · simp only [resourceKubernetesClusterRoleExists, hidR]
    cases hg : connR.Get nameR wR.srv with
    | mk res srv =>
      rw [hg] at hgetR
      simp only at hgetR
      subst hgetR
      simp [isStatus404]
  · simp only [resourceKubernetesClusterRoleBindingExists, hidB]
    cases hg : connB.Get nameB wB.srv with
    | mk res srv =>
      rw [hg] at hgetB
      simp only at hgetB
      subst hgetB
      simp [isStatus404]

theorem exists_not_found_witness :
    (resourceKubernetesClusterRoleExists sampleHelpers (failingClient ClusterRole notFound)
        (freshWorld ClusterRole sampleRoleData)).1 = (false, none) ∧
    (resourceKubernetesClusterRoleBindingExists sampleHelpers
        (failingClient ClusterRoleBinding notFound)
        (freshWorld ClusterRoleBinding (sampleBindingData []))).1 = (false, none) :=
  exists_not_found sampleHelpers (failingClient ClusterRole notFound)
    (freshWorld ClusterRole sampleRoleData) (failingClient ClusterRoleBinding notFound)
    (freshWorld ClusterRoleBinding (sampleBindingData [])) "" "reader"
    "clusterroles.rbac.authorization.k8s.io not found" "" "admins"
    "clusterroles.rbac.authorization.k8s.io not found" rfl rfl rfl rfl

theorem roleExists_cases {σ : Type} (h : Helpers) (conn : Client ClusterRole σ)
    (w : World ClusterRole σ) (ns name : String)
    (hid : h.idParts w.d.id = Except.ok (ns, name)) :
    (∀ obj srv, conn.Get name w.srv = (Except.ok obj, srv) →
      (resourceKubernetesClusterRoleExists h conn w).1 = (true, none)) ∧
    (∀ err srv, conn.Get name w.srv = (Except.error err, srv) → isStatus404 err = true →
      (resourceKubernetesClusterRoleExists h conn w).1 = (false, none)) ∧
    (∀ err srv, conn.Get name w.srv = (Except.error err, srv) → isStatus404 err = false →
      (resourceKubernetesClusterRoleExists h conn w).1 = (true, some err)) ∧
    ((resourceKubernetesClusterRoleExists h conn w).1.2 = none ↔
      (∃ obj, (conn.Get name w.srv).1 = Except.ok obj) ∨
      (∃ err, (conn.Get name w.srv).1 = Except.error err ∧ isStatus404 err = true)) := by
  simp only [resourceKubernetesClusterRoleExists, hid]
  cases hg : conn.Get name w.srv with
  | mk res srv =>
    cases res with
    | ok obj => simp
    | error err =>
      cases h404 : isStatus404 err <;> simp [h404]

theorem bindingExists_cases {σ : Type} (h : Helpers) (conn : Client ClusterRoleBinding σ)
    (w : World ClusterRoleBinding σ) (ns name : String)
    (hid : h.idParts w.d.id = Except.ok (ns, name)) :
    (∀ obj srv, conn.Get name w.srv = (Except.ok obj, srv) →
      (resourceKubernetesClusterRoleBindingExists h conn w).1 = (true, none)) ∧
    (∀ err srv, conn.Get name w.srv = (Except.error err, srv) → isStatus404 err = true →
      (resourceKubernetesClusterRoleBindingExists h conn w).1 = (false, none)) ∧
    (∀ err srv, conn.Get name w.srv = (Except.error err, srv) → isStatus404 err = false →
      (resourceKubernetesClusterRoleBindingExists h conn w).1 = (true, some err)) ∧
    ((resourceKubernetesClusterRoleBindingExists h conn w).1.2 = none ↔
      (∃ obj, (conn.Get name w.srv).1 = Except.ok obj) ∨
      (∃ err, (conn.Get name w.srv).1 = Except.error err ∧ isStatus404 err = true)) := by
  simp only [resourceKubernetesClusterRoleBindingExists, hid]
  cases hg : conn.Get name w.srv with
  | mk res srv =>
    cases res with
    | ok obj => simp
    | error err =>
      cases h404 : isStatus404 err <;> simp [h404]

/-- C14. With a decoded identifier, the Exists handlers return a nil error exactly
when the backing Get succeeded (and then the result is true) or failed with a 404
status error (and then the result is false); every other Get error is returned
unchanged. -/
theorem exists_swallows_only_not_found {σ τ : Type} (h : Helpers)
    (connR : Client ClusterRole σ) (wR : World ClusterRole σ)
    (connB : Client ClusterRoleBinding τ) (wB : World ClusterRoleBinding τ)
    (nsR nameR nsB nameB : String)
    (hidR : h.idParts wR.d.id = Except.ok (nsR, nameR))
    (hidB : h.idParts wB.d.id = Except.ok (nsB, nameB)) :
    ((∀ obj srv, connR.Get nameR wR.srv = (Except.ok obj, srv) →
        (resourceKubernetesClusterRoleExists h connR wR).1 = (true, none)) ∧
      (∀ err srv, connR.Get nameR wR.srv = (Except.error err, srv) → isStatus404 err = true →
        (resourceKubernetesClusterRoleExists h connR wR).1 = (false, none)) ∧
      (∀ err srv, connR.Get nameR wR.srv = (Except.error err, srv) → isStatus404 err = false →
        (resourceKubernetesClusterRoleExists h connR wR).1 = (true, some err)) ∧
      ((resourceKubernetesClusterRoleExists h connR wR).1.2 = none ↔
        (∃ obj, (connR.Get nameR wR.srv).1 = Except.ok obj) ∨
        (∃ err, (connR.Get nameR wR.srv).1 = Except.error err ∧ isStatus404 err = true))) ∧
    ((∀ obj srv, connB.Get nameB wB.srv = (Except.ok obj, srv) →
        (resourceKubernetesClusterRoleBindingExists h connB wB).1 = (true, none)) ∧
      (∀ err srv, connB.Get nameB wB.srv = (Except.error err, srv) → isStatus404 err = true →
        (resourceKubernetesClusterRoleBindingExists h connB wB).1 = (false, none)) ∧
      (∀ err srv, connB.Get nameB wB.srv = (Except.error err, srv) → isStatus404 err = false →
        (resourceKubernetesClusterRoleBindingExists h connB wB).1 = (true, some err)) ∧
      ((resourceKubernetesClusterRoleBindingExists h connB wB).1.2 = none ↔
        (∃ obj, (connB.Get nameB wB.srv).1 = Except.ok obj) ∨
        (∃ err, (connB.Get nameB wB.srv).1 = Except.error err ∧ isStatus404 err = true))) :=
  ⟨roleExists_cases h connR wR nsR nameR hidR, bindingExists_cases h connB wB nsB nameB hidB⟩

theorem exists_swallows_only_not_found_witness :
    (resourceKubernetesClusterRoleExists sampleHelpers (failingClient ClusterRole forbidden)
        (freshWorld ClusterRole sampleRoleData)).1 = (true, some forbidden) ∧
    (resourceKubernetesClusterRoleBindingExists sampleHelpers
        (failingClient ClusterRoleBinding connRefused)
        (freshWorld ClusterRoleBinding (sampleBindingData []))).1 = (true, some connRefused) :=
  have hw := exists_swallows_only_not_found sampleHelpers (failingClient ClusterRole forbidden)
    (freshWorld ClusterRole sampleRoleData) (failingClient ClusterRoleBinding connRefused)
    (freshWorld ClusterRoleBinding (sampleBindingData [])) "" "reader" "" "admins" rfl rfl
  ⟨hw.1.2.2.1 forbidden () rfl rfl, hw.2.2.2.1 connRefused () rfl rfl⟩

/-- C15. In the Read handlers a failure of the backing Get, a 404 included, is
returned as it is, after that one call, and nothing is written to the resource data. -/
theorem read_get_failure {σ τ : Type} (h : Helpers)
    (connR : Client ClusterRole σ) (wR : World ClusterRole σ)
    (connB : Client ClusterRoleBinding τ) (wB : World ClusterRoleBinding τ)
    (nsR nameR nsB nameB : String) (errR errB : GoError) (srvR : σ) (srvB : τ)
    (hidR : h.idParts wR.d.id = Except.ok (nsR, nameR))
    (hgetR : connR.Get nameR wR.srv = (Except.error errR, srvR))
    (hidB : h.idParts wB.d.id = Except.ok (nsB, nameB))
    (hgetB : connB.Get nameB wB.srv = (Except.error errB, srvB)) :
    (resourceKubernetesClusterRoleRead h connR wR
        = (some errR, { d := wR.d, srv := srvR, calls := wR.calls ++ [Call.Get nameR] })) ∧
    (resourceKubernetesClusterRoleBindingRead h connB wB
        = (some errB, { d := wB.d, srv := srvB, calls := wB.calls ++ [Call.Get nameB] })) := by
  constructor
  · simp only [resourceKubernetesClusterRoleRead, hidR, hgetR, World.called]
  · simp only [resourceKubernetesClusterRoleBindingRead, hidB, hgetB, World.called]

theorem read_get_failure_witness :
    (resourceKubernetesClusterRoleRead sampleHelpers (failingClient ClusterRole notFound)
        (freshWorld ClusterRole sampleRoleData)
      = (some notFound, { d := sampleRoleData, srv := (), calls := [] ++ [Call.Get "reader"] })) ∧
    (resourceKubernetesClusterRoleBindingRead sampleHelpers
        (failingClient ClusterRoleBinding forbidden)
        (freshWorld ClusterRoleBinding (sampleBindingData []))
      = (some forbidden,
          { d := sampleBindingData [], srv := (), calls := [] ++ [Call.Get "admins"] })) :=
  read_get_failure sampleHelpers (failingClient ClusterRole notFound)
    (freshWorld ClusterRole sampleRoleData) (failingClient ClusterRoleBinding forbidden)
    (freshWorld ClusterRoleBinding (sampleBindingData [])) "" "reader" "" "admins"
    notFound forbidden () () rfl rfl rfl rfl

/-- C16. When the backing Create call fails, the Create handlers return that error
unchanged; the identifier and the rest of the resource data are as before, and the
Create call is the only call made to the backing client (no Get of a Read, no retry). -/
theorem create_failure {σ τ : Type} (h : Helpers)
    (connR : Client ClusterRole σ) (wR : World ClusterRole σ)
    (connB : Client ClusterRoleBinding τ) (wB : World ClusterRoleBinding τ)
    (objR : ClusterRole) (objB : ClusterRoleBinding)
    (errR errB : GoError) (srvR : σ) (srvB : τ)
    (hobjR : (wR.d.Get "metadata").asList.bind (fun metadata =>
      (wR.d.Get "rule").asList.bind (fun rule => (expandRules rule).map (fun rules =>
        ({ ObjectMeta := h.expandMetadata metadata, Rules := rules } : ClusterRole))))
      = some objR)
    (hcreateR : connR.Create objR wR.srv = (Except.error errR, srvR))
    (hobjB : (wB.d.Get "metadata").asList.bind (fun metadata =>
      (wB.d.Get "role_ref").asMap.bind (fun block => (expandRoleRef block).bind (fun roleRef =>
        (wB.d.Get "subject").asList.bind (fun subject =>
          (expandSubjects subject).map (fun subjects =>
            ({ ObjectMeta := h.expandMetadata metadata, RoleRef := roleRef,
               Subjects := subjects } : ClusterRoleBinding))))))
      = some objB)
    (hcreateB : connB.Create objB wB.srv = (Except.error errB, srvB)) :
    (resourceKubernetesClusterRoleCreate h connR wR
        = some (some errR,
            { d := wR.d, srv := srvR, calls := wR.calls ++ [Call.Create objR] })) ∧
    (resourceKubernetesClusterRoleBindingCreate h connB wB
        = some (some errB,
            { d := wB.d, srv := srvB, calls := wB.calls ++ [Call.Create objB] })) := by
  constructor
  · simp only [Option.bind_eq_some, Option.map_eq_some'] at hobjR
    obtain ⟨md, hmd, rule, hrule, rules, hrules, rfl⟩ := hobjR
    simp only [resourceKubernetesClusterRoleCreate, hmd, hrule, hrules, Option.bind_eq_bind,
      Option.some_bind, hcreateR, World.called]
  · simp only [Option.bind_eq_some, Option.map_eq_some'] at hobjB
    obtain ⟨md, hmd, block, hblock, roleRef, href, subject, hsub, subjects, hsubs, rfl⟩ := hobjB
    simp only [resourceKubernetesClusterRoleBindingCreate, hmd, hblock, href, hsub, hsubs,
      Option.bind_eq_bind, Option.some_bind, hcreateB, World.called]

theorem create_failure_witness :
    (resourceKubernetesClusterRoleCreate sampleHelpers (failingClient ClusterRole forbidden)
        (freshWorld ClusterRole sampleRoleData)
      = some (some forbidden,
          { d := sampleRoleData, srv := (), calls := [] ++ [Call.Create sampleRole] })) ∧
    (resourceKubernetesClusterRoleBindingCreate sampleHelpers
        (failingClient ClusterRoleBinding connRefused)
        (freshWorld ClusterRoleBinding (sampleBindingData []))
      = some (some connRefused,
          { d := sampleBindingData [], srv := (), calls := [] ++ [Call.Create sampleBinding] })) :=
  create_failure sampleHelpers (failingClient ClusterRole forbidden)
    (freshWorld ClusterRole sampleRoleData) (failingClient ClusterRoleBinding connRefused)
    (freshWorld ClusterRoleBinding (sampleBindingData [])) sampleRole sampleBinding
    forbidden connRefused () () (by decide) rfl (by decide) rfl

/-- C17. When the backing Create call succeeds, the Create handlers have sent the
object built by `expandMetadata` and `expandRules` (resp. `expandRoleRef` and
`expandSubjects`) from the current attribute tree, store as identifier `buildId` of
the metadata of the object the server returned, and return what Read returns from
there. -/
theorem create_success {σ τ : Type} (h : Helpers)
    (connR : Client ClusterRole σ) (wR : World ClusterRole σ)
    (connB : Client ClusterRoleBinding τ) (wB : World ClusterRoleBinding τ)
    (objR outR : ClusterRole) (objB outB : ClusterRoleBinding) (srvR : σ) (srvB : τ)
    (hobjR : (wR.d.Get "metadata").asList.bind (fun metadata =>
      (wR.d.Get "rule").asList.bind (fun rule => (expandRules rule).map (fun rules =>
        ({ ObjectMeta := h.expandMetadata metadata, Rules := rules } : ClusterRole))))
      = some objR)
    (hcreateR : connR.Create objR wR.srv = (Except.ok outR, srvR))
    (hobjB : (wB.d.Get "metadata").asList.bind (fun metadata =>
      (wB.d.Get "role_ref").asMap.bind (fun block => (expandRoleRef block).bind (fun roleRef =>
        (wB.d.Get "subject").asList.bind (fun subject =>
          (expandSubjects subject).map (fun subjects =>
            ({ ObjectMeta := h.expandMetadata metadata, RoleRef := roleRef,
               Subjects := subjects } : ClusterRoleBinding))))))
      = some objB)
    (hcreateB : connB.Create objB wB.srv = (Except.ok outB, srvB)) :
    (resourceKubernetesClusterRoleCreate h connR wR
        = some (resourceKubernetesClusterRoleRead h connR
            { d := { id := h.buildId outR.ObjectMeta, attrs := wR.d.attrs,
                     changed := wR.d.changed },
              srv := srvR, calls := wR.calls ++ [Call.Create objR] })) ∧
    (resourceKubernetesClusterRoleBindingCreate h connB wB
        = some (resourceKubernetesClusterRoleBindingRead h connB
            { d := { id := h.buildId outB.ObjectMeta, attrs := wB.d.attrs,
                     changed := wB.d.changed },
              srv := srvB, calls := wB.calls ++ [Call.Create objB] })) := by
  constructor
  · simp only [Option.bind_eq_some, Option.map_eq_some'] at hobjR
    obtain ⟨md, hmd, rule, hrule, rules, hrules, rfl⟩ := hobjR
    simp only [resourceKubernetesClusterRoleCreate, hmd, hrule, hrules, Option.bind_eq_bind,
      Option.some_bind, hcreateR, World.called, ResourceData.SetId]
  · simp only [Option.bind_eq_some, Option.map_eq_some'] at hobjB
    obtain ⟨md, hmd, block, hblock, roleRef, href, subject, hsub, subjects, hsubs, rfl⟩ := hobjB
    simp only [resourceKubernetesClusterRoleBindingCreate, hmd, hblock, href, hsub, hsubs,
      Option.bind_eq_bind, Option.some_bind, hcreateB, World.called, ResourceData.SetId]

theorem create_success_witness :
    (resourceKubernetesClusterRoleCreate sampleHelpers (okClient generatedRole)
        (freshWorld ClusterRole sampleRoleData)
      = some (resourceKubernetesClusterRoleRead sampleHelpers (okClient generatedRole)
          { d := { id := "reader-x7k2q", attrs := sampleRoleData.attrs,
                   changed := sampleRoleData.changed },
            srv := (), calls := [] ++ [Call.Create sampleRole] })) ∧
    (resourceKubernetesClusterRoleBindingCreate sampleHelpers (okClient generatedBinding)
        (freshWorld ClusterRoleBinding (sampleBindingData []))
      = some (resourceKubernetesClusterRoleBindingRead sampleHelpers (okClient generatedBinding)
          { d := { id := "admins-9fz4c", attrs := (sampleBindingData []).attrs,
                   changed := (sampleBindingData []).changed },
            srv := (), calls := [] ++ [Call.Create sampleBinding] })) :=
  create_success sampleHelpers (okClient generatedRole) (freshWorld ClusterRole sampleRoleData)
    (okClient generatedBinding) (freshWorld ClusterRoleBinding (sampleBindingData []))
    sampleRole generatedRole sampleBinding generatedBinding () () (by decide) rfl (by decide) rfl

theorem roleDelete_cases {σ : Type} (h : Helpers) (conn : Client ClusterRole σ)
    (w : World ClusterRole σ) :
    (∀ err, h.idParts w.d.id = Except.error err →
      resourceKubernetesClusterRoleDelete h conn w = (some err, w)) ∧
    (∀ ns name err srv, h.idParts w.d.id = Except.ok (ns, name) →
      conn.Delete name w.srv = (some err, srv) →
      resourceKubernetesClusterRoleDelete h conn w
        = (some err, { d := w.d, srv := srv, calls := w.calls ++ [Call.Delete name] })) ∧
    (∀ ns name srv, h.idParts w.d.id = Except.ok (ns, name) →
      conn.Delete name w.srv = (none, srv) →
      resourceKubernetesClusterRoleDelete h conn w
        = (none, { d := { id := "", attrs := w.d.attrs, changed := w.d.changed },
                   srv := srv, calls := w.calls ++ [Call.Delete name] })) ∧
    ((resourceKubernetesClusterRoleDelete h conn w).1 = none →
      (resourceKubernetesClusterRoleDelete h conn w).2.d.id = "") ∧
    ((resourceKubernetesClusterRoleDelete h conn w).1 ≠ none →
      (resourceKubernetesClusterRoleDelete h conn w).2.d = w.d) := by
  refine ⟨?_, ?_, ?_, ?_, ?_⟩
  · intro err hid
    simp only [resourceKubernetesClusterRoleDelete, hid]
  · intro ns name err srv hid hdel
    simp only [resourceKubernetesClusterRoleDelete, hid, hdel, World.called]
  · intro ns name srv hid hdel
    simp only [resourceKubernetesClusterRoleDelete, hid, hdel, World.called, ResourceData.SetId]
  · unfold resourceKubernetesClusterRoleDelete
    cases hid : h.idParts w.d.id with
    | error err => simp
    | ok p =>
      obtain ⟨ns, name⟩ := p
      simp only
      cases hdel : conn.Delete name w.srv with
      | mk res srv => cases res <;> simp [World.called, ResourceData.SetId]
  · unfold resourceKubernetesClusterRoleDelete
    cases hid : h.idParts w.d.id with
    | error err => simp
    | ok p =>
      obtain ⟨ns, name⟩ := p
      simp only
      cases hdel : conn.Delete name w.srv with
      | mk res srv => cases res <;> simp [World.called]

theorem bindingDelete_cases {σ : Type} (h : Helpers) (conn : Client ClusterRoleBinding σ)
    (w : World ClusterRoleBinding σ) :
    (∀ err, h.idParts w.d.id = Except.error err →
      resourceKubernetesClusterRoleBindingDelete h conn w = (some err, w)) ∧
    (∀ ns name err srv, h.idParts w.d.id = Except.ok (ns, name) →
      conn.Delete name w.srv = (some err, srv) →
      resourceKubernetesClusterRoleBindingDelete h conn w
        = (some err, { d := w.d, srv := srv, calls := w.calls ++ [Call.Delete name] })) ∧
    (∀ ns name srv, h.idParts w.d.id = Except.ok (ns, name) →
      conn.Delete name w.srv = (none, srv) →
      resourceKubernetesClusterRoleBindingDelete h conn w
        = (none, { d := { id := "", attrs := w.d.attrs, changed := w.d.changed },
                   srv := srv, calls := w.calls ++ [Call.Delete name] })) ∧
    ((resourceKubernetesClusterRoleBindingDelete h conn w).1 = none →
      (resourceKubernetesClusterRoleBindingDelete h conn w).2.d.id = "") ∧
    ((resourceKubernetesClusterRoleBindingDelete h conn w).1 ≠ none →
      (resourceKubernetesClusterRoleBindingDelete h conn w).2.d = w.d) := by
  refine ⟨?_, ?_, ?_, ?_, ?_⟩
  · intro err hid
    simp only [resourceKubernetesClusterRoleBindingDelete, hid]
  · intro ns name err srv hid hdel
    simp only [resourceKubernetesClusterRoleBindingDelete, hid, hdel, World.called]
  · intro ns name srv hid hdel
    simp only [resourceKubernetesClusterRoleBindingDelete, hid, hdel, World.called,
      ResourceData.SetId]
  · unfold resourceKubernetesClusterRoleBindingDelete
    cases hid : h.idParts w.d.id with
    | error err => simp
    | ok p =>
      obtain ⟨ns, name⟩ := p
      simp only
      cases hdel : conn.Delete name w.srv with
      | mk res srv => cases res <;> simp [World.called, ResourceData.SetId]
  · unfold resourceKubernetesClusterRoleBindingDelete
    cases hid : h.idParts w.d.id with
    | error err => simp
    | ok p =>
      obtain ⟨ns, name⟩ := p
      simp only
      cases hdel : conn.Delete name w.srv with
      | mk res srv => cases res <;> simp [World.called]

/-- C18. The Delete handlers set the stored identifier to the empty string exactly
when the backing Delete call succeeds: when the identifier fails to decode the decode
error is returned and the world is as before; when the backing Delete fails its error
is returned unchanged and the resource data is as before; when it succeeds the
handler returns nil and the identifier is empty. -/
theorem delete_clears_identifier {σ τ : Type} (h : Helpers)
    (connR : Client ClusterRole σ) (wR : World ClusterRole σ)
    (connB : Client ClusterRoleBinding τ) (wB : World ClusterRoleBinding τ) :
    ((∀ err, h.idParts wR.d.id = Except.error err →
        resourceKubernetesClusterRoleDelete h connR wR = (some err, wR)) ∧
      (∀ ns name err srv, h.idParts wR.d.id = Except.ok (ns, name) →
        connR.Delete name wR.srv = (some err, srv) →
        resourceKubernetesClusterRoleDelete h connR wR
          = (some err, { d := wR.d, srv := srv, calls := wR.calls ++ [Call.Delete name] })) ∧
      (∀ ns name srv, h.idParts wR.d.id = Except.ok (ns, name) →
        connR.Delete name wR.srv = (none, srv) →
        resourceKubernetesClusterRoleDelete h connR wR
          = (none, { d := { id := "", attrs := wR.d.attrs, changed := wR.d.changed },
                     srv := srv, calls := wR.calls ++ [Call.Delete name] })) ∧
      ((resourceKubernetesClusterRoleDelete h connR wR).1 = none →
        (resourceKubernetesClusterRoleDelete h connR wR).2.d.id = "") ∧
      ((resourceKubernetesClusterRoleDelete h connR wR).1 ≠ none →
        (resourceKubernetesClusterRoleDelete h connR wR).2.d = wR.d)) ∧
    ((∀ err, h.idParts wB.d.id = Except.error err →
        resourceKubernetesClusterRoleBindingDelete h connB wB = (some err, wB)) ∧
      (∀ ns name err srv, h.idParts wB.d.id = Except.ok (ns, name) →
        connB.Delete name wB.srv = (some err, srv) →
        resourceKubernetesClusterRoleBindingDelete h connB wB
          = (some err, { d := wB.d, srv := srv, calls := wB.calls ++ [Call.Delete name] })) ∧
      (∀ ns name srv, h.idParts wB.d.id = Except.ok (ns, name) →
        connB.Delete name wB.srv = (none, srv) →
        resourceKubernetesClusterRoleBindingDelete h connB wB
          = (none, { d := { id := "", attrs := wB.d.attrs, changed := wB.d.changed },
                     srv := srv, calls := wB.calls ++ [Call.Delete name] })) ∧
      ((resourceKubernetesClusterRoleBindingDelete h connB wB).1 = none →
        (resourceKubernetesClusterRoleBindingDelete h connB wB).2.d.id = "") ∧
      ((resourceKubernetesClusterRoleBindingDelete h connB wB).1 ≠ none →
        (resourceKubernetesClusterRoleBindingDelete h connB wB).2.d = wB.d)) :=
  ⟨roleDelete_cases h connR wR, bindingDelete_cases h connB wB⟩

theorem delete_clears_identifier_witness :
    (resourceKubernetesClusterRoleDelete sampleHelpers (okClient sampleRole)
        (freshWorld ClusterRole sampleRoleData)
      = (none, { d := { id := "", attrs := sampleRoleData.attrs,
                        changed := sampleRoleData.changed },
                 srv := (), calls := [] ++ [Call.Delete "reader"] })) ∧
    (resourceKubernetesClusterRoleBindingDelete sampleHelpers
        (failingClient ClusterRoleBinding forbidden)
        (freshWorld ClusterRoleBinding (sampleBindingData []))
      = (some forbidden, { d := sampleBindingData [], srv := (),
                           calls := [] ++ [Call.Delete "admins"] })) :=
  have hw := delete_clears_identifier sampleHelpers (okClient sampleRole)
    (freshWorld ClusterRole sampleRoleData) (failingClient ClusterRoleBinding forbidden)
    (freshWorld ClusterRoleBinding (sampleBindingData []))
  ⟨hw.1.2.2.1 "" "reader" () rfl rfl, hw.2.2.1 "" "admins" forbidden () rfl rfl⟩

theorem roleUpdate_errors {σ : Type} (h : Helpers) (conn : Client ClusterRole σ)
    (w : World ClusterRole σ) :
    ((∀ err, h.idParts w.d.id = Except.error err →
        resourceKubernetesClusterRoleUpdate h conn w = some (some err, w)) ∧
      (∀ ns name ops err, h.idParts w.d.id = Except.ok (ns, name) →
        clusterRoleUpdateOps (h.patchMetadata "metadata.0." "/metadata/" w.d) w.d = some ops →
        h.marshalJSON ops = Except.error err →
        resourceKubernetesClusterRoleUpdate h conn w
          = some (some (GoError.plain ("Failed to marshal update operations: " ++ err.Error)),
              w)) ∧
      (∀ ns name ops data err srv, h.idParts w.d.id = Except.ok (ns, name) →
        clusterRoleUpdateOps (h.patchMetadata "metadata.0." "/metadata/" w.d) w.d = some ops →
        h.marshalJSON ops = Except.ok data →
        conn.Patch name PatchType.JSONPatchType data w.srv = (Except.error err, srv) →
        resourceKubernetesClusterRoleUpdate h conn w
          = some (some (GoError.plain ("Failed to update cluster role: " ++ err.Error)),
              { d := w.d, srv := srv,
                calls := w.calls ++ [Call.Patch name PatchType.JSONPatchType data] })) ∧
      (∀ ns name ops data out srv, h.idParts w.d.id = Except.ok (ns, name) →
        clusterRoleUpdateOps (h.patchMetadata "metadata.0." "/metadata/" w.d) w.d = some ops →
        h.marshalJSON ops = Except.ok data →
        conn.Patch name PatchType.JSONPatchType data w.srv = (Except.ok out, srv) →
        resourceKubernetesClusterRoleUpdate h conn w
          = some (resourceKubernetesClusterRoleRead h conn
              { d := w.d, srv := srv,
                calls := w.calls ++ [Call.Patch name PatchType.JSONPatchType data] }))) := by
  refine ⟨?_, ?_, ?_, ?_⟩
  · intro err hid
    simp only [resourceKubernetesClusterRoleUpdate, hid]
  · intro ns name ops err hid hops hm
    simp [resourceKubernetesClusterRoleUpdate, hid, hops, hm, errorf]
  · intro ns name ops data err srv hid hops hm hp
    simp [resourceKubernetesClusterRoleUpdate, hid, hops, hm, hp, errorf, World.called]
  · intro ns name ops data out srv hid hops hm hp
    simp [resourceKubernetesClusterRoleUpdate, hid, hops, hm, hp, World.called]

theorem bindingUpdate_errors {σ : Type} (h : Helpers) (conn : Client ClusterRoleBinding σ)
    (w : World ClusterRoleBinding σ) :
    ((∀ err, h.idParts w.d.id = Except.error err →
        resourceKubernetesClusterRoleBindingUpdate h conn w = some (some err, w)) ∧
      (∀ ns name ops err, h.idParts w.d.id = Except.ok (ns, name) →
        w.d.HasChange "role_ref" = false →
        clusterRoleBindingUpdateOps (h.patchMetadata "metadata.0." "/metadata/" w.d) w.d = some ops →
        h.marshalJSON ops = Except.error err →
        resourceKubernetesClusterRoleBindingUpdate h conn w
          = some (some (GoError.plain ("Failed to marshal update operations: " ++ err.Error)),
              w)) ∧
      (∀ ns name ops data err srv, h.idParts w.d.id = Except.ok (ns, name) →
        w.d.HasChange "role_ref" = false →
        clusterRoleBindingUpdateOps (h.patchMetadata "metadata.0." "/metadata/" w.d) w.d = some ops →
        h.marshalJSON ops = Except.ok data →
        conn.Patch name PatchType.JSONPatchType data w.srv = (Except.error err, srv) →
        resourceKubernetesClusterRoleBindingUpdate h conn w
          = some (some (GoError.plain ("Failed to update cluster role binding: " ++ err.Error)),
              { d := w.d, srv := srv,
                calls := w.calls ++ [Call.Patch name PatchType.JSONPatchType data] })) ∧
      (∀ ns name ops data out srv, h.idParts w.d.id = Except.ok (ns, name) →
        w.d.HasChange "role_ref" = false →
        clusterRoleBindingUpdateOps (h.patchMetadata "metadata.0." "/metadata/" w.d) w.d = some ops →
        h.marshalJSON ops = Except.ok data →
        conn.Patch name PatchType.JSONPatchType data w.srv = (Except.ok out, srv) →
        resourceKubernetesClusterRoleBindingUpdate h conn w
          = some (resourceKubernetesClusterRoleBindingRead h conn
              { d := w.d, srv := srv,
                calls := w.calls ++ [Call.Patch name PatchType.JSONPatchType data] }))) := by
  refine ⟨?_, ?_, ?_, ?_⟩
  · intro err hid
    simp only [resourceKubernetesClusterRoleBindingUpdate, hid]
  · intro ns name ops err hid hg hops hm
    simp [resourceKubernetesClusterRoleBindingUpdate, hid, hg, hops, hm, errorf]
  · intro ns name ops data err srv hid hg hops hm hp
    simp [resourceKubernetesClusterRoleBindingUpdate, hid, hg, hops, hm, hp, errorf, World.called]
  · intro ns name ops data out srv hid hg hops hm hp
    simp [resourceKubernetesClusterRoleBindingUpdate, hid, hg, hops, hm, hp, World.called]

/-- C19. In the Update handlers a patch serialization failure is returned as
"Failed to marshal update operations: " followed by its message, a backing Patch
failure as "Failed to update cluster role: " (resp. "Failed to update cluster role
binding: ") followed by its message, while an identifier decode error is returned as
it is and, after a successful Patch, the handler returns what Read returns, its error
included, unwrapped. -/
theorem update_error_wrapping {σ τ : Type} (h : Helpers)
    (connR : Client ClusterRole σ) (wR : World ClusterRole σ)
    (connB : Client ClusterRoleBinding τ) (wB : World ClusterRoleBinding τ) :
    ((∀ err, h.idParts wR.d.id = Except.error err →
        resourceKubernetesClusterRoleUpdate h connR wR = some (some err, wR)) ∧
      (∀ ns name ops err, h.idParts wR.d.id = Except.ok (ns, name) →
        clusterRoleUpdateOps (h.patchMetadata "metadata.0." "/metadata/" wR.d) wR.d = some ops →
        h.marshalJSON ops = Except.error err →
        resourceKubernetesClusterRoleUpdate h connR wR
          = some (some (GoError.plain ("Failed to marshal update operations: " ++ err.Error)),
              wR)) ∧
      (∀ ns name ops data err srv, h.idParts wR.d.id = Except.ok (ns, name) →
        clusterRoleUpdateOps (h.patchMetadata "metadata.0." "/metadata/" wR.d) wR.d = some ops →
        h.marshalJSON ops = Except.ok data →
        connR.Patch name PatchType.JSONPatchType data wR.srv = (Except.error err, srv) →
        resourceKubernetesClusterRoleUpdate h connR wR
          = some (some (GoError.plain ("Failed to update cluster role: " ++ err.Error)),
              { d := wR.d, srv := srv,
                calls := wR.calls ++ [Call.Patch name PatchType.JSONPatchType data] })) ∧
      (∀ ns name ops data out srv, h.idParts wR.d.id = Except.ok (ns, name) →
        clusterRoleUpdateOps (h.patchMetadata "metadata.0." "/metadata/" wR.d) wR.d = some ops →
        h.marshalJSON ops = Except.ok data →
        connR.Patch name PatchType.JSONPatchType data wR.srv = (Except.ok out, srv) →
        resourceKubernetesClusterRoleUpdate h connR wR
          = some (resourceKubernetesClusterRoleRead h connR
              { d := wR.d, srv := srv,
                calls := wR.calls ++ [Call.Patch name PatchType.JSONPatchType data] }))) ∧
    ((∀ err, h.idParts wB.d.id = Except.error err →
        resourceKubernetesClusterRoleBindingUpdate h connB wB = some (some err, wB)) ∧
      (∀ ns name ops err, h.idParts wB.d.id = Except.ok (ns, name) →
        wB.d.HasChange "role_ref" = false →
        clusterRoleBindingUpdateOps (h.patchMetadata "metadata.0." "/metadata/" wB.d) wB.d = some ops →
        h.marshalJSON ops = Except.error err →
        resourceKubernetesClusterRoleBindingUpdate h connB wB
          = some (some (GoError.plain ("Failed to marshal update operations: " ++ err.Error)),
              wB)) ∧
      (∀ ns name ops data err srv, h.idParts wB.d.id = Except.ok (ns, name) →
        wB.d.HasChange "role_ref" = false →
        clusterRoleBindingUpdateOps (h.patchMetadata "metadata.0." "/metadata/" wB.d) wB.d = some ops →
        h.marshalJSON ops = Except.ok data →
        connB.Patch name PatchType.JSONPatchType data wB.srv = (Except.error err, srv) →
        resourceKubernetesClusterRoleBindingUpdate h connB wB
          = some (some (GoError.plain ("Failed to update cluster role binding: " ++ err.Error)),
              { d := wB.d, srv := srv,
                calls := wB.calls ++ [Call.Patch name PatchType.JSONPatchType data] })) ∧
      (∀ ns name ops data out srv, h.idParts wB.d.id = Except.ok (ns, name) →
        wB.d.HasChange "role_ref" = false →
        clusterRoleBindingUpdateOps (h.patchMetadata "metadata.0." "/metadata/" wB.d) wB.d = some ops →
        h.marshalJSON ops = Except.ok data →
        connB.Patch name PatchType.JSONPatchType data wB.srv = (Except.ok out, srv) →
        resourceKubernetesClusterRoleBindingUpdate h connB wB
          = some (resourceKubernetesClusterRoleBindingRead h connB
              { d := wB.d, srv := srv,
                calls := wB.calls ++ [Call.Patch name PatchType.JSONPatchType data] }))) :=
  ⟨roleUpdate_errors h connR wR, bindingUpdate_errors h connB wB⟩

theorem update_error_wrapping_witness :
    (resourceKubernetesClusterRoleUpdate sampleHelpersNoMarshal (okClient sampleRole)
        (freshWorld ClusterRole sampleRoleData)
      = some (some (GoError.plain "Failed to marshal update operations: unsupported value"),
          freshWorld ClusterRole sampleRoleData)) ∧
    (resourceKubernetesClusterRoleBindingUpdate sampleHelpers
        (failingClient ClusterRoleBinding forbidden)
        (freshWorld ClusterRoleBinding (sampleBindingData ["subject"]))
      = some (some (GoError.plain "Failed to update cluster role binding: forbidden"),
          { d := sampleBindingData ["subject"], srv := (),
            calls := [] ++ [Call.Patch "admins" PatchType.JSONPatchType "[replace]"] })) :=
  have hR := (update_error_wrapping sampleHelpersNoMarshal (okClient sampleRole)
    (freshWorld ClusterRole sampleRoleData) (failingClient ClusterRoleBinding forbidden)
    (freshWorld ClusterRoleBinding (sampleBindingData ["subject"]))).1
  have hB := (update_error_wrapping sampleHelpers (okClient sampleRole)
    (freshWorld ClusterRole sampleRoleData) (failingClient ClusterRoleBinding forbidden)
    (freshWorld ClusterRoleBinding (sampleBindingData ["subject"]))).2
  ⟨hR.2.1 "" "reader" [PatchOp.replace "/rules" (PatchValue.rules (Slice.mk [sampleRuleModified]))]
      (GoError.plain "unsupported value") rfl (by decide) rfl,
   hB.2.2.1 "" "admins"
      [PatchOp.replace "/subjects" (PatchValue.subjects sampleBinding.Subjects)] "[replace]"
      forbidden () rfl rfl (by decide) rfl rfl⟩

theorem roleRead_calls_prefix {σ : Type} (h : Helpers) (conn : Client ClusterRole σ)
    (w : World ClusterRole σ) :
    w.calls <+: (resourceKubernetesClusterRoleRead h conn w).2.calls := by
  unfold resourceKubernetesClusterRoleRead
  cases h.idParts w.d.id with
  | error err => exact List.prefix_refl _
  | ok p =>
    obtain ⟨ns, name⟩ := p
    simp only
    cases hg : conn.Get name w.srv with
    | mk res srv =>
      cases res with
      | error err => simp [World.called]
      | ok crb =>
        simp only
        cases ResourceData.Set h (w.called (Call.Get name) srv).d "metadata"
            (h.flattenMetadata crb.ObjectMeta (w.called (Call.Get name) srv).d) with
        | error err => simp [World.called]
        | ok d =>
          simp only
          cases ResourceData.Set h d "rule" (Val.list (flattenRules crb.Rules)) <;>
            simp [World.called]

theorem bindingRead_calls_prefix {σ : Type} (h : Helpers) (conn : Client ClusterRoleBinding σ)
    (w : World ClusterRoleBinding σ) :
    w.calls <+: (resourceKubernetesClusterRoleBindingRead h conn w).2.calls := by
  unfold resourceKubernetesClusterRoleBindingRead
  cases h.idParts w.d.id with
  | error err => exact List.prefix_refl _
  | ok p =>
    obtain ⟨ns, name⟩ := p
    simp only
    cases hg : conn.Get name w.srv with
    | mk res srv =>
      cases res with
      | error err => simp [World.called]
      | ok crb =>
        simp only
        cases ResourceData.Set h (w.called (Call.Get name) srv).d "metadata"
            (h.flattenMetadata crb.ObjectMeta (w.called (Call.Get name) srv).d) with
        | error err => simp [World.called]
        | ok d =>
          simp only
          cases ResourceData.Set h d "role_ref" (flattenRoleRef crb.RoleRef) with
          | error err => simp [World.called]
          | ok d =>
            simp only
            cases ResourceData.Set h d "subject" (Val.list (flattenSubjects crb.Subjects)) <;>
              simp [World.called]

/-- C20. The Update handlers patch changed fields only. The operations they marshal
are those of `patchMetadata` followed, when `rule` (resp. `subject`) has changed, by
exactly one replace operation at "/rules" with value `expandRules` of the current
rule list (resp. at "/subjects" with `expandSubjects` of the current subject list),
and by nothing when it has not; the marshalled bytes are what the handler sends in
its Patch call, the first call it makes. -/
theorem update_patches_changed_fields {σ τ : Type} (h : Helpers)
    (connR : Client ClusterRole σ) (wR : World ClusterRole σ)
    (connB : Client ClusterRoleBinding τ) (wB : World ClusterRoleBinding τ)
    (nsR nameR nsB nameB dataR dataB : String)
    (rules : Slice PolicyRule) (subjects : Slice Subject)
    (hidR : h.idParts wR.d.id = Except.ok (nsR, nameR))
    (hrules : wR.d.HasChange "rule" = true →
      (wR.d.Get "rule").asList.bind expandRules = some rules)
    (hmR : h.marshalJSON (h.patchMetadata "metadata.0." "/metadata/" wR.d ++
        (if wR.d.HasChange "rule" = true
          then [PatchOp.replace "/rules" (PatchValue.rules rules)] else []))
      = Except.ok dataR)
    (hidB : h.idParts wB.d.id = Except.ok (nsB, nameB))
    (hrefB : wB.d.HasChange "role_ref" = false)
    (hsubjects : wB.d.HasChange "subject" = true →
      (wB.d.Get "subject").asList.bind expandSubjects = some subjects)
    (hmB : h.marshalJSON (h.patchMetadata "metadata.0." "/metadata/" wB.d ++
        (if wB.d.HasChange "subject" = true
          then [PatchOp.replace "/subjects" (PatchValue.subjects subjects)] else []))
      = Except.ok dataB) :
    (∃ r, resourceKubernetesClusterRoleUpdate h connR wR = some r ∧
      wR.calls ++ [Call.Patch nameR PatchType.JSONPatchType dataR] <+: r.2.calls) ∧
    (∃ r, resourceKubernetesClusterRoleBindingUpdate h connB wB = some r ∧
      wB.calls ++ [Call.Patch nameB PatchType.JSONPatchType dataB] <+: r.2.calls) := by
  constructor
  · have hops : clusterRoleUpdateOps (h.patchMetadata "metadata.0." "/metadata/" wR.d) wR.d
        = some (h.patchMetadata "metadata.0." "/metadata/" wR.d ++
            (if wR.d.HasChange "rule" = true
              then [PatchOp.replace "/rules" (PatchValue.rules rules)] else [])) := by
      unfold clusterRoleUpdateOps
      cases hc : wR.d.HasChange "rule" with
      | false => simp
      | true =>
        have hr := hrules hc
        simp only [Option.bind_eq_some] at hr
        obtain ⟨rule, hrule, hexp⟩ := hr
        simp [hrule, hexp]
    simp only [resourceKubernetesClusterRoleUpdate, hidR, hops, Option.bind_eq_bind,
      Option.some_bind, hmR]
    cases hp : connR.Patch nameR PatchType.JSONPatchType dataR wR.srv with
    | mk res srv =>
      cases res with
      | error err => exact ⟨_, rfl, List.prefix_refl _⟩
      | ok out =>
        exact ⟨_, rfl, roleRead_calls_prefix h connR
          (wR.called (Call.Patch nameR PatchType.JSONPatchType dataR) srv)⟩
  · have hops : clusterRoleBindingUpdateOps (h.patchMetadata "metadata.0." "/metadata/" wB.d)
          wB.d
        = some (h.patchMetadata "metadata.0." "/metadata/" wB.d ++
            (if wB.d.HasChange "subject" = true
              then [PatchOp.replace "/subjects" (PatchValue.subjects subjects)] else [])) := by
      unfold clusterRoleBindingUpdateOps
      cases hc : wB.d.HasChange "subject" with
      | false => simp
      | true =>
        have hr := hsubjects hc
        simp only [Option.bind_eq_some] at hr
        obtain ⟨subject, hsubject, hexp⟩ := hr
        simp [hsubject, hexp]
    simp only [resourceKubernetesClusterRoleBindingUpdate, hidB, hrefB, hops,
      Option.bind_eq_bind, Option.some_bind, hmB]
    cases hp : connB.Patch nameB PatchType.JSONPatchType dataB wB.srv with
    | mk res srv =>
      cases res with
      | error err => exact ⟨_, rfl, List.prefix_refl _⟩
      | ok out =>
        exact ⟨_, rfl, bindingRead_calls_prefix h connB
          (wB.called (Call.Patch nameB PatchType.JSONPatchType dataB) srv)⟩

theorem update_patches_changed_fields_witness :
    ((sampleRoleData.Get "rule").asList.bind expandRules = some (Slice.mk [sampleRuleModified])) ∧
    (sampleHelpers.patchMetadata "metadata.0." "/metadata/" sampleRoleData ++
        (if sampleRoleData.HasChange "rule" = true
          then [PatchOp.replace "/rules" (PatchValue.rules (Slice.mk [sampleRuleModified]))]
          else [])
      = [PatchOp.replace "/rules" (PatchValue.rules (Slice.mk [sampleRuleModified]))]) ∧
    (∃ r, resourceKubernetesClusterRoleUpdate sampleHelpers (okClient sampleRole)
        (freshWorld ClusterRole sampleRoleData) = some r ∧
      [] ++ [Call.Patch "reader" PatchType.JSONPatchType "[replace]"] <+: r.2.calls) ∧
    (∃ r, resourceKubernetesClusterRoleBindingUpdate sampleHelpers (okClient sampleBinding)
        (freshWorld ClusterRoleBinding (sampleBindingData [])) = some r ∧
      [] ++ [Call.Patch "admins" PatchType.JSONPatchType "[]"] <+: r.2.calls) :=
  ⟨by decide, by decide,
    update_patches_changed_fields sampleHelpers (okClient sampleRole)
      (freshWorld ClusterRole sampleRoleData) (okClient sampleBinding)
      (freshWorld ClusterRoleBinding (sampleBindingData [])) "" "reader" "" "admins"
      "[replace]" "[]" (Slice.mk [sampleRuleModified]) Slice.nil rfl (fun _ => by decide) rfl
      rfl rfl (fun hc => absurd hc (by decide)) rfl⟩

/-- C21. When decoding the stored identifier fails, Read, Update and Delete return
exactly the decode error and Exists returns false with that error, for cluster roles
and cluster role bindings alike; the world is left as it was, so no call is made to
the backing client and the stored state is not modified. -/
theorem malformed_identifier {σ τ : Type} (h : Helpers)
    (connR : Client ClusterRole σ) (wR : World ClusterRole σ)
    (connB : Client ClusterRoleBinding τ) (wB : World ClusterRoleBinding τ)
    (errR errB : GoError)
    (hidR : h.idParts wR.d.id = Except.error errR)
    (hidB : h.idParts wB.d.id = Except.error errB) :
    (resourceKubernetesClusterRoleRead h connR wR = (some errR, wR) ∧
      resourceKubernetesClusterRoleExists h connR wR = ((false, some errR), wR) ∧
      resourceKubernetesClusterRoleUpdate h connR wR = some (some errR, wR) ∧
      resourceKubernetesClusterRoleDelete h connR wR = (some errR, wR)) ∧
    (resourceKubernetesClusterRoleBindingRead h connB wB = (some errB, wB) ∧
      resourceKubernetesClusterRoleBindingExists h connB wB = ((false, some errB), wB) ∧
      resourceKubernetesClusterRoleBindingUpdate h connB wB = some (some errB, wB) ∧
      resourceKubernetesClusterRoleBindingDelete h connB wB = (some errB, wB)) := by
  refine ⟨⟨?_, ?_, ?_, ?_⟩, ⟨?_, ?_, ?_, ?_⟩⟩
  · simp only [resourceKubernetesClusterRoleRead, hidR]
  · simp only [resourceKubernetesClusterRoleExists, hidR]
  · simp only [resourceKubernetesClusterRoleUpdate, hidR]
  · simp only [resourceKubernetesClusterRoleDelete, hidR]
  · simp only [resourceKubernetesClusterRoleBindingRead, hidB]
  · simp only [resourceKubernetesClusterRoleBindingExists, hidB]
  · simp only [resourceKubernetesClusterRoleBindingUpdate, hidB]
  · simp only [resourceKubernetesClusterRoleBindingDelete, hidB]

theorem malformed_identifier_witness :
    (resourceKubernetesClusterRoleRead sampleHelpers (okClient sampleRole)
        (freshWorld ClusterRole sampleRoleDataBadId)
        = (some (GoError.plain "Unexpected ID format"), freshWorld ClusterRole sampleRoleDataBadId) ∧
      resourceKubernetesClusterRoleExists sampleHelpers (okClient sampleRole)
        (freshWorld ClusterRole sampleRoleDataBadId)
        = ((false, some (GoError.plain "Unexpected ID format")),
            freshWorld ClusterRole sampleRoleDataBadId) ∧
      resourceKubernetesClusterRoleUpdate sampleHelpers (okClient sampleRole)
        (freshWorld ClusterRole sampleRoleDataBadId)
        = some (some (GoError.plain "Unexpected ID format"),
            freshWorld ClusterRole sampleRoleDataBadId) ∧
      resourceKubernetesClusterRoleDelete sampleHelpers (okClient sampleRole)
        (freshWorld ClusterRole sampleRoleDataBadId)
        = (some (GoError.plain "Unexpected ID format"),
            freshWorld ClusterRole sampleRoleDataBadId)) ∧
    (resourceKubernetesClusterRoleBindingRead sampleHelpers (okClient sampleBinding)
        (freshWorld ClusterRoleBinding sampleBindingDataBadId)
        = (some (GoError.plain "Unexpected ID format"),
            freshWorld ClusterRoleBinding sampleBindingDataBadId) ∧
      resourceKubernetesClusterRoleBindingExists sampleHelpers (okClient sampleBinding)
        (freshWorld ClusterRoleBinding sampleBindingDataBadId)
        = ((false, some (GoError.plain "Unexpected ID format")),
            freshWorld ClusterRoleBinding sampleBindingDataBadId) ∧
      resourceKubernetesClusterRoleBindingUpdate sampleHelpers (okClient sampleBinding)
        (freshWorld ClusterRoleBinding sampleBindingDataBadId)
        = some (some (GoError.plain "Unexpected ID format"),
            freshWorld ClusterRoleBinding sampleBindingDataBadId) ∧
      resourceKubernetesClusterRoleBindingDelete sampleHelpers (okClient sampleBinding)
        (freshWorld ClusterRoleBinding sampleBindingDataBadId)
        = (some (GoError.plain "Unexpected ID format"),
            freshWorld ClusterRoleBinding sampleBindingDataBadId)) :=
  malformed_identifier sampleHelpers (okClient sampleRole)
    (freshWorld ClusterRole sampleRoleDataBadId) (okClient sampleBinding)
    (freshWorld ClusterRoleBinding sampleBindingDataBadId)
    (GoError.plain "Unexpected ID format") (GoError.plain "Unexpected ID format") rfl rfl

/-- The bindings of the map that `flattenRules` builds from a rule. -/
theorem flattenRulesMap_lookup_all (r : PolicyRule) (k : String) :
    GoMap.lookup (flattenRulesMap r) k =
      if k = "non_resource_urls" then some (Val.strs r.NonResourceURLs)
      else if k = "resource_names" then some (Val.strs r.ResourceNames)
      else if k = "resources" then some (Val.strs r.Resources)
      else if k = "api_groups" then some (Val.strs r.APIGroups)
      else if k = "verbs" then some (Val.strs r.Verbs)
      else none := by
  simp only [flattenRulesMap, GoMap.lookup_set, GoMap.lookup_nil]

/-- C26. For every list of `PolicyRule` values and every index `i`, the map that
`flattenRules` stores at `i` has exactly the five keys verbs, api_groups, resources,
resource_names and non_resource_urls, each holding the corresponding field slice of
rule `i` as it is, nil or empty included; no key is omitted. -/
theorem flattenRules_five_keys (a : Slice PolicyRule) (i : Nat) (r : PolicyRule)
    (hi : a.toList[i]? = some r) :
    ∃ m, (flattenRules a).toList[i]? = some (Val.map m) ∧
      (∀ k, GoMap.has m k = true ↔ k ∈ ruleKeys) ∧
      GoMap.lookup m "verbs" = some (Val.strs r.Verbs) ∧
      GoMap.lookup m "api_groups" = some (Val.strs r.APIGroups) ∧
      GoMap.lookup m "resources" = some (Val.strs r.Resources) ∧
      GoMap.lookup m "resource_names" = some (Val.strs r.ResourceNames) ∧
      GoMap.lookup m "non_resource_urls" = some (Val.strs r.NonResourceURLs) := by
  refine ⟨flattenRulesMap r, by rw [flattenRules_toList, List.getElem?_map, hi]; rfl,
    ?_, ?_, ?_, ?_, ?_, ?_⟩
  · intro k
    unfold GoMap.has
    rw [flattenRulesMap_lookup_all]
    simp only [ruleKeys, List.mem_cons, List.mem_singleton, List.not_mem_nil, or_false]
    by_cases h5 : k = "non_resource_urls"
    · simp [h5]
    · by_cases h4 : k = "resource_names"
      · simp [h4]
      · by_cases h3 : k = "resources"
        · simp [h3]
        · by_cases h2 : k = "api_groups"
          · simp [h2]
          · by_cases h1 : k = "verbs"
            · simp [h1]
            · simp [h1, h2, h3, h4, h5]
  · rw [flattenRulesMap_lookup_all]; simp
  · rw [flattenRulesMap_lookup_all]; simp
  · rw [flattenRulesMap_lookup_all]; simp
  · rw [flattenRulesMap_lookup_all]; simp
  · rw [flattenRulesMap_lookup_all]; simp

theorem flattenRules_five_keys_witness :
    (Slice.mk [sampleRuleModified, sampleRule]).toList[1]? = some sampleRule ∧
    ∃ m, (flattenRules (Slice.mk [sampleRuleModified, sampleRule])).toList[1]?
        = some (Val.map m) ∧
      (∀ k, GoMap.has m k = true ↔ k ∈ ruleKeys) ∧
      GoMap.lookup m "verbs" = some (Val.strs sampleRule.Verbs) ∧
      GoMap.lookup m "api_groups" = some (Val.strs sampleRule.APIGroups) ∧
      GoMap.lookup m "resources" = some (Val.strs sampleRule.Resources) ∧
      GoMap.lookup m "resource_names" = some (Val.strs sampleRule.ResourceNames) ∧
      GoMap.lookup m "non_resource_urls" = some (Val.strs sampleRule.NonResourceURLs) :=
  ⟨rfl, flattenRules_five_keys (Slice.mk [sampleRuleModified, sampleRule]) 1 sampleRule rfl⟩

theorem readSubjectField_not_string (m : GoMap) (key : String)
    (h : (GoMap.index m key).asString = none) : readSubjectField m key = "" := by
  simp [readSubjectField, h]

/-- C27. `expandSubjects` is total on lists of maps: whatever the keys and the types
of the values, it returns one subject per block, and a kind, api_group, name or
namespace whose value is not a string (or that is absent) leaves the field the empty
string, while a string value is copied. -/
theorem expandSubjects_total (s : Slice Val) (hs : ∀ v ∈ s.toList, v.asMap.isSome = true) :
    ∃ out, expandSubjects s = some out ∧ out.len = s.len ∧
      ∀ (i : Nat) (m : GoMap), s.toList[i]? = some (Val.map m) →
        ∃ sub, out.toList[i]? = some sub ∧
          ∀ key get, (key, get) ∈ subjectFields →
            (∀ v, GoMap.lookup m key = some v → v.asString = none → get sub = "") ∧
            (GoMap.lookup m key = none → get sub = "") ∧
            (∀ x, GoMap.lookup m key = some (Val.str x) → get sub = x) := by
  obtain ⟨ys, hys⟩ := mapOpt_some_of_forall expandSubjectsElem s.toList (by
    intro v hv
    have := hs v hv
    cases v with
    | map m => exact ⟨_, expandSubjectsElem_map m⟩
    | _ => simp [Val.asMap] at this)
  refine ⟨Slice.mk ys, by simp [expandSubjects_eq, hys],
    by simp [Slice.len, Slice.toList, mapOpt_length _ _ _ hys], ?_⟩
  intro i m hi
  obtain ⟨sub, hsub, hf⟩ := mapOpt_getElem? _ _ _ hys i _ hi
  rw [expandSubjectsElem_map] at hf
  simp only [Option.some.injEq] at hf
  subst hf
  refine ⟨_, hsub, ?_⟩
  intro key get hk
  simp only [subjectFields, List.mem_cons, List.mem_singleton, List.not_mem_nil, or_false,
    Prod.mk.injEq] at hk
  rcases hk with ⟨rfl, rfl⟩ | ⟨rfl, rfl⟩ | ⟨rfl, rfl⟩ | ⟨rfl, rfl⟩ <;>
    exact ⟨fun v hv hns => readSubjectField_not_string m _ (by simp [GoMap.index, hv, hns]),
      fun hx => readSubjectField_absent m _ hx, fun x hx => readSubjectField_str m _ x hx⟩

theorem expandSubjects_total_witness :
    (∀ v ∈ (Slice.mk [sampleSubjectBlockIllTyped, sampleSubjectBlock]).toList,
      v.asMap.isSome = true) ∧
    expandSubjects (Slice.mk [sampleSubjectBlockIllTyped, sampleSubjectBlock])
      = some (Slice.mk [{ Namespace := "default" }, sampleSubject]) ∧
    ∃ out, expandSubjects (Slice.mk [sampleSubjectBlockIllTyped, sampleSubjectBlock])
        = some out ∧
      out.len = (Slice.mk [sampleSubjectBlockIllTyped, sampleSubjectBlock]).len ∧
      ∀ (i : Nat) (m : GoMap),
        (Slice.mk [sampleSubjectBlockIllTyped, sampleSubjectBlock]).toList[i]?
          = some (Val.map m) →
        ∃ sub, out.toList[i]? = some sub ∧
          ∀ key get, (key, get) ∈ subjectFields →
            (∀ v, GoMap.lookup m key = some v → v.asString = none → get sub = "") ∧
            (GoMap.lookup m key = none → get sub = "") ∧
            (∀ x, GoMap.lookup m key = some (Val.str x) → get sub = x) :=
  have h : ∀ v ∈ (Slice.mk [sampleSubjectBlockIllTyped, sampleSubjectBlock]).toList,
      v.asMap.isSome = true := by
    intro v hv
    simp only [Slice.toList, List.mem_cons, List.mem_singleton, List.not_mem_nil, or_false] at hv
    rcases hv with rfl | rfl <;> rfl
  ⟨h, by decide, expandSubjects_total _ h⟩

theorem Set_id (h : Helpers) (d d2 : ResourceData) (key : String) (v : Val)
    (hset : ResourceData.Set h d key v = Except.ok d2) : d2.id = d.id := by
  unfold ResourceData.Set at hset
  cases hw : h.fieldWriter key v with
  | error err => simp [hw] at hset
  | ok stored =>
    simp only [hw, Except.ok.injEq] at hset
    subst hset
    rfl

theorem roleRead_id {σ : Type} (h : Helpers) (conn : Client ClusterRole σ)
    (w : World ClusterRole σ) :
    (resourceKubernetesClusterRoleRead h conn w).2.d.id = w.d.id := by
  unfold resourceKubernetesClusterRoleRead
  cases h.idParts w.d.id with
  | error err => rfl
  | ok p =>
    obtain ⟨ns, name⟩ := p
    simp only
    cases hg : conn.Get name w.srv with
    | mk res srv =>
      cases res with
      | error err => rfl
      | ok crb =>
        simp only
        cases h1 : ResourceData.Set h (w.called (Call.Get name) srv).d "metadata"
            (h.flattenMetadata crb.ObjectMeta (w.called (Call.Get name) srv).d) with
        | error err => rfl
        | ok d =>
          have hd := Set_id h _ _ _ _ h1
          simp only
          cases h2 : ResourceData.Set h d "rule" (Val.list (flattenRules crb.Rules)) with
          | error err => exact hd
          | ok d2 => exact (Set_id h _ _ _ _ h2).trans hd

theorem bindingRead_id {σ : Type} (h : Helpers) (conn : Client ClusterRoleBinding σ)
    (w : World ClusterRoleBinding σ) :
    (resourceKubernetesClusterRoleBindingRead h conn w).2.d.id = w.d.id := by
  unfold resourceKubernetesClusterRoleBindingRead
  cases h.idParts w.d.id with
  | error err => rfl
  | ok p =>
    obtain ⟨ns, name⟩ := p
    simp only
    cases hg : conn.Get name w.srv with
    | mk res srv =>
      cases res with
      | error err => rfl
      | ok crb =>
        simp only
        cases h1 : ResourceData.Set h (w.called (Call.Get name) srv).d "metadata"
            (h.flattenMetadata crb.ObjectMeta (w.called (Call.Get name) srv).d) with
        | error err => rfl
        | ok d =>
          have hd := Set_id h _ _ _ _ h1
          simp only
          cases h2 : ResourceData.Set h d "role_ref" (flattenRoleRef crb.RoleRef) with
          | error err => exact hd
          | ok d2 =>
            have hd2 := (Set_id h _ _ _ _ h2).trans hd
            simp only
            cases h3 : ResourceData.Set h d2 "subject"
                (Val.list (flattenSubjects crb.Subjects)) with
            | error err => exact hd2
            | ok d3 => exact (Set_id h _ _ _ _ h3).trans hd2

/-- C29. If the backing Create call succeeds and the Read that follows fails, the
Create handlers return the error of that Read unchanged, and the stored identifier is
the one built from the metadata of the object Create returned: it is not cleared. -/
theorem create_read_failure {σ τ : Type} (h : Helpers)
    (connR : Client ClusterRole σ) (wR : World ClusterRole σ)
    (connB : Client ClusterRoleBinding τ) (wB : World ClusterRoleBinding τ)
    (objR outR : ClusterRole) (objB outB : ClusterRoleBinding) (srvR : σ) (srvB : τ)
    (errR errB : GoError)
    (hobjR : (wR.d.Get "metadata").asList.bind (fun metadata =>
      (wR.d.Get "rule").asList.bind (fun rule => (expandRules rule).map (fun rules =>
        ({ ObjectMeta := h.expandMetadata metadata, Rules := rules } : ClusterRole))))
      = some objR)
    (hcreateR : connR.Create objR wR.srv = (Except.ok outR, srvR))
    (hreadR : (resourceKubernetesClusterRoleRead h connR
        { d := { id := h.buildId outR.ObjectMeta, attrs := wR.d.attrs,
                 changed := wR.d.changed },
          srv := srvR, calls := wR.calls ++ [Call.Create objR] }).1 = some errR)
    (hobjB : (wB.d.Get "metadata").asList.bind (fun metadata =>
      (wB.d.Get "role_ref").asMap.bind (fun block => (expandRoleRef block).bind (fun roleRef =>
        (wB.d.Get "subject").asList.bind (fun subject =>
          (expandSubjects subject).map (fun subjects =>
            ({ ObjectMeta := h.expandMetadata metadata, RoleRef := roleRef,
               Subjects := subjects } : ClusterRoleBinding))))))
      = some objB)
    (hcreateB : connB.Create objB wB.srv = (Except.ok outB, srvB))
    (hreadB : (resourceKubernetesClusterRoleBindingRead h connB
        { d := { id := h.buildId outB.ObjectMeta, attrs := wB.d.attrs,
                 changed := wB.d.changed },
          srv := srvB, calls := wB.calls ++ [Call.Create objB] }).1 = some errB) :
    (∃ r, resourceKubernetesClusterRoleCreate h connR wR = some r ∧
      r.1 = some errR ∧ r.2.d.id = h.buildId outR.ObjectMeta) ∧
    (∃ r, resourceKubernetesClusterRoleBindingCreate h connB wB = some r ∧
      r.1 = some errB ∧ r.2.d.id = h.buildId outB.ObjectMeta) := by
  constructor
  · simp only [Option.bind_eq_some, Option.map_eq_some'] at hobjR
    obtain ⟨md, hmd, rule, hrule, rules, hrules, rfl⟩ := hobjR
    refine ⟨_, ?_, hreadR, roleRead_id h connR _⟩
    simp only [resourceKubernetesClusterRoleCreate, hmd, hrule, hrules, Option.bind_eq_bind,
      Option.some_bind, hcreateR, World.called, ResourceData.SetId]
  · simp only [Option.bind_eq_some, Option.map_eq_some'] at hobjB
    obtain ⟨md, hmd, block, hblock, roleRef, href, subject, hsub, subjects, hsubs, rfl⟩ := hobjB
    refine ⟨_, ?_, hreadB, bindingRead_id h connB _⟩
    simp only [resourceKubernetesClusterRoleBindingCreate, hmd, hblock, href, hsub, hsubs,
      Option.bind_eq_bind, Option.some_bind, hcreateB, World.called, ResourceData.SetId]

theorem create_read_failure_witness :
    (∃ r, resourceKubernetesClusterRoleCreate sampleHelpers
        (createOnlyClient generatedRole forbidden) (freshWorld ClusterRole sampleRoleData)
        = some r ∧
      r.1 = some forbidden ∧ r.2.d.id = sampleHelpers.buildId generatedRole.ObjectMeta) ∧
    (∃ r, resourceKubernetesClusterRoleBindingCreate sampleHelpers
        (createOnlyClient generatedBinding notFound)
        (freshWorld ClusterRoleBinding (sampleBindingData [])) = some r ∧
      r.1 = some notFound ∧ r.2.d.id = sampleHelpers.buildId generatedBinding.ObjectMeta) :=
  create_read_failure sampleHelpers (createOnlyClient generatedRole forbidden)
    (freshWorld ClusterRole sampleRoleData) (createOnlyClient generatedBinding notFound)
    (freshWorld ClusterRoleBinding (sampleBindingData []))
    sampleRole generatedRole sampleBinding generatedBinding () () forbidden notFound
    (by decide) rfl (by decide) (by decide) rfl (by decide)

theorem roleRead_withId {σ : Type} (h : Helpers) (conn : Client ClusterRole σ)
    (w : World ClusterRole σ) (id2 ns1 ns2 name : String)
    (hflat : ∀ m d id, h.flattenMetadata m { d with id := id } = h.flattenMetadata m d)
    (hid1 : h.idParts w.d.id = Except.ok (ns1, name))
    (hid2 : h.idParts id2 = Except.ok (ns2, name)) :
    seen (resourceKubernetesClusterRoleRead h conn (w.withId id2)) = seen (resourceKubernetesClusterRoleRead h conn w) := by
  simp only [resourceKubernetesClusterRoleRead, World.withId, hid1, hid2, World.called]
  cases conn.Get name w.srv with
  | mk res srv =>
    cases res with
    | error err => rfl
    | ok crb =>
      simp only [hflat, ResourceData.Set]
      cases h.fieldWriter "metadata" (h.flattenMetadata crb.ObjectMeta w.d) with
      | error err => rfl
      | ok v1 =>
        simp only
        cases h.fieldWriter "rule" (Val.list (flattenRules crb.Rules)) with
        | error err => rfl
        | ok v2 => rfl

theorem bindingRead_withId {σ : Type} (h : Helpers) (conn : Client ClusterRoleBinding σ)
    (w : World ClusterRoleBinding σ) (id2 ns1 ns2 name : String)
    (hflat : ∀ m d id, h.flattenMetadata m { d with id := id } = h.flattenMetadata m d)
    (hid1 : h.idParts w.d.id = Except.ok (ns1, name))
    (hid2 : h.idParts id2 = Except.ok (ns2, name)) :
    seen (resourceKubernetesClusterRoleBindingRead h conn (w.withId id2)) = seen (resourceKubernetesClusterRoleBindingRead h conn w) := by
  simp only [resourceKubernetesClusterRoleBindingRead, World.withId, hid1, hid2, World.called]
  cases conn.Get name w.srv with
  | mk res srv =>
    cases res with
    | error err => rfl
    | ok crb =>
      simp only [hflat, ResourceData.Set]
      cases h.fieldWriter "metadata" (h.flattenMetadata crb.ObjectMeta w.d) with
      | error err => rfl
      | ok v1 =>
        simp only
        cases h.fieldWriter "role_ref" (flattenRoleRef crb.RoleRef) with
        | error err => rfl
        | ok v2 =>
          simp only
          cases h.fieldWriter "subject" (Val.list (flattenSubjects crb.Subjects)) with
          | error err => rfl
          | ok v3 => rfl

theorem roleExists_withId {σ : Type} (h : Helpers) (conn : Client ClusterRole σ)
    (w : World ClusterRole σ) (id2 ns1 ns2 name : String)
    (hid1 : h.idParts w.d.id = Except.ok (ns1, name))
    (hid2 : h.idParts id2 = Except.ok (ns2, name)) :
    seenExists (resourceKubernetesClusterRoleExists h conn (w.withId id2)) = seenExists (resourceKubernetesClusterRoleExists h conn w) := by
  simp only [resourceKubernetesClusterRoleExists, World.withId, hid1, hid2, World.called]
  cases conn.Get name w.srv with
  | mk res srv =>
    cases res with
    | error err => by_cases h404 : isStatus404 err = true <;> simp [seenExists, h404]
    | ok crb => rfl

theorem roleDelete_withId {σ : Type} (h : Helpers) (conn : Client ClusterRole σ)
    (w : World ClusterRole σ) (id2 ns1 ns2 name : String)
    (hid1 : h.idParts w.d.id = Except.ok (ns1, name))
    (hid2 : h.idParts id2 = Except.ok (ns2, name)) :
    seen (resourceKubernetesClusterRoleDelete h conn (w.withId id2)) = seen (resourceKubernetesClusterRoleDelete h conn w) := by
  simp only [resourceKubernetesClusterRoleDelete, World.withId, hid1, hid2, World.called]
  cases conn.Delete name w.srv with
  | mk res srv => cases res <;> rfl

theorem roleUpdate_withId {σ : Type} (h : Helpers) (conn : Client ClusterRole σ)
    (w : World ClusterRole σ) (id2 ns1 ns2 name : String)
    (hflat : ∀ m d id, h.flattenMetadata m { d with id := id } = h.flattenMetadata m d)
    (hpatch : ∀ p q d id, h.patchMetadata p q { d with id := id } = h.patchMetadata p q d)
    (hid1 : h.idParts w.d.id = Except.ok (ns1, name))
    (hid2 : h.idParts id2 = Except.ok (ns2, name)) :
    (resourceKubernetesClusterRoleUpdate h conn (w.withId id2)).map seen = (resourceKubernetesClusterRoleUpdate h conn w).map seen := by
  simp only [resourceKubernetesClusterRoleUpdate, World.withId, hid1, hid2, hpatch]
  have hops : clusterRoleUpdateOps (h.patchMetadata "metadata.0." "/metadata/" w.d)
      { id := id2, attrs := w.d.attrs, changed := w.d.changed }
      = clusterRoleUpdateOps (h.patchMetadata "metadata.0." "/metadata/" w.d) w.d := rfl
  rw [hops]
  cases clusterRoleUpdateOps (h.patchMetadata "metadata.0." "/metadata/" w.d) w.d with
  | none => rfl
  | some ops =>
    simp only [Option.bind_eq_bind, Option.some_bind]
    cases h.marshalJSON ops with
    | error err => rfl
    | ok data =>
      simp only
      cases conn.Patch name PatchType.JSONPatchType data w.srv with
      | mk res srv =>
        cases res with
        | error err => rfl
        | ok out =>
          exact congrArg some (roleRead_withId h conn
            (w.called (Call.Patch name PatchType.JSONPatchType data) srv)
            id2 ns1 ns2 name hflat hid1 hid2)

theorem bindingExists_withId {σ : Type} (h : Helpers) (conn : Client ClusterRoleBinding σ)
    (w : World ClusterRoleBinding σ) (id2 ns1 ns2 name : String)
    (hid1 : h.idParts w.d.id = Except.ok (ns1, name))
    (hid2 : h.idParts id2 = Except.ok (ns2, name)) :
    seenExists (resourceKubernetesClusterRoleBindingExists h conn (w.withId id2)) = seenExists (resourceKubernetesClusterRoleBindingExists h conn w) := by
  simp only [resourceKubernetesClusterRoleBindingExists, World.withId, hid1, hid2, World.called]
  cases conn.Get name w.srv with
  | mk res srv =>
    cases res with
    | error err => by_cases h404 : isStatus404 err = true <;> simp [seenExists, h404]
    | ok crb => rfl

theorem bindingDelete_withId {σ : Type} (h : Helpers) (conn : Client ClusterRoleBinding σ)
    (w : World ClusterRoleBinding σ) (id2 ns1 ns2 name : String)
    (hid1 : h.idParts w.d.id = Except.ok (ns1, name))
    (hid2 : h.idParts id2 = Except.ok (ns2, name)) :
    seen (resourceKubernetesClusterRoleBindingDelete h conn (w.withId id2)) = seen (resourceKubernetesClusterRoleBindingDelete h conn w) := by
  simp only [resourceKubernetesClusterRoleBindingDelete, World.withId, hid1, hid2, World.called]
  cases conn.Delete name w.srv with
  | mk res srv => cases res <;> rfl

theorem bindingUpdate_withId {σ : Type} (h : Helpers) (conn : Client ClusterRoleBinding σ)
    (w : World ClusterRoleBinding σ) (id2 ns1 ns2 name : String)
    (hflat : ∀ m d id, h.flattenMetadata m { d with id := id } = h.flattenMetadata m d)
    (hpatch : ∀ p q d id, h.patchMetadata p q { d with id := id } = h.patchMetadata p q d)
    (hid1 : h.idParts w.d.id = Except.ok (ns1, name))
    (hid2 : h.idParts id2 = Except.ok (ns2, name)) :
    (resourceKubernetesClusterRoleBindingUpdate h conn (w.withId id2)).map seen = (resourceKubernetesClusterRoleBindingUpdate h conn w).map seen := by
  simp only [resourceKubernetesClusterRoleBindingUpdate, World.withId, hid1, hid2, hpatch]
  cases hc : w.d.HasChange "role_ref" with
  | true =>
    have hc2 : ResourceData.HasChange { id := id2, attrs := w.d.attrs, changed := w.d.changed }
        "role_ref" = true := hc
    simp only [hc2, if_true]
    rfl
  | false =>
    have hc2 : ResourceData.HasChange { id := id2, attrs := w.d.attrs, changed := w.d.changed }
        "role_ref" = false := hc
    simp only [hc2]
    have hops : clusterRoleBindingUpdateOps (h.patchMetadata "metadata.0." "/metadata/" w.d)
        { id := id2, attrs := w.d.attrs, changed := w.d.changed }
        = clusterRoleBindingUpdateOps (h.patchMetadata "metadata.0." "/metadata/" w.d) w.d := rfl
    rw [hops]
    cases clusterRoleBindingUpdateOps (h.patchMetadata "metadata.0." "/metadata/" w.d) w.d with
    | none => rfl
    | some ops =>
      simp only [Option.bind_eq_bind, Option.some_bind]
      cases h.marshalJSON ops with
      | error err => rfl
      | ok data =>
        simp only
        cases conn.Patch name PatchType.JSONPatchType data w.srv with
        | mk res srv =>
          cases res with
          | error err => rfl
          | ok out =>
            exact congrArg some (bindingRead_withId h conn
              (w.called (Call.Patch name PatchType.JSONPatchType data) srv)
              id2 ns1 ns2 name hflat hid1 hid2)

theorem isLabelChar_ne_slash (c : Char) (h : isLabelChar c = true) : c ≠ '/' := by
  intro hc
  subst hc
  revert h
  decide

theorem not_slash_mem_of_safe (s : String) (h : isDNSLabelSafe s = true) : '/' ∉ s.toList := by
  intro hmem
  have := (List.all_eq_true.mp h) '/' hmem
  exact isLabelChar_ne_slash '/' this rfl

theorem splitSlash_no_slash (cs : List Char) (h : '/' ∉ cs) : splitSlash cs = (cs, none) := by
  induction cs with
  | nil => rfl
  | cons c cs ih =>
    have hc : c ≠ '/' := fun e => h (e ▸ List.mem_cons_self _ _)
    have hcs : '/' ∉ cs := fun e => h (List.mem_cons_of_mem _ e)
    simp [splitSlash, hc, ih hcs]

theorem splitSlash_append (a b : List Char) (h : '/' ∉ a) :
    splitSlash (a ++ '/' :: b) = (a, some b) := by
  induction a with
  | nil => simp [splitSlash]
  | cons c cs ih =>
    have hc : c ≠ '/' := fun e => h (e ▸ List.mem_cons_self _ _)
    have hcs : '/' ∉ cs := fun e => h (List.mem_cons_of_mem _ e)
    simp [splitSlash, hc, ih hcs]

theorem idParts_buildId (ns name : String) (hns : isDNSLabelSafe ns = true)
    (hname : isDNSLabelSafe name = true) :
    idParts (buildId { Name := name, Namespace := ns }) = Except.ok (ns, name) := by
  have h1 := not_slash_mem_of_safe ns hns
  have h2 := not_slash_mem_of_safe name hname
  unfold buildId
  by_cases he : ns = ""
  · subst he
    simp only [if_true, idParts]
    rw [splitSlash_no_slash _ h2]
    rfl
  · simp only [he, if_false, idParts]
    have hl : (ns ++ "/" ++ name).toList = ns.toList ++ '/' :: name.toList := by
      simp [String.toList, String.data_append]
    rw [hl, splitSlash_append _ _ h1]
    have hc : name.toList.contains '/' = false := by
      simpa using h2
    simp only [hc]
    rfl

/-- C22. The identifier codec round-trips: for every DNS-label-safe namespace `ns`,
the empty namespace of cluster-scoped kinds included, and every DNS-label-safe name,
`idParts` applied to the identifier `buildId` produces for metadata with that
namespace and name succeeds and returns exactly `(ns, name)`. -/
theorem identifier_roundtrip (m : ObjectMeta) (hns : isDNSLabelSafe m.Namespace = true)
    (hname : isDNSLabelSafe m.Name = true) :
    idParts (buildId m) = Except.ok (m.Namespace, m.Name) := by
  have h := idParts_buildId m.Namespace m.Name hns hname
  have hb : buildId m = buildId { Name := m.Name, Namespace := m.Namespace } := rfl
  rw [hb]
  exact h

theorem identifier_roundtrip_witness :
    (idParts (buildId { Name := "reader", Namespace := "" }) = Except.ok ("", "reader")) ∧
    (idParts (buildId { Name := "web-1", Namespace := "kube-system" })
      = Except.ok ("kube-system", "web-1")) :=
  ⟨identifier_roundtrip { Name := "reader", Namespace := "" } (by decide) (by decide),
   identifier_roundtrip { Name := "web-1", Namespace := "kube-system" } (by decide)
     (by decide)⟩

/-- C28. The handlers are cluster-scoped: Read, Exists, Update and Delete of both
kinds use the identifier only through the name `idParts` decodes from it. Two runs
from worlds that differ only in the stored identifier, where both identifiers decode
to the same name (under whatever namespace parts), make the same calls to the backing
client, leave the same server state and attribute tree, and return the same result.
The helpers `flattenMetadata` and `patchMetadata` are assumed not to read the
identifier. -/
theorem cluster_scoped {σ τ : Type} (h : Helpers)
    (connR : Client ClusterRole σ) (wR : World ClusterRole σ)
    (connB : Client ClusterRoleBinding τ) (wB : World ClusterRoleBinding τ)
    (idR nsR1 nsR2 nameR idB nsB1 nsB2 nameB : String)
    (hflat : ∀ m d id, h.flattenMetadata m { d with id := id } = h.flattenMetadata m d)
    (hpatch : ∀ p q d id, h.patchMetadata p q { d with id := id } = h.patchMetadata p q d)
    (hidR1 : h.idParts wR.d.id = Except.ok (nsR1, nameR))
    (hidR2 : h.idParts idR = Except.ok (nsR2, nameR))
    (hidB1 : h.idParts wB.d.id = Except.ok (nsB1, nameB))
    (hidB2 : h.idParts idB = Except.ok (nsB2, nameB)) :
    (seen (resourceKubernetesClusterRoleRead h connR (wR.withId idR))
        = seen (resourceKubernetesClusterRoleRead h connR wR) ∧
      seenExists (resourceKubernetesClusterRoleExists h connR (wR.withId idR))
        = seenExists (resourceKubernetesClusterRoleExists h connR wR) ∧
      (resourceKubernetesClusterRoleUpdate h connR (wR.withId idR)).map seen
        = (resourceKubernetesClusterRoleUpdate h connR wR).map seen ∧
      seen (resourceKubernetesClusterRoleDelete h connR (wR.withId idR))
        = seen (resourceKubernetesClusterRoleDelete h connR wR)) ∧
    (seen (resourceKubernetesClusterRoleBindingRead h connB (wB.withId idB))
        = seen (resourceKubernetesClusterRoleBindingRead h connB wB) ∧
      seenExists (resourceKubernetesClusterRoleBindingExists h connB (wB.withId idB))
        = seenExists (resourceKubernetesClusterRoleBindingExists h connB wB) ∧
      (resourceKubernetesClusterRoleBindingUpdate h connB (wB.withId idB)).map seen
        = (resourceKubernetesClusterRoleBindingUpdate h connB wB).map seen ∧
      seen (resourceKubernetesClusterRoleBindingDelete h connB (wB.withId idB))
        = seen (resourceKubernetesClusterRoleBindingDelete h connB wB)) :=
  ⟨⟨roleRead_withId h connR wR idR nsR1 nsR2 nameR hflat hidR1 hidR2,
    roleExists_withId h connR wR idR nsR1 nsR2 nameR hidR1 hidR2,
    roleUpdate_withId h connR wR idR nsR1 nsR2 nameR hflat hpatch hidR1 hidR2,
    roleDelete_withId h connR wR idR nsR1 nsR2 nameR hidR1 hidR2⟩,
   ⟨bindingRead_withId h connB wB idB nsB1 nsB2 nameB hflat hidB1 hidB2,
    bindingExists_withId h connB wB idB nsB1 nsB2 nameB hidB1 hidB2,
    bindingUpdate_withId h connB wB idB nsB1 nsB2 nameB hflat hpatch hidB1 hidB2,
    bindingDelete_withId h connB wB idB nsB1 nsB2 nameB hidB1 hidB2⟩⟩

theorem cluster_scoped_witness :
    (specHelpers.idParts "team-a/reader" = Except.ok ("team-a", "reader") ∧
      specHelpers.idParts "team-b/reader" = Except.ok ("team-b", "reader")) ∧
    (seen (resourceKubernetesClusterRoleRead specHelpers (okClient sampleRole)
          ((freshWorld ClusterRole sampleRoleDataScoped).withId "team-b/reader"))
        = seen (resourceKubernetesClusterRoleRead specHelpers (okClient sampleRole)
          (freshWorld ClusterRole sampleRoleDataScoped)) ∧
      (resourceKubernetesClusterRoleBindingUpdate specHelpers (okClient sampleBinding)
          ((freshWorld ClusterRoleBinding sampleBindingDataScoped).withId "admins")).map seen
        = (resourceKubernetesClusterRoleBindingUpdate specHelpers (okClient sampleBinding)
          (freshWorld ClusterRoleBinding sampleBindingDataScoped)).map seen) :=
  have hw := cluster_scoped specHelpers (okClient sampleRole)
    (freshWorld ClusterRole sampleRoleDataScoped) (okClient sampleBinding)
    (freshWorld ClusterRoleBinding sampleBindingDataScoped)
    "team-b/reader" "team-a" "team-b" "reader" "admins" "team-a" "" "admins"
    (fun _ _ _ => rfl) (fun _ _ _ _ => rfl) rfl rfl rfl rfl
  ⟨⟨rfl, rfl⟩, hw.1.1, hw.2.2.2.1⟩

theorem buildId_ne_empty (m : ObjectMeta) (h : m.Name ≠ "") : buildId m ≠ "" := by
  unfold buildId
  by_cases he : m.Namespace = ""
  · simpa [he] using h
  · simp only [he, if_false]
    intro hcat
    have hd := congrArg String.data hcat
    simp [String.data_append] at hd

/-- C23. Against a backing client that stores the created object and returns it
unchanged from Get, with the identifier codec of the spec and a `d.Set` that accepts
what it is given, creating a cluster role from a list `x` of rule blocks under a
DNS-label-safe, non-empty name succeeds: the handler returns nil, the stored
identifier is `buildId` of the metadata and is not empty, and the Read that follows
has set the rule attribute from `flattenRules (expandRules x)`, a list with as many
rules as `x` whose five fields carry the strings of `x` in order. -/
theorem create_then_read_rules {σ : Type} (h : Helpers) (conn : Client ClusterRole σ)
    (w : World ClusterRole σ) (md x : Slice Val) (store : ClusterRole → σ)
    (conv : String → Val → Val)
    (hparts : h.idParts = idParts) (hbuild : h.buildId = buildId)
    (hconv : ∀ k v, h.fieldWriter k v = Except.ok (conv k v))
    (hmd : (w.d.Get "metadata").asList = some md)
    (hx : (w.d.Get "rule").asList = some x)
    (hblocks : ∀ v ∈ x.toList, isRuleBlock v = true)
    (hns : isDNSLabelSafe (h.expandMetadata md).Namespace = true)
    (hname : isDNSLabelSafe (h.expandMetadata md).Name = true)
    (hne : (h.expandMetadata md).Name ≠ "")
    (hcreate : ∀ obj, conn.Create obj w.srv = (Except.ok obj, store obj))
    (hget : ∀ obj, conn.Get obj.ObjectMeta.Name (store obj) = (Except.ok obj, store obj)) :
    ∃ rules r, expandRules x = some rules ∧
      resourceKubernetesClusterRoleCreate h conn w = some r ∧
      r.1 = none ∧
      r.2.d.id = buildId (h.expandMetadata md) ∧ r.2.d.id ≠ "" ∧
      r.2.calls = w.calls ++
        [Call.Create { ObjectMeta := h.expandMetadata md, Rules := rules },
         Call.Get (h.expandMetadata md).Name] ∧
      GoMap.lookup r.2.d.attrs "rule" = some (conv "rule" (Val.list (flattenRules rules))) ∧
      (flattenRules rules).len = x.len ∧
      ∀ i, i < x.len → ∀ k ∈ ruleKeys, ∃ ss,
        (elemAt (flattenRules rules).toList i).field k = some ss ∧
        (elemAt x.toList i).field k = some ss := by
  obtain ⟨rs, hrs, hlen, hall⟩ := mapOpt_expandRulesElem_ruleBlocks x.toList hblocks
  have hexp : expandRules x = some (Slice.mk rs) := by simp [expandRules_eq, hrs]
  have hcodec : h.idParts (h.buildId (h.expandMetadata md))
      = Except.ok ((h.expandMetadata md).Namespace, (h.expandMetadata md).Name) := by
    rw [hparts, hbuild]
    exact idParts_buildId _ _ hns hname
  have hg := hget { ObjectMeta := h.expandMetadata md, Rules := Slice.mk rs }
  simp only at hg
  have hrun : resourceKubernetesClusterRoleCreate h conn w = some (none,
      { d := { id := h.buildId (h.expandMetadata md),
               attrs := GoMap.set (GoMap.set w.d.attrs "metadata"
                 (conv "metadata" (h.flattenMetadata (h.expandMetadata md)
                   { id := h.buildId (h.expandMetadata md), attrs := w.d.attrs,
                     changed := w.d.changed })))
                 "rule" (conv "rule" (Val.list (flattenRules (Slice.mk rs)))),
               changed := w.d.changed },
        srv := store { ObjectMeta := h.expandMetadata md, Rules := Slice.mk rs },
        calls := w.calls
          ++ [Call.Create { ObjectMeta := h.expandMetadata md, Rules := Slice.mk rs }]
          ++ [Call.Get (h.expandMetadata md).Name] }) := by
    simp only [resourceKubernetesClusterRoleCreate, hmd, hx, hexp, Option.bind_eq_bind,
      Option.some_bind, hcreate, World.called, ResourceData.SetId,
      resourceKubernetesClusterRoleRead, hcodec, hg, ResourceData.Set, hconv]
  refine ⟨Slice.mk rs, _, hexp, hrun, rfl, ?_, ?_, ?_, ?_, ?_, ?_⟩
  · simp only [hbuild]
  · simp only [hbuild]
    exact buildId_ne_empty _ hne
  · simp
  · simp only [GoMap.lookup_set]
    simp
  · simp [flattenRules_eq, Slice.len, Slice.toList, hlen]
  · intro i hi k hk
    simpa [flattenRules_eq, Slice.toList] using hall i hi k hk

theorem create_then_read_rules_witness :
    ∃ rules r, expandRules (Slice.mk [sampleRuleBlock]) = some rules ∧
      resourceKubernetesClusterRoleCreate specHelpers storingClient emptyStore = some r ∧
      r.1 = none ∧
      r.2.d.id = buildId (specHelpers.expandMetadata sampleMetadata) ∧
      r.2.d.id ≠ "" ∧
      r.2.calls = emptyStore.calls ++
        [Call.Create { ObjectMeta := specHelpers.expandMetadata sampleMetadata, Rules := rules },
         Call.Get (specHelpers.expandMetadata sampleMetadata).Name] ∧
      GoMap.lookup r.2.d.attrs "rule" = some (Val.list (flattenRules rules)) ∧
      (flattenRules rules).len = (Slice.mk [sampleRuleBlock]).len ∧
      ∀ i, i < (Slice.mk [sampleRuleBlock]).len → ∀ k ∈ ruleKeys, ∃ ss,
        (elemAt (flattenRules rules).toList i).field k = some ss ∧
        (elemAt (Slice.mk [sampleRuleBlock]).toList i).field k = some ss :=
  create_then_read_rules specHelpers storingClient emptyStore sampleMetadata
    (Slice.mk [sampleRuleBlock]) (fun obj => some obj) (fun _ v => v) rfl rfl
    (fun _ _ => rfl) rfl rfl
    (by
      intro v hv
      simp only [Slice.toList, List.mem_singleton] at hv
      subst hv
      decide)
    (by decide) (by decide) (by decide) (fun _ => rfl)
    (fun obj => by simp [storingClient])

/-! ## Claims on the pod spec schema -/

theorem schemaLookup_filter_ne (m : List (String × Schema)) (k q : String) :
    List.lookup q (m.filter (fun p => p.1 != k)) = if q = k then none else List.lookup q m := by
  induction m with
  | nil => simp
  | cons p m ih =>
    obtain ⟨a, b⟩ := p
    by_cases hak : a = k
    · subst hak
      have hf : List.filter (fun p => p.1 != a) ((a, b) :: m)
          = List.filter (fun p => p.1 != a) m := by simp [List.filter_cons]
      rw [hf, ih]
      by_cases hq : q = a
      · simp [hq]
      · have : (q == a) = false := by simpa using hq
        simp [hq, List.lookup_cons, this]
    · have hne : (a != k) = true := by simpa using hak
      simp only [List.filter_cons, hne, if_true, List.lookup_cons, ih]
      by_cases hq : q = a
      · subst hq
        simp [hak]
      · have : (q == a) = false := by simpa using hq
        simp [this]

theorem schemaLookup_set (m : List (String × Schema)) (k : String) (v : Schema) (q : String) :
    schemaLookup (schemaSet m k v) q = if q = k then some v else schemaLookup m q := by
  unfold schemaLookup schemaSet
  by_cases hq : q = k
  · simp [List.lookup_cons, hq]
  · have : (q == k) = false := by simpa using hq
    simp [List.lookup_cons, this, schemaLookup_filter_ne, hq]

theorem lookup_map_snd {β γ : Type} (f : β → γ) (k : String) (l : List (String × β)) :
    List.lookup k (l.map (fun p => (p.1, f p.2))) = (List.lookup k l).map f := by
  induction l with
  | nil => rfl
  | cons p l ih =>
    obtain ⟨a, b⟩ := p
    simp only [List.map_cons, List.lookup_cons]
    cases k == a <;> simp [ih]

/-- C24. `podSpecFields false` has ForceNew set on every top-level field except
active_deadline_seconds and container; `podSpecFields true` has it set on none. -/
theorem podSpecFields_forceNew :
    (∀ p ∈ podSpecFields false,
      (p.2.attrs.ForceNew = true ↔ (p.1 ≠ "active_deadline_seconds" ∧ p.1 ≠ "container"))) ∧
    (∀ p ∈ podSpecFields true, p.2.attrs.ForceNew = false) ∧
    (podSpecFields false).map Prod.fst =
      ["active_deadline_seconds", "affinity", "container", "dns_policy", "host_ipc",
       "host_network", "host_pid", "hostname", "image_pull_secrets", "init_container",
       "node_name", "node_selector", "restart_policy", "security_context",
       "service_account_name", "automount_service_account_token", "subdomain",
       "termination_grace_period_seconds", "volume"] := by
  refine ⟨?_, ?_, ?_⟩
  · decide
  · decide
  · decide

theorem podSpecFields_shapes :
    (podSpecFields true).map (fun p => (p.1, p.2.attrs.shape))
      = (podSpecFields false).map (fun p => (p.1, p.2.attrs.shape)) := by
  rfl

/-- C30. The `isUpdatable` argument of `podSpecFields` changes nothing but ForceNew in
the top-level schemas: `podSpecFields true` and `podSpecFields false` have the same
keys, and for every key the two schemas agree on type, Optional, Required, Computed,
Default and MaxItems. -/
theorem podSpecFields_isUpdatable_frame (k : String) :
    (podSpecFields true).map Prod.fst = (podSpecFields false).map Prod.fst ∧
    (schemaLookup (podSpecFields true) k).isSome = (schemaLookup (podSpecFields false) k).isSome ∧
    (schemaLookup (podSpecFields true) k).map (fun s => s.attrs.shape)
      = (schemaLookup (podSpecFields false) k).map (fun s => s.attrs.shape) := by
  have hshape : (schemaLookup (podSpecFields true) k).map (fun s => s.attrs.shape)
      = (schemaLookup (podSpecFields false) k).map (fun s => s.attrs.shape) := by
    unfold schemaLookup
    rw [← lookup_map_snd (fun s => s.attrs.shape) k (podSpecFields true),
      ← lookup_map_snd (fun s => s.attrs.shape) k (podSpecFields false), podSpecFields_shapes]
  refine ⟨by decide, ?_, hshape⟩
  have := congrArg Option.isSome hshape
  simpa using this

/-- C25, on the code. In the schema `volumeSchema` returns, whatever the common volume
sources, secret.default_mode has `Default` 0644 (420), while config_map.default_mode
and downward_api.default_mode have no `Default`, although the three attributes carry
the same description, which says "Defaults to 0644". -/
theorem volumeSchema_default_mode (common : List (String × Schema)) :
    (nestedAttrs (volumeSchema common) "secret" "default_mode").map (fun a => a.Default)
      = some (some (DefaultValue.int 420)) ∧
    (nestedAttrs (volumeSchema common) "config_map" "default_mode").map (fun a => a.Default)
      = some none ∧
    (nestedAttrs (volumeSchema common) "downward_api" "default_mode").map (fun a => a.Default)
      = some none ∧
    (nestedAttrs (volumeSchema common) "config_map" "default_mode").map (fun a => a.Description)
      = (nestedAttrs (volumeSchema common) "secret" "default_mode").map (fun a => a.Description) ∧
    (nestedAttrs (volumeSchema common) "downward_api" "default_mode").map (fun a => a.Description)
      = (nestedAttrs (volumeSchema common) "secret" "default_mode").map (fun a => a.Description) := by
  have hs : ∀ m k v q, schemaLookup (schemaSet m k v) q
      = if q = k then some v else schemaLookup m q := schemaLookup_set
  refine ⟨?_, ?_, ?_, ?_, ?_⟩ <;>
    simp only [nestedAttrs, volumeSchema, hs] <;> rfl

end Rbac
